import Mathlib

/-
  Verification of the compiler-service repository (TypeScript) against its
  natural-language specification.

  The development shallowly embeds the compute-graph IR builder, the
  optimizer passes, the parameter table and the ClickHouse SQL emitter of
  the repository.  JavaScript objects held in `this.nodes` are modelled as a
  heap of (id, node) pairs plus the ordered list of keys currently present
  (`delete` removes the key but captured references still see the object,
  which the merge pass exploits).  JavaScript numbers are modelled as
  rationals; machine-float formatting is abstracted by `numToString`, which
  agrees with JavaScript `String(n)` on the integral and finite-decimal
  values that occur in this code base.
-/

namespace CompilerService

/-! ## Basic string utilities -/

/-- Decimal digit character, `48 + n` for `n < 10` (mirrors `${count}`). -/
def digitChar (n : Nat) : Char := Char.ofNat (48 + n)

/-- Little-endian decimal digits; the fuel bounds the digit count (the
value itself is always enough fuel). -/
def natDigitsLEAux : Nat → Nat → List Char
  | 0, _ => []
  | _ + 1, 0 => []
  | fuel + 1, n + 1 => digitChar ((n + 1) % 10) :: natDigitsLEAux fuel ((n + 1) / 10)

/-- Little-endian decimal digit list of a positive number. -/
def natDigitsLE (n : Nat) : List Char := natDigitsLEAux n n

/-- Decimal rendering of a natural number, as JavaScript template strings do. -/
def natStr (n : Nat) : String := if n = 0 then "0" else ⟨(natDigitsLE n).reverse⟩

/-- Decimal rendering of an integer. -/
def intStr (i : Int) : String := if i < 0 then "-" ++ natStr i.natAbs else natStr i.natAbs

/-- Single-quote character, used to build SQL literals. -/
def sq : String := ⟨[Char.ofNat 39]⟩

/-- Smallest power of ten the denominator divides, if any (bounded search). -/
def denomPow (den : Nat) : Option Nat :=
  (List.range 21).find? (fun k => 10 ^ k % den = 0)

/-- Rendering of a JavaScript number.  Integral values print like
`String(n)`; finite decimal fractions print with a decimal point.  (Values
that are not finite decimals do not occur in the modelled code paths.) -/
def numToString (q : ℚ) : String :=
  if q.den = 1 then intStr q.num
  else
    match denomPow q.den with
    | some k =>
      let scaled : Nat := q.num.natAbs * (10 ^ k / q.den)
      let ip : Nat := scaled / 10 ^ k
      let fpDigits : List Char := (natDigitsLE (scaled % 10 ^ k)).reverse
      let fpPadded : List Char := List.replicate (k - fpDigits.length) '0' ++ fpDigits
      (if q.num < 0 then "-" else "") ++ natStr ip ++ "." ++ ⟨fpPadded⟩
    | none => intStr q.num ++ "/" ++ natStr q.den

/-- Substring test (JavaScript `String.prototype.includes`). -/
def charsContain (hay needle : List Char) : Bool :=
  match hay with
  | [] => needle.isEmpty
  | _ :: rest => needle.isPrefixOf hay || charsContain rest needle

/-- String containment, `hay.includes(needle)`. -/
def strIncludes (hay needle : String) : Bool := charsContain hay.data needle.data

/-! ## JavaScript runtime values -/

/-- A primitive JavaScript value (string, number, or boolean). -/
inductive Prim where
  | str (s : String)
  | num (q : ℚ)
  | pbool (b : Bool)
deriving DecidableEq, Repr

/-- `typeof` of a primitive value. -/
def Prim.typeofStr : Prim → String
  | .str _ => "string"
  | .num _ => "number"
  | .pbool _ => "boolean"

/-- A value as accepted by constants and the parameter table:
a primitive or an array of primitives. -/
inductive JSValue where
  | prim (p : Prim)
  | arr (elems : List Prim)
deriving DecidableEq, Repr

/-- Read a string out of a value (JS `as string` on values that are
strings in every reachable state). -/
def JSValue.asString : JSValue → String
  | .prim (.str s) => s
  | _ => ""

/-! ## Time ranges, expressions and filters (`schemas.ts` data model) -/

/-- A time range: absolute unix-second bounds, or a relative/trading
duration with unit.  `fromTs`/`toTs` are the `from`/`to` fields. -/
inductive TimeRange where
  | absolute (fromTs toTs : ℚ)
  | relative (duration : ℚ) (unit : String) (atTs : Option ℚ)
  | trading (duration : ℚ) (unit : String) (atTs : Option ℚ)
deriving DecidableEq, Repr

mutual
/-- The recursive `Expression` union of the input language.  The unused
pass-through fields (`comment`, aggregate `params`) are omitted. -/
inductive Expression where
  | constant (value : JSValue) (aliasName : Option String)
  | metric (metric : String) (filt : Option Filter) (aliasName : Option String)
  | math (operator : String) (operands : List Expression) (aliasName : Option String)
  | aggregate (target : Expression) (aggregation : String)
      (timeRange : Option TimeRange) (filt : Option Filter) (aliasName : Option String)
deriving Repr

/-- The recursive `Filter` union: simple comparison or composite. -/
inductive Filter where
  | simple (target : Expression) (op : String) (value : Expression)
  | composite (operator : String) (filters : List Filter)
deriving Repr
end

/-- The `alias` field shared by every expression variant. -/
def Expression.aliasOf : Expression → Option String
  | .constant _ a => a
  | .metric _ _ a => a
  | .math _ _ a => a
  | .aggregate _ _ _ _ a => a

/-! ## Compute-graph node model (`types.d.ts`) -/

/-- Node identifiers are strings such as `filter_1`. -/
abbrev NodeID := String

/-- One side of a filter condition: a node reference with resolved metric
name, an inlined parameter placeholder, or an inline expression. -/
inductive CondSide where
  | inputRef (input : NodeID) (metric : String)
  | param (parameter : String)
  | expr (e : Expression)
deriving Repr

/-- A filter node's condition. -/
structure Condition where
  left : CondSide
  right : CondSide
  op : String
deriving Repr

/-- A projection column: a named column or an expression column. -/
inductive ProjColumn where
  | name (name : String) (aliasName : Option String) (sourceNode : Option NodeID)
  | exprCol (e : Expression) (aliasName : Option String) (sourceNode : Option NodeID)
deriving Repr

/-- A sort criterion; `expression` holds a node id (or an inlined literal
after parameter inlining). -/
structure SortCriterion where
  expression : String
  direction : String
deriving DecidableEq, Repr

/-- One side of a join condition. -/
structure JoinSide where
  input : NodeID
  column : String
deriving DecidableEq, Repr

/-- A pairwise join condition. -/
structure JoinCondition where
  left : JoinSide
  right : JoinSide
  op : String
deriving DecidableEq, Repr

/-- The metadata bag carried by nodes (absent fields default). -/
structure NodeMetadata where
  isGrouping : Bool := false
  isGrouped : Bool := false
  groupDimension : Option String := none
  offset : Option ℚ := none
  limit : Option ℚ := none
  isRequiredProjection : Bool := false
  hasParameter : Bool := false
  isParameter : Bool := false
deriving DecidableEq, Repr

/-- The variant payload of a compute node. -/
inductive NodeData where
  | source (table : String) (timeColumn : Option String)
  | projection (columns : List ProjColumn)
  | expression (expression : Expression) (aliasName : Option String)
  | filter (condition : Condition)
  | compositeFilter (operator : String)
  | sort (criteria : List SortCriterion)
  | limit (limit : ℚ)
  | join (joinType : String) (joinConditions : List JoinCondition)
deriving Repr

/-- A compute-graph node. -/
structure ComputeNode where
  id : NodeID
  data : NodeData
  inputs : List NodeID
  isTerminal : Bool := false
  metadata : Option NodeMetadata := none
deriving Repr

/-- The node's `type` discriminator string. -/
def ComputeNode.typeStr (n : ComputeNode) : String :=
  match n.data with
  | .source _ _ => "source"
  | .projection _ => "projection"
  | .expression _ _ => "expression"
  | .filter _ => "filter"
  | .compositeFilter _ => "composite-filter"
  | .sort _ => "sort"
  | .limit _ => "limit"
  | .join _ _ => "join"

/-- The metadata bag, with absent metadata read as all-defaults. -/
def ComputeNode.meta (n : ComputeNode) : NodeMetadata := n.metadata.getD {}

/-! ## Node-id generation (`generateNodeID`) -/

/-- The keys of `nodeTypesCounter`: one per-node-type counter. -/
inductive CtrType where
  | source | filter | compositeFilter | projection | aggregation
  | expression | sort | limit | join | aggregate
deriving DecidableEq, Repr

/-- The counter key with `-` replaced by `_`, as `generateNodeID` does. -/
def CtrType.keyStr : CtrType → String
  | .source => "source"
  | .filter => "filter"
  | .compositeFilter => "composite_filter"
  | .projection => "projection"
  | .aggregation => "aggregation"
  | .expression => "expression"
  | .sort => "sort"
  | .limit => "limit"
  | .join => "join"
  | .aggregate => "aggregate"

/-- The id `<type>_<k>` produced for counter value `k`. -/
def mkId (t : CtrType) (k : Nat) : String := t.keyStr ++ "_" ++ natStr k

/-- The per-type id counters of a graph. -/
structure Counters where
  source : Nat := 0
  filter : Nat := 0
  compositeFilter : Nat := 0
  projection : Nat := 0
  aggregation : Nat := 0
  expression : Nat := 0
  sort : Nat := 0
  limit : Nat := 0
  join : Nat := 0
  aggregate : Nat := 0
deriving DecidableEq, Repr

/-- Read a counter. -/
def Counters.get (c : Counters) : CtrType → Nat
  | .source => c.source
  | .filter => c.filter
  | .compositeFilter => c.compositeFilter
  | .projection => c.projection
  | .aggregation => c.aggregation
  | .expression => c.expression
  | .sort => c.sort
  | .limit => c.limit
  | .join => c.join
  | .aggregate => c.aggregate

/-- Update a counter. -/
def Counters.set (c : Counters) (t : CtrType) (v : Nat) : Counters :=
  match t with
  | .source => { c with source := v }
  | .filter => { c with filter := v }
  | .compositeFilter => { c with compositeFilter := v }
  | .projection => { c with projection := v }
  | .aggregation => { c with aggregation := v }
  | .expression => { c with expression := v }
  | .sort => { c with sort := v }
  | .limit => { c with limit := v }
  | .join => { c with join := v }
  | .aggregate => { c with aggregate := v }

/-! ## The graph state (`ComputeGraph` fields)

`heap` is the store of JavaScript node objects ever created, keyed by id;
`present` is the ordered key list of `this.nodes` (insertion order, as
`Object.values` iterates).  Deleting a node removes its key from `present`
but captured references still read and write the heap entry. -/

/-- Graph state: node heap, present key list, id counters, parameter table. -/
structure Graph where
  heap : List (NodeID × ComputeNode) := []
  present : List NodeID := []
  counters : Counters := {}
  parameters : List (String × JSValue) := []

/-- Heap read through a captured object reference (ignores `present`). -/
def heapGet? (h : List (NodeID × ComputeNode)) (id : NodeID) : Option ComputeNode :=
  (h.find? (fun p => p.1 = id)).map (·.2)

/-- Heap write: replace in place, or append a fresh entry. -/
def heapSet (h : List (NodeID × ComputeNode)) (id : NodeID) (n : ComputeNode) :
    List (NodeID × ComputeNode) :=
  if h.any (fun p => p.1 = id) then h.map (fun p => if p.1 = id then (id, n) else p)
  else h ++ [(id, n)]

/-- `this.nodes[id]` — lookup that respects key deletion. -/
def Graph.getNode? (g : Graph) (id : NodeID) : Option ComputeNode :=
  if id ∈ g.present then heapGet? g.heap id else none

/-- `Object.values(this.nodes)` in insertion order. -/
def Graph.nodesList (g : Graph) : List ComputeNode :=
  g.present.filterMap (heapGet? g.heap)

/-- Number of nodes in the graph. -/
def Graph.size (g : Graph) : Nat := g.present.length

/-- Store a node object under its id (`this.nodes[node.id] = node`). -/
def Graph.setNode (g : Graph) (n : ComputeNode) : Graph :=
  { g with
    heap := heapSet g.heap n.id n
    present := if n.id ∈ g.present then g.present else g.present ++ [n.id] }

/-- Mutate the node object with the given id (in-place field update through
a reference; present or not). -/
def Graph.updateNode (g : Graph) (id : NodeID) (f : ComputeNode → ComputeNode) : Graph :=
  { g with heap := g.heap.map (fun p => if p.1 = id then (p.1, f p.2) else p) }

/-- `generateNodeID(type)`: bump the per-type counter and build the id. -/
def Graph.genId (g : Graph) (t : CtrType) : Graph × NodeID :=
  let c := g.counters.get t
  ({ g with counters := g.counters.set t (c + 1) }, mkId t (c + 1))

/-- `addNode`: store the node, flip each existing input non-terminal, and
mark the new node terminal. -/
def Graph.addNode (g : Graph) (n : ComputeNode) : Graph × NodeID :=
  let g1 := g.setNode n
  let g2 := n.inputs.foldl
    (fun g inputId =>
      if (g.getNode? inputId).isSome then
        g.updateNode inputId (fun m => { m with isTerminal := false })
      else g) g1
  (g2.updateNode n.id (fun m => { m with isTerminal := true }), n.id)

/-- `removeNode`: recompute each input's terminal flag — note the
reference scan still sees the node that is being removed — then delete
the key. -/
def Graph.removeNode (g : Graph) (id : NodeID) : Graph :=
  match g.getNode? id with
  | none => g
  | some node =>
    let g1 := node.inputs.foldl
      (fun g inputId =>
        if (g.getNode? inputId).isSome then
          let isStillReferenced := g.nodesList.any (fun n => inputId ∈ n.inputs)
          g.updateNode inputId (fun m => { m with isTerminal := !isStillReferenced })
        else g) g
    { g1 with present := g1.present.filter (fun k => k ≠ id) }

/-- `findDependentNodes`: present nodes that list `id` among their inputs. -/
def Graph.findDependentNodes (g : Graph) (id : NodeID) : List ComputeNode :=
  g.nodesList.filter (fun n => id ∈ n.inputs)

/-! ## Errors raised by the core -/

/-- The error conditions of the compiler core (thrown `Error`s, plus the
`TypeError` crashes reachable on malformed graphs, plus fuel exhaustion of
the embedding which is proved unreachable). -/
inductive GError where
  | cycleDetected (nodeId : NodeID)
  | nodeNotFound (nodeId : NodeID)
  | missingInput (nodeId inputId : NodeID)
  | fuelExhausted
  | unknownMetric (m : String)
  | unknownDimension (d : String)
  | noCommonPrimaryKey (t1 t2 : String)
  | mixedTypeArray
  | unsupportedArrayType
  | noUserQuery
  | invalidAggregationTarget
  | unsupportedAggregation (s : String)
  | missingParentCrash (id : NodeID)
  | unknownTable (t : String)
deriving DecidableEq, Repr

/-! ## Parameter table (`createParameter`) -/

/-- The `{name: Type}` placeholder literal. -/
def placeholder (name ty : String) : String := "\x7b" ++ name ++ ": " ++ ty ++ "\x7d"

/-- `op?.includes('LIKE')`. -/
def likeOp (op? : Option String) : Bool :=
  match op? with
  | some op => strIncludes op "LIKE"
  | none => false

/-- `createParameter(value, op?)`: numbers and booleans are inlined, the
empty array becomes `[]`, strings (`%`-wrapped under LIKE) and
homogeneously-typed arrays are stored and returned as typed placeholders;
mixed-type arrays throw. -/
def Graph.createParameter (g : Graph) (value : JSValue) (op? : Option String) :
    Except GError (String × Graph) :=
  let paramName := "param_" ++ natStr (g.parameters.length + 1)
  let value := match value with
    | .prim (.str s) => if likeOp op? then JSValue.prim (.str ("%" ++ s ++ "%")) else value
    | v => v
  match value with
  | .prim (.num q) => .ok (numToString q, g)
  | .prim (.pbool b) => .ok (if b then "1" else "0", g)
  | .prim (.str _) =>
    .ok (placeholder paramName "String",
         { g with parameters := g.parameters ++ [(paramName, value)] })
  | .arr [] => .ok ("[]", g)
  | .arr (p :: ps) =>
    if (p :: ps).all (fun v => v.typeofStr = p.typeofStr) then
      let ty := match p with
        | .str _ => "Array(String)"
        | .num _ => "Array(Float64)"
        | .pbool _ => "Array(Boolean)"
      .ok (placeholder paramName ty,
           { g with parameters := g.parameters ++ [(paramName, JSValue.arr (p :: ps))] })
    else .error .mixedTypeArray


/-! ## Execution order (`getExecutionOrder`) -/

/-- State of the depth-first traversal: the `visited` set, the `processing`
set (active recursion path, most recent first), and the accumulated
post-order node list. -/
structure VisitState where
  visited : List NodeID := []
  processing : List NodeID := []
  ordered : List ComputeNode := []

/-- The recursive `visit` of `getExecutionOrder`.  `fuel` bounds the
recursion depth of the embedding; it is proved sufficient below.  Cycle
detection throws when re-entering a node on the active path; missing nodes
and missing inputs throw their dedicated errors. -/
def visit (g : Graph) : Nat → VisitState → NodeID → Except GError VisitState
  | 0, _, _ => .error .fuelExhausted
  | fuel + 1, st, nodeId =>
    if nodeId ∈ st.processing then .error (.cycleDetected nodeId)
    else if nodeId ∈ st.visited then .ok st
    else
      match g.getNode? nodeId with
      | none => .error (.nodeNotFound nodeId)
      | some node => do
        let st1 : VisitState := { st with processing := nodeId :: st.processing }
        let st2 ← node.inputs.foldlM
          (fun st inputId =>
            if (g.getNode? inputId).isNone then
              Except.error (.missingInput nodeId inputId)
            else visit g fuel st inputId) st1
        pure { st2 with
               processing := st2.processing.erase nodeId
               visited := st2.visited ++ [nodeId]
               ordered := st2.ordered ++ [node] }

/-- `getExecutionOrder()`: visit every source node, then sweep the
remaining nodes; returns the post-order list. -/
def Graph.getExecutionOrder (g : Graph) : Except GError (List ComputeNode) := do
  let fuel := g.size + 1
  let sourceIds := (g.nodesList.filter (fun n => n.typeStr = "source")).map (·.id)
  let st ← sourceIds.foldlM (visit g fuel) {}
  let st ← g.present.foldlM (visit g fuel) st
  pure st.ordered

/-! ## Configuration (spec-modelled)

Modelled from the spec: the repository file `src/settings.ts` holding
`DEFAULT_CONFIG` is not part of the provided sources.  Section 6 of the
specification fixes its shape for the market-data domain: tables `tickers`
and `daily_agg` sharing primary key `ticker`, `daily_agg.timeColumn =
date`, and `daily_agg.alwaysIncludeColumns = [ticker, date]`; the metric
map sends ticker metrics (`sector`, `country`, `active`, `ticker`) to
`tickers` and the time-series metrics (`close`, `volume`, `price`) to
`daily_agg` columns. -/

/-- Table configuration (`TableConfig`). -/
structure TableConfig where
  name : String
  timeColumn : Option String := none
  primaryKeys : List String := []
  alwaysIncludeColumns : List String := []

/-- Metric-to-column configuration (`ColumnConfig`). -/
structure ColumnConfig where
  table : String
  column : String
  ctype : String
  timeseries : Bool

/-- Compiler configuration (`QueryBuilderConfig`). -/
structure QueryBuilderConfig where
  tables : List (String × TableConfig)
  columnMappings : List (String × ColumnConfig)

/-- Association-list lookup used for the config records. -/
def alist.get? {α : Type} (l : List (String × α)) (k : String) : Option α :=
  (l.find? (fun p => p.1 = k)).map (·.2)

/-- Modelled from the spec: `DEFAULT_CONFIG` of missing `src/settings.ts`
(section 6 of the specification). -/
def DEFAULT_CONFIG : QueryBuilderConfig :=
  { tables :=
      [ ("tickers",
         { name := "tickers", primaryKeys := ["ticker"] }),
        ("daily_agg",
         { name := "daily_agg", timeColumn := some "date",
           primaryKeys := ["ticker", "date"],
           alwaysIncludeColumns := ["ticker", "date"] }) ]
    columnMappings :=
      [ ("sector", { table := "tickers", column := "sector", ctype := "String", timeseries := false }),
        ("country", { table := "tickers", column := "country", ctype := "String", timeseries := false }),
        ("active", { table := "tickers", column := "active", ctype := "UInt8", timeseries := false }),
        ("ticker", { table := "tickers", column := "ticker", ctype := "String", timeseries := false }),
        ("close", { table := "daily_agg", column := "close", ctype := "Float64", timeseries := true }),
        ("volume", { table := "daily_agg", column := "volume", ctype := "Float64", timeseries := true }),
        ("price", { table := "daily_agg", column := "close", ctype := "Float64", timeseries := true }) ] }

/-! ## Structural expression equality and alias generation (`compiler/index.ts`) -/

/-- The `type` discriminator of a time range. -/
def timeRangeTypeStr : TimeRange → String
  | .absolute _ _ => "absolute"
  | .relative _ _ _ => "relative"
  | .trading _ _ _ => "trading"

mutual
/-- `areExpressionsEqual`: same variant, same alias, and variant-specific
structural comparison.  (Constant comparison models JavaScript `===` by
value equality; array-valued constants never reach this comparison in the
modelled pipeline.) -/
def areExpressionsEqual : Expression → Expression → Bool
  | .constant v1 a1, .constant v2 a2 => a1 = a2 && v1 = v2
  | .metric m1 _ a1, .metric m2 _ a2 => a1 = a2 && m1 = m2
  | .aggregate t1 agg1 tr1 f1 a1, .aggregate t2 agg2 tr2 f2 a2 =>
    a1 = a2 && agg1 = agg2 &&
    (match tr1, tr2 with
     | some r1, some r2 =>
       timeRangeTypeStr r1 = timeRangeTypeStr r2 && areExpressionsEqual t1 t2 &&
       (match f1, f2 with
        | some g1, some g2 => areFiltersEqual g1 g2
        | none, none => true
        | _, _ => false)
     | none, none =>
       areExpressionsEqual t1 t2 &&
       (match f1, f2 with
        | some g1, some g2 => areFiltersEqual g1 g2
        | none, none => true
        | _, _ => false)
     | _, _ => false)
  | .math op1 ops1 a1, .math op2 ops2 a2 =>
    a1 = a2 && op1 = op2 && ops1.length = ops2.length &&
    areExpressionListsEqual ops1 ops2
  | _, _ => false

/-- Pointwise `every` over operand lists (lengths already checked). -/
def areExpressionListsEqual : List Expression → List Expression → Bool
  | e1 :: t1, e2 :: t2 => areExpressionsEqual e1 e2 && areExpressionListsEqual t1 t2
  | _, _ => true

/-- `areFiltersEqual`. -/
def areFiltersEqual : Filter → Filter → Bool
  | .simple t1 op1 v1, .simple t2 op2 v2 =>
    areExpressionsEqual t1 t2 && areExpressionsEqual v1 v2 && op1 = op2
  | .composite op1 fs1, .composite op2 fs2 =>
    op1 = op2 && fs1.length = fs2.length &&
    areFilterListsEqual fs1 fs2
  | _, _ => false

/-- Pointwise `every` over child-filter lists (lengths already checked). -/
def areFilterListsEqual : List Filter → List Filter → Bool
  | f1 :: t1, f2 :: t2 => areFiltersEqual f1 f2 && areFilterListsEqual t1 t2
  | _, _ => true
end

/-- `ALIAS_MAX_LENGTH`. -/
def ALIAS_MAX_LENGTH : Nat := 65

/-- Days-since-epoch to civil date (standard civil-calendar algorithm). -/
def civilFromDays (days : Nat) : Nat × Nat × Nat :=
  let z := days + 719468
  let era := z / 146097
  let doe := z % 146097
  let yoe := (doe - doe / 1460 + doe / 36524 - doe / 146096) / 365
  let y := yoe + era * 400
  let doy := doe - (365 * yoe + yoe / 4 - yoe / 100)
  let mp := (5 * doy + 2) / 153
  let d := doy - (153 * mp + 2) / 5 + 1
  let m := if mp < 10 then mp + 3 else mp - 9
  (if m ≤ 2 then y + 1 else y, m, d)

/-- Left-pad a decimal rendering with zeros. -/
def padNat (width n : Nat) : String :=
  let s := natStr n
  ⟨List.replicate (width - s.length) '0'⟩ ++ s

/-- The date part of `new Date(ms).toISOString()` (`YYYY-MM-DD`, UTC),
for non-negative millisecond timestamps. -/
def msToDateStr (ms : Int) : String :=
  let days := (ms.toNat) / 86400000
  let c := civilFromDays days
  padNat 4 c.1 ++ "-" ++ padNat 2 c.2.1 ++ "-" ++ padNat 2 c.2.2

/-- Rational seconds to integer milliseconds (`* 1000` on unix seconds;
the modelled inputs are integral). -/
def secToMs (q : ℚ) : Int := (q * 1000).floor

/-- `timeRangeToAlias`. -/
def timeRangeToAlias : TimeRange → String
  | .relative d u _ => numToString d ++ u
  | .trading d u _ => numToString d ++ u
  | .absolute f t =>
    let fs := (msToDateStr (secToMs f)).replace "-" ""
    let ts := (msToDateStr (secToMs t)).replace "-" ""
    fs ++ "_" ++ ts

mutual
/-- `generateAlias` on a present expression.  (The `Math.random` fallbacks
for absent expressions are modelled by `randomAliasToken`; they are not
reached in any theorem below.) -/
def generateAlias : Expression → String
  | .constant _ (some a) => a
  | .constant _ none => "constant"
  | .metric m _ (some a) => a
  | .metric m _ none => m
  | .aggregate _ _ _ _ (some a) => a
  | .aggregate t agg tr _ none =>
    let base := agg ++ "_" ++ generateAlias t
    match tr with
    | some r => base ++ "_" ++ timeRangeToAlias r
    | none => base
  | .math _ _ (some a) => a
  | .math op ops none =>
    ((op ++ "_" ++ String.intercalate "_" (generateAliasList ops)).take ALIAS_MAX_LENGTH)

/-- The operand map inside the math case of `generateAlias`. -/
def generateAliasList : List Expression → List String
  | [] => []
  | e :: rest => generateAlias e :: generateAliasList rest
end

/-- Stand-in for the `col_<random>` alias produced by `generateAlias` when
called without an expression (unreachable in the theorems below). -/
def randomAliasToken : String := "col_0000"


/-! ## The UserQuery input model -/

/-- A grouping criterion: a plain dimension or a top-N-per-group entry. -/
inductive GroupingCriteria where
  | dim (s : String)
  | topN (dimension : String) (limit : ℚ) (expression : Option Expression)
deriving Repr

/-- A sort criterion of the input language. -/
structure SortCriteria where
  expression : Expression
  direction : String
deriving Repr

/-- The validated `UserQuery` (pass-through metadata omitted). -/
structure UserQuery where
  id : String
  name : String
  status : String
  filter : Filter
  group_by : Option (List GroupingCriteria) := none
  sort_by : Option (List SortCriteria) := none
  limit : Option ℚ := none
deriving Repr

/-! ## The IR builder (`processFilter` / `processExpression` etc.) -/

/-- First-occurrence deduplication, JavaScript `[...new Set(xs)]`. -/
def dedupKeepFirst (l : List NodeID) : List NodeID :=
  l.foldl (fun acc x => if x ∈ acc then acc else acc ++ [x]) []

/-- The local `getMetricName` helper of `processFilter`. -/
def getMetricName (node : ComputeNode) : String :=
  match node.data with
  | .projection cols =>
    match cols.head? with
    | some (.name n a _) => a.getD n
    | some (.exprCol _ a _) => a.getD ""
    | none => node.id
  | _ => node.id

/-- `findOrCreateSourceNode`: reuse the first present source node for the
table, else add one with the table's configured time column. -/
def findOrCreateSourceNode (g : Graph) (config : QueryBuilderConfig) (table : String) :
    NodeID × Graph :=
  match (g.nodesList.find? (fun n =>
          n.typeStr = "source" &&
          (match n.data with | .source t _ => t = table | _ => false))) with
  | some n => (n.id, g)
  | none =>
    let (g, id) := g.genId .source
    let tc := (alist.get? config.tables table).bind (·.timeColumn)
    let (g, id) := g.addNode { id := id, data := .source table tc, inputs := [] }
    (id, g)

mutual
/-- `processFilter`: lower a filter into graph nodes and return the id of
the resulting filter / composite-filter node. -/
def processFilter (g : Graph) (config : QueryBuilderConfig) (f : Filter)
    (otherInputs : Option (List NodeID)) : Except GError (NodeID × Graph) :=
  match f with
  | .composite operator filters => do
    let (ids, g) ← processFilterList g config filters
    let inputs := match otherInputs with
      | some extra => dedupKeepFirst (ids ++ extra)
      | none => ids
    let (g, cfId) := g.genId .compositeFilter
    let (g, cfId) := g.addNode { id := cfId, data := .compositeFilter operator, inputs := inputs }
    pure (cfId, g)
  | .simple target op value => do
    let (targetNodeId, g) ← processExpression g config target
    let (valueNodeId, g) ← processExpression g config value
    let inputs := [targetNodeId, valueNodeId]
    let inputs := match otherInputs with
      | some extra => dedupKeepFirst (inputs ++ extra)
      | none => inputs
    let targetMetric := ((g.getNode? targetNodeId).map getMetricName).getD ""
    let (g, fId) := g.genId .filter
    let (g, fId) := g.addNode
      { id := fId
        data := .filter
          { left := .inputRef targetNodeId targetMetric
            right := .inputRef valueNodeId valueNodeId
            op := op }
        inputs := inputs }
    pure (fId, g)

/-- Sequential lowering of the children of a composite filter. -/
def processFilterList (g : Graph) (config : QueryBuilderConfig) :
    List Filter → Except GError (List NodeID × Graph)
  | [] => pure ([], g)
  | f :: rest => do
    let (id, g) ← processFilter g config f none
    let (ids, g) ← processFilterList g config rest
    pure (id :: ids, g)

/-- `processExpression`: lower an expression into graph nodes. -/
def processExpression (g : Graph) (config : QueryBuilderConfig) (e : Expression) :
    Except GError (NodeID × Graph) :=
  match e with
  | .metric metricName filt aliasName => do
    match alist.get? config.columnMappings metricName with
    | none => .error (.unknownMetric metricName)
    | some column => do
      let (sourceNodeId, g) := findOrCreateSourceNode g config column.table
      let colAlias := match aliasName with
        | some a => some a
        | none => if metricName ≠ column.column then some metricName else none
      let (g, created) := g.genId .projection
      let (g, created) := g.addNode
        { id := created
          data := .projection [.name column.column colAlias (some sourceNodeId)]
          inputs := [sourceNodeId] }
      match filt with
      | some innerFilter => do
        let (_, g) ← processFilter g config innerFilter (some [created])
        pure (created, g)
      | none => pure (created, g)
  | .constant value aliasName => do
    let (paramValue, g) ← g.createParameter value none
    let (g, id) := g.genId .expression
    let (g, id) := g.addNode
      { id := id
        data := .expression (.constant (.prim (.str paramValue)) aliasName) aliasName
        inputs := []
        metadata := some { isParameter := true } }
    pure (id, g)
  | .aggregate target aggregation timeRange filt aliasName => do
    let (targetNodeId, g) ← processExpression g config target
    let (inputs, g) ← match filt with
      | some aggFilter => do
        let (filterNodeId, g) ← processFilter g config aggFilter none
        pure ([targetNodeId, filterNodeId], g)
      | none => pure ([targetNodeId], g)
    let storedExpr := Expression.aggregate target aggregation timeRange none aliasName
    let nodeAlias := match aliasName with
      | some a => some a
      | none => some (generateAlias storedExpr)
    let (g, id) := g.genId .aggregation
    let (g, id) := g.addNode
      { id := id, data := .expression storedExpr nodeAlias, inputs := inputs }
    pure (id, g)
  | .math operator operands aliasName => do
    let (operandNodeIds, g) ← processExpressionList g config operands
    let (g, id) := g.genId .expression
    let (g, id) := g.addNode
      { id := id
        data := .expression (.math operator operands aliasName) aliasName
        inputs := operandNodeIds }
    pure (id, g)

/-- Sequential lowering of math operands. -/
def processExpressionList (g : Graph) (config : QueryBuilderConfig) :
    List Expression → Except GError (List NodeID × Graph)
  | [] => pure ([], g)
  | e :: rest => do
    let (id, g) ← processExpression g config e
    let (ids, g) ← processExpressionList g config rest
    pure (id :: ids, g)
end

/-- `processSort`: lower each sort expression and emit one sort node. -/
def processSort (g : Graph) (config : QueryBuilderConfig) (sorts : List SortCriteria) :
    Except GError (NodeID × Graph) := do
  let (sortInputs, g) ← processExpressionList g config (sorts.map (·.expression))
  let criteria := (List.zip sortInputs sorts).map
    (fun p => { expression := p.1, direction := p.2.direction : SortCriterion })
  let (g, id) := g.genId .sort
  let (g, id) := g.addNode
    { id := id, data := .sort criteria, inputs := dedupKeepFirst sortInputs }
  pure (id, g)

/-- Lowering of a plain-string grouping dimension. -/
def processGroupByString (g : Graph) (config : QueryBuilderConfig) (dim : String) :
    Except GError (NodeID × Graph) := do
  match alist.get? config.columnMappings dim with
  | none => .error (.unknownDimension dim)
  | some column => do
    let (sourceNodeId, g) := findOrCreateSourceNode g config column.table
    let (g, id) := g.genId .projection
    let (g, id) := g.addNode
      { id := id
        data := .projection [.name column.column (some dim) (some sourceNodeId)]
        inputs := [sourceNodeId]
        metadata := some { isGrouping := true } }
    pure (id, g)

/-- Lowering of one grouping criterion. -/
def processGroupByOne (g : Graph) (config : QueryBuilderConfig) :
    GroupingCriteria → Except GError (NodeID × Graph)
  | .dim s => processGroupByString g config s
  | .topN dimension lim expression => do
    let (dimensionNodeId, g) ← processGroupByString g config dimension
    let (expressionNodeId?, g) ← match expression with
      | some e => do
        let (id, g) ← processExpression g config e
        pure (some id, g)
      | none => pure ((none : Option NodeID), g)
    let (g, sortId) := g.genId .sort
    let (g, sortNodeId) := g.addNode
      { id := sortId
        data := .sort [{ expression := expressionNodeId?.getD dimensionNodeId, direction := "desc" }]
        inputs := dimensionNodeId :: (match expressionNodeId? with | some e => [e] | none => [])
        metadata := some { isGrouped := true, groupDimension := some dimension, limit := some lim } }
    let (g, limId) := g.genId .limit
    let (g, limNodeId) := g.addNode
      { id := limId
        data := .limit lim
        inputs := [sortNodeId]
        metadata := some { isGrouped := true, groupDimension := some dimension } }
    pure (limNodeId, g)

/-- `processGroupBy` over the criterion list. -/
def processGroupBy (g : Graph) (config : QueryBuilderConfig) :
    List GroupingCriteria → Except GError Graph
  | [] => pure g
  | c :: rest => do
    let (_, g) ← processGroupByOne g config c
    processGroupBy g config rest

/-- `replaceNodeID`: rewrite all `inputs`, filter condition sides, sort
criteria and projection `sourceNode` references from `oldId` to `newId`,
skipping the node whose id is `newId`. -/
def Graph.replaceNodeID (g : Graph) (oldId newId : NodeID) (oldAlias : Option String) : Graph :=
  g.present.foldl
    (fun g id =>
      match g.getNode? id with
      | none => g
      | some node =>
        if node.id = newId then g
        else
          let node := { node with inputs := node.inputs.map (fun i => if i = oldId then newId else i) }
          let node := match node.data with
            | .filter cond =>
              let rewriteSide := fun (side : CondSide) =>
                match side with
                | .inputRef input metricName =>
                  if input = oldId then CondSide.inputRef newId (oldAlias.getD metricName)
                  else side
                | _ => side
              { node with data := .filter { left := rewriteSide cond.left,
                                            right := rewriteSide cond.right, op := cond.op } }
            | .sort crits =>
              { node with data := .sort (crits.map (fun c =>
                  if c.expression = oldId then { c with expression := newId } else c)) }
            | .projection cols =>
              { node with data := .projection (cols.map (fun c =>
                  match c with
                  | .name n a (some src) =>
                    if src = oldId then .name n a (some newId) else c
                  | .exprCol e a (some src) =>
                    if src = oldId then .exprCol e a (some newId) else c
                  | _ => c)) }
            | _ => node
          g.updateNode id (fun _ => node))
    g

/-- Ordered pairs `(i, j)` with `i < j`, in the nested-loop order of
`inferJoins`. -/
def orderedPairs {α : Type} : List α → List (α × α)
  | [] => []
  | x :: xs => xs.map (fun y => (x, y)) ++ orderedPairs xs

/-- The table of a source node. -/
def ComputeNode.sourceTable (n : ComputeNode) : String :=
  match n.data with
  | .source t _ => t
  | _ => ""

/-- `inferJoins`: with at least two source nodes, build the pairwise
primary-key join conditions over all involved tables, add one INNER join
node over all sources, rewire every downstream reference to it and mark
the sources non-terminal. -/
def Graph.inferJoins (g : Graph) (config : QueryBuilderConfig) : Except GError Graph := do
  let sourceNodes := g.nodesList.filter (fun n => n.typeStr = "source")
  if sourceNodes.length ≤ 1 then pure g
  else do
    let involvedTables := dedupKeepFirst (sourceNodes.map (·.sourceTable))
    let tableToNodeId := fun (t : String) =>
      ((sourceNodes.reverse.find? (fun sn => sn.sourceTable = t)).map (·.id)).getD ""
    let joinConds ← (orderedPairs involvedTables).foldlM
      (fun (acc : List JoinCondition) (p : String × String) => do
        match alist.get? config.tables p.1, alist.get? config.tables p.2 with
        | some t1, some t2 =>
          match t1.primaryKeys.find? (fun k => k ∈ t2.primaryKeys) with
          | some pk =>
            pure (acc ++ [{ left := { input := tableToNodeId t1.name, column := pk },
                            right := { input := tableToNodeId t2.name, column := pk },
                            op := "=" }])
          | none => Except.error (.noCommonPrimaryKey t1.name t2.name)
        | _, _ => Except.error (.unknownTable (p.1 ++ "/" ++ p.2)))
      []
    let (g, joinId) := g.genId .join
    let (g, joinNodeId) := g.addNode
      { id := joinId, data := .join "INNER" joinConds,
        inputs := sourceNodes.map (·.id) }
    let g := sourceNodes.foldl
      (fun g sn => g.replaceNodeID sn.id joinNodeId none) g
    let g := sourceNodes.foldl
      (fun g sn => g.updateNode sn.id (fun m => { m with isTerminal := false })) g
    pure g

/-- The bounded first-input walk of `hasTimeBasedAggregation` (the while
loop of `ensureRequiredColumns`; fuel covers every terminating JavaScript
execution). -/
def firstInputWalk (g : Graph) (sourceId : NodeID) : Nat → Option ComputeNode → Bool
  | 0, _ => false
  | _, none => false
  | fuel + 1, some node =>
    if sourceId ∈ node.inputs then true
    else
      match node.inputs.head? with
      | some firstInput => firstInputWalk g sourceId fuel (g.getNode? firstInput)
      | none => false

/-- Names of the `name` columns of a node (used for projected-column sets). -/
def ComputeNode.nameColumns (n : ComputeNode) : List String :=
  match n.data with
  | .projection cols => cols.filterMap (fun c =>
      match c with
      | .name nm _ _ => some nm
      | .exprCol _ _ _ => none)
  | _ => []

/-- Whether the node is an aggregate expression carrying a time range. -/
def ComputeNode.isTimeAggregate (n : ComputeNode) : Bool :=
  match n.data with
  | .expression (.aggregate _ _ (some _) _ _) _ => true
  | _ => false

/-- `ensureRequiredColumns`: for each source, project the table's
always-include columns (plus the time column when a time-based aggregation
depends on the source) that are not yet projected. -/
def Graph.ensureRequiredColumns (g : Graph) (config : QueryBuilderConfig) :
    Except GError Graph := do
  let sourceNodes := g.nodesList.filter (fun n => n.typeStr = "source")
  sourceNodes.foldlM
    (fun g sn => do
      match alist.get? config.tables sn.sourceTable with
      | none => Except.error (.unknownTable sn.sourceTable)
      | some tableConfig => do
        let required := dedupKeepFirst tableConfig.alwaysIncludeColumns
        let hasTimeBasedAggregation := g.nodesList.any
          (fun n => n.isTimeAggregate && firstInputWalk g sn.id (g.size + 1) (some n))
        let required := match tableConfig.timeColumn with
          | some tc =>
            if hasTimeBasedAggregation then
              if tc ∈ required then required else required ++ [tc]
            else required
          | none => required
        let existingProjections := g.nodesList.filter
          (fun n => n.typeStr = "projection" && sn.id ∈ n.inputs)
        let projectedColumns := existingProjections.flatMap (·.nameColumns)
        let missingColumns := required.filter (fun c => c ∉ projectedColumns)
        pure (missingColumns.foldl
          (fun g col =>
            let (g, id) := g.genId .projection
            ((g.addNode
              { id := id
                data := .projection [.name col none (some sn.id)]
                inputs := [sn.id]
                metadata := some { isRequiredProjection := true } }).1))
          g))
    g

/-- `processUserQuery`: filter, grouping, sort, limit, join inference and
required columns, in builder order.  (`if (limit)` is JavaScript
truthiness, so a zero limit adds no node.) -/
def buildUserQuery (q : UserQuery) (config : QueryBuilderConfig := DEFAULT_CONFIG) :
    Except GError Graph := do
  let g : Graph := {}
  let (_, g) ← processFilter g config q.filter none
  let g ← match q.group_by with
    | some gs => processGroupBy g config gs
    | none => pure g
  let g ← match q.sort_by with
    | some sorts => do
      let (_, g) ← processSort g config sorts
      pure g
    | none => pure g
  let g := match q.limit with
    | some l =>
      if l = 0 then g
      else
        let (g, id) := g.genId .limit
        (g.addNode { id := id, data := .limit l, inputs := [] }).1
    | none => g
  let g ← g.inferJoins config
  let g ← g.ensureRequiredColumns config
  pure g


/-! ## Optimizer passes (`optimize` and helpers) -/

/-- JavaScript `Array.prototype.sort()` on string arrays (lexicographic,
in place at the call sites; the in-place effect is modelled by writing the
sorted list back). -/
def jsSortStrings (l : List String) : List String :=
  l.insertionSort (fun a b => a ≤ b)

/-- The column fingerprint used in duplicate-projection keys: a `name`
column contributes its name, an expression column coerces to
`[object Object]` under JavaScript string conversion. -/
def colKeyPart : ProjColumn → String
  | .name n _ _ => n
  | .exprCol _ _ _ => "[object Object]"

/-- The `columns` list of a projection node. -/
def ComputeNode.projColumns (n : ComputeNode) : List ProjColumn :=
  match n.data with
  | .projection cols => cols
  | _ => []

/-- Write a new `inputs` array into a node object. -/
def setInputs (inputs : List NodeID) (n : ComputeNode) : ComputeNode :=
  { n with inputs := inputs }

/-- One iteration of the duplicate-projection removal.  Sorting
`node.inputs` (and, for non-required nodes, each dependent's inputs) is an
in-place mutation; the key is an association into `uniq`; a duplicate is
rewired to the kept node and removed. -/
def dedupProjStep (required : Bool) (st : Graph × List (String × NodeID)) (id : NodeID) :
    Graph × List (String × NodeID) :=
  let (g, uniq) := st
  match heapGet? g.heap id with
  | none => st
  | some node =>
    let sortedInputs := jsSortStrings node.inputs
    let g := g.updateNode id (setInputs sortedInputs)
    let colsPart := String.intercalate "," (node.projColumns.map colKeyPart)
    let (g, key) :=
      if required then
        (g, "required_" ++ String.intercalate "," sortedInputs ++ "_" ++ colsPart)
      else
        let depIds := (g.findDependentNodes id).map (·.id)
        let (g, depParts) := depIds.foldl
          (fun (acc : Graph × List String) depId =>
            let (g, parts) := acc
            match heapGet? g.heap depId with
            | none => acc
            | some dep =>
              let sortedDep := jsSortStrings dep.inputs
              (g.updateNode depId (setInputs sortedDep),
               parts ++ [String.intercalate "," sortedDep]))
          (g, [])
        (g, String.intercalate "," sortedInputs ++ colsPart ++ String.intercalate "," depParts)
    match alist.get? uniq key with
    | none => (g, uniq ++ [(key, node.id)])
    | some keptId =>
      let g := g.replaceNodeID id keptId none
      (g.removeNode id, uniq)

/-- `removedDuplicateProjections`: deduplicate non-required projections by
(inputs, columns, dependent-inputs) key, then required projections among
themselves. -/
def Graph.removedDuplicateProjections (g : Graph) : Graph :=
  let projectionNodes := g.nodesList.filter (fun n => n.typeStr = "projection")
  let normalIds := (projectionNodes.filter (fun n => !n.meta.isRequiredProjection)).map (·.id)
  let requiredIds := (projectionNodes.filter (fun n => n.meta.isRequiredProjection)).map (·.id)
  let st := normalIds.foldl (dedupProjStep false) (g, [])
  (requiredIds.foldl (dedupProjStep true) st).1

/-- The per-dependent rewrite of `inlineParameters`.  A filter condition's
matching side becomes the parameter placeholder — but a right-hand input
reference to a different node is overwritten with the (already rewritten)
left side, reproducing the source.  Sort criteria holding the parameter id
become the placeholder string.  Both cases drop the parameter id from
`inputs` and set `metadata.hasParameter`. -/
def inlineParamRewrite (paramId : NodeID) (paramValue : String) (dep : ComputeNode) :
    ComputeNode :=
  match dep.data with
  | .filter cond =>
    let left := match cond.left with
      | .inputRef i _ => if i = paramId then CondSide.param paramValue else cond.left
      | side => side
    let right := match cond.right with
      | .inputRef i _ => if i = paramId then CondSide.param paramValue else left
      | side => side
    { dep with
      data := .filter { left := left, right := right, op := cond.op }
      metadata := some { dep.meta with hasParameter := true }
      inputs := dep.inputs.filter (fun i => i ≠ paramId) }
  | .sort crits =>
    { dep with
      data := .sort (crits.map (fun c =>
        if c.expression = paramId then { c with expression := paramValue } else c))
      metadata := some { dep.meta with hasParameter := true }
      inputs := dep.inputs.filter (fun i => i ≠ paramId) }
  | _ => dep

/-- `inlineParameters`: fold each `isParameter` expression node into its
dependents and remove it. -/
def Graph.inlineParameters (g : Graph) : Graph :=
  let snapshot := (g.nodesList.filter (fun n => n.typeStr = "expression")).map (·.id)
  snapshot.foldl
    (fun g id =>
      match heapGet? g.heap id with
      | none => g
      | some node =>
        if !node.meta.isParameter then g
        else
          let constValue := match node.data with
            | .expression (.constant v _) _ => v.asString
            | _ => ""
          let depIds := (g.findDependentNodes id).map (·.id)
          let g := depIds.foldl
            (fun g depId => g.updateNode depId (inlineParamRewrite id constValue)) g
          g.removeNode id)
    g

/-- Whether a node is a filter or composite filter. -/
def ComputeNode.isFilterish (n : ComputeNode) : Bool :=
  n.typeStr = "filter" || n.typeStr = "composite-filter"

/-- The related-filter scan of one `mergeFilters` iteration: for every
snapshot entry of filter kind other than the current node, sort both input
arrays in place and compare them. -/
def mergeRelatedScan (snapshot : List NodeID) (id : NodeID) (g : Graph) :
    Graph × List NodeID :=
  snapshot.foldl
    (fun (acc : Graph × List NodeID) nid =>
      let (g, rel) := acc
      match heapGet? g.heap nid with
      | none => acc
      | some n =>
        if n.isFilterish && nid ≠ id then
          let sortedN := jsSortStrings n.inputs
          let g := g.updateNode nid (setInputs sortedN)
          match heapGet? g.heap id with
          | none => (g, rel)
          | some cur =>
            let sortedCur := jsSortStrings cur.inputs
            let g := g.updateNode id (setInputs sortedCur)
            if sortedN = sortedCur then (g, rel ++ [nid]) else (g, rel)
        else acc)
    (g, [])

/-- One iteration of `mergeFilters`: when related filters share the sorted
input list, add a fresh `and` composite over those inputs, remove the old
nodes (no-ops for already-removed ghosts) and rewire dependents. -/
def mergeStep (snapshot : List NodeID) (g : Graph) (id : NodeID) : Graph :=
  match heapGet? g.heap id with
  | none => g
  | some node =>
    if !node.isFilterish then g
    else
      let (g, related) := mergeRelatedScan snapshot id g
      if related.isEmpty then g
      else
        let curInputs := match heapGet? g.heap id with
          | some cur => cur.inputs
          | none => node.inputs
        let (g, newId) := g.genId .compositeFilter
        let (g, newId) := g.addNode
          { id := newId, data := .compositeFilter "and", inputs := curInputs }
        let g := g.removeNode id
        let g := related.foldl (fun g fid => g.removeNode fid) g
        (id :: related).foldl
          (fun g oldId =>
            let depIds := (g.findDependentNodes oldId).map (·.id)
            depIds.foldl
              (fun g depId => g.updateNode depId (fun dep =>
                { dep with inputs := dep.inputs.map (fun i => if i = oldId then newId else i) }))
              g)
          g

/-- `mergeFilters` over the node snapshot. -/
def Graph.mergeFilters (g : Graph) : Graph :=
  let snapshot := g.nodesList.map (·.id)
  snapshot.foldl (mergeStep snapshot) g

/-- `removeUselessCompositeFilters`: splice out single-input composites. -/
def Graph.removeUselessCompositeFilters (g : Graph) : Graph :=
  let snapshot := (g.nodesList.filter (fun n => n.typeStr = "composite-filter")).map (·.id)
  snapshot.foldl
    (fun g id =>
      match heapGet? g.heap id with
      | none => g
      | some node =>
        match node.inputs with
        | [child] =>
          let depIds := (g.findDependentNodes id).map (·.id)
          let g := depIds.foldl
            (fun g depId => g.updateNode depId (fun dep =>
              { dep with inputs := dep.inputs.map (fun i => if i = id then child else i) }))
            g
          g.removeNode id
        | _ => g)
    g

/-- The stored expression of an expression node. -/
def ComputeNode.exprPayload (n : ComputeNode) : Option Expression :=
  match n.data with
  | .expression e _ => some e
  | _ => none

/-- `removeDuplicateProjectionExpressions`: among single-input,
single-dependent expression nodes over a projection, structurally equal
expressions are merged; the duplicate and its projection input are
removed.  Reading `parent.type` of a dangling input is the TypeError crash
of the source. -/
def Graph.removeDuplicateProjectionExpressions (g : Graph) : Except GError Graph := do
  let exprNodes := g.nodesList.filter (fun n => n.typeStr = "expression")
  let exprNodes := exprNodes.filter (fun n => n.inputs.length = 1)
  let exprNodes := exprNodes.filter (fun n => (g.findDependentNodes n.id).length = 1)
  let snapshot ← exprNodes.foldlM
    (fun (acc : List NodeID) n => do
      match n.inputs.head? with
      | none => pure acc
      | some parentId =>
        match g.getNode? parentId with
        | none => Except.error (.missingParentCrash n.id)
        | some parent =>
          pure (if parent.typeStr = "projection" then acc ++ [n.id] else acc))
    []
  pure (snapshot.foldl
    (fun (st : Graph × List (NodeID × Expression)) id =>
      let (g, uniq) := st
      match heapGet? g.heap id with
      | none => st
      | some node =>
        match node.exprPayload with
        | none => st
        | some expr =>
          match uniq.find? (fun p => areExpressionsEqual p.2 expr) with
          | none => (g, uniq ++ [(id, expr)])
          | some prev =>
            let g := g.replaceNodeID id prev.1 none
            let g := g.removeNode id
            let g := match (heapGet? g.heap id).bind (fun n => n.inputs.head?) with
              | some projId => g.removeNode projId
              | none => g
            (g, uniq))
    (g, [])).1

/-- The metric name mentioned by a condition side, JavaScript
`'metric' in side` (an inline metric expression also carries the field). -/
def CondSide.condMetric : CondSide → Option String
  | .inputRef _ m => some m
  | .expr (.metric m _ _) => some m
  | _ => none

/-- The condition of a filter node. -/
def ComputeNode.filterCondition (n : ComputeNode) : Option Condition :=
  match n.data with
  | .filter c => some c
  | _ => none

/-- `trySimplification1` (risky): when exactly two sources exist, the
`tickers` source feeds only single-column `ticker` projections, and every
consumer of those projections is a filter on the `ticker` metric, replace
them by one `ticker` projection on the `daily_agg` source. -/
def Graph.trySimplification1 (g : Graph) : Graph :=
  let sourceNodes := g.nodesList.filter (fun n => n.typeStr = "source")
  if sourceNodes.length ≠ 2 then g
  else
    match sourceNodes.find? (fun n => n.sourceTable = "tickers") with
    | none => g
    | some tickerSource =>
      let deps := g.findDependentNodes tickerSource.id
      let projections := deps.filter (fun n => n.typeStr = "projection")
      if deps.length ≠ projections.length then g
      else if !projections.all (fun n => n.projColumns.length = 1) then g
      else if !projections.all (fun n =>
          match n.projColumns.head? with
          | some (.name nm _ _) => nm = "ticker"
          | _ => false) then g
      else
        let deps2 := deps.flatMap (fun n => g.findDependentNodes n.id)
        let filters := deps2.filter (fun n => n.typeStr = "filter")
        if deps2.length ≠ filters.length then g
        else if !filters.all (fun n =>
            match n.filterCondition with
            | some cond =>
              cond.left.condMetric = some "ticker" || cond.right.condMetric = some "ticker"
            | none => false) then g
        else
          match sourceNodes.find? (fun n => n.sourceTable = "daily_agg") with
          | none => g
          | some otherSource =>
            let (g, newId) := g.genId .projection
            let (g, newProjectionId) := g.addNode
              { id := newId
                data := .projection [.name "ticker" none (some otherSource.id)]
                inputs := [otherSource.id] }
            let g := filters.foldl
              (fun g f => g.updateNode f.id (setInputs [newProjectionId])) g
            let g := g.removeNode tickerSource.id
            projections.foldl (fun g p => g.removeNode p.id) g

/-- `removeDuplicateFilters` (risky): among filters whose inputs are all
projections, collapse filters with pointwise-identical current inputs and
equal metadata.  Reading `.type` of a dangling input is the TypeError
crash of the source. -/
def Graph.removeDuplicateFilters (g : Graph) : Except GError Graph := do
  let filterNodes := g.nodesList.filter (fun n => n.typeStr = "filter")
  let snapshot ← filterNodes.foldlM
    (fun (acc : List NodeID) n => do
      let ok ← n.inputs.foldlM
        (fun (b : Bool) input => do
          match g.getNode? input with
          | none => Except.error (.missingParentCrash n.id)
          | some inputNode => pure (b && inputNode.typeStr = "projection"))
        true
      pure (if ok then acc ++ [n.id] else acc))
    []
  pure ((snapshot.foldl
    (fun (st : Graph × List NodeID) id =>
      let (g, current) := st
      match heapGet? g.heap id with
      | none => st
      | some node =>
        let candidates := current.filter
          (fun nid =>
            nid ≠ id &&
            (match heapGet? g.heap nid with
             | some n =>
               n.inputs.length = node.inputs.length &&
               (List.zip n.inputs node.inputs).all (fun p => p.1 = p.2) &&
               n.metadata = node.metadata
             | none => false))
        match candidates.head? with
        | some keptId =>
          let g := g.replaceNodeID id keptId none
          let g := g.removeNode id
          (g, current.filter (fun nid => nid ≠ id))
        | none => st)
    (g, snapshot))).1

/-- `optimize(risky)`: the rewrite passes in source order followed by the
required-columns pass. -/
def Graph.optimize (g : Graph) (config : QueryBuilderConfig := DEFAULT_CONFIG)
    (risky : Bool := false) : Except GError Graph := do
  let g := g.removedDuplicateProjections
  let g := g.inlineParameters
  let g := g.mergeFilters
  let g := g.removeUselessCompositeFilters
  let g ← g.removeDuplicateProjectionExpressions
  let g := if risky then g.trySimplification1 else g
  let g ← if risky then g.removeDuplicateFilters else pure g
  g.ensureRequiredColumns config


/-! ## SQL translation (`sql/clickhouse.ts`) -/

/-- Uppercasing (`unit.toUpperCase()`). -/
def strUpper (s : String) : String := ⟨s.data.map Char.toUpper⟩

/-- Lowercasing (for the case-insensitive window regex). -/
def strLower (s : String) : String := ⟨s.data.map Char.toLower⟩

/-- A regex word character, `[A-Za-z0-9_]`. -/
def isWordChar (c : Char) : Bool :=
  ('a' ≤ c && c ≤ 'z') || ('A' ≤ c && c ≤ 'Z') || ('0' ≤ c && c ≤ '9') || c = '_'

/-- Scan for `\b<needle>\b` (needle made of word characters). -/
def wordBoundaryScan (needle : List Char) : Option Char → List Char → Bool
  | _, [] => needle.isEmpty
  | prev, c :: rest =>
    (match prev with
     | some p => !isWordChar p
     | none => true) &&
      needle.isPrefixOf (c :: rest) &&
      (match (c :: rest).drop needle.length with
       | [] => true
       | nxt :: _ => !isWordChar nxt) ||
    wordBoundaryScan needle (some c) rest

/-- `new RegExp(`\\b${a}\\b`).test(sql)`. -/
def wordMatch (needle sql : String) : Bool :=
  wordBoundaryScan needle.data none sql.data

/-- Match one alternative of the inline-window regex at the current
position: the token, then `\s*`, then `(`. -/
def inlineWindowAt (chars : List Char) (token : List Char) : Bool :=
  token.isPrefixOf chars &&
  (match (chars.drop token.length).dropWhile (fun c => c = ' ' || c = '\t' || c = '\n' || c = '\r') with
   | '(' :: _ => true
   | _ => false)

/-- The alternatives of `/\b(last_value|first_value|avg|sum|min|max|count)\s*\(/i`. -/
def inlineWindowTokens : List (List Char) :=
  ["last_value".data, "first_value".data, "avg".data, "sum".data, "min".data, "max".data, "count".data]

/-- Case-insensitive scan for the inline window-function regex. -/
def inlineWindowScan : Option Char → List Char → Bool
  | _, [] => false
  | prev, c :: rest =>
    ((match prev with
      | some p => !isWordChar p
      | none => true) &&
     inlineWindowTokens.any (inlineWindowAt (c :: rest))) ||
    inlineWindowScan (some c) rest

/-- `inlineWindowRegex.test(sql)` (case-insensitive). -/
def inlineWindowTest (sql : String) : Bool :=
  inlineWindowScan none (strLower sql).data

/-- JavaScript template rendering of a stored constant value. -/
def jsTemplate : JSValue → String
  | .prim (.str s) => s
  | .prim (.num q) => numToString q
  | .prim (.pbool b) => if b then "true" else "false"
  | .arr l => String.intercalate "," (l.map (fun p =>
      match p with
      | .str s => s
      | .num q => numToString q
      | .pbool b => if b then "true" else "false"))

/-- `mapFilterOperatorToSQL`. -/
def mapFilterOperatorToSQL (operator : String) : String :=
  if operator = "eq" then "="
  else if operator = "neq" then "!="
  else if operator = "gt" then ">"
  else if operator = "gte" then ">="
  else if operator = "lt" then "<"
  else if operator = "lte" then "<="
  else if operator = "in" then "IN"
  else if operator = "nin" then "NOT IN"
  else if operator = "contains" then "LIKE"
  else if operator = "ncontains" then "NOT LIKE"
  else operator

/-- `getTradingUnitMultiplier`. -/
def getTradingUnitMultiplier (unit : String) : ℚ :=
  if unit = "hour" then 3
  else if unit = "day" then 3/2
  else if unit = "week" then 13/10
  else 1

/-- `mapTimeUnitToSeconds`. -/
def mapTimeUnitToSeconds (unit : String) (trading : Bool) : ℚ :=
  if unit = "second" then 1
  else if unit = "minute" then 60
  else if unit = "hour" then 3600 * (if trading then getTradingUnitMultiplier unit else 1)
  else if unit = "day" then 86400 * (if trading then getTradingUnitMultiplier unit else 1)
  else if unit = "week" then 604800 * (if trading then getTradingUnitMultiplier unit else 1)
  else if unit = "month" then 2592000
  else if unit = "year" then 31536000
  else 0

/-- `chooseLargestTimeRange`: the range with the strictly largest duration
in (approximate) seconds. -/
def chooseLargestTimeRange (timeRanges : List TimeRange) : Option TimeRange :=
  (timeRanges.foldl
    (fun (acc : Option TimeRange × ℚ) range =>
      let duration := match range with
        | .relative d u _ => d * mapTimeUnitToSeconds u false
        | .trading d u _ => d * mapTimeUnitToSeconds u true
        | .absolute f t => t - f
      if duration > acc.2 then (some range, duration) else acc)
    (none, 0)).1

/-- The result record of `translateExpression` (`where` is a reserved word
in Lean, hence `whereClauses`). -/
structure ExpressionSQL where
  column : String
  whereClauses : List String := []
  isWindow : Bool := false
deriving Repr

/-- `aggregationToSQL`: render the window-function SQL for an aggregate
over `altTarget` (JavaScript treats an empty-string target as absent). -/
def aggregationToSQL (config : QueryBuilderConfig) (target : Expression)
    (aggregation : String) (timeRange : Option TimeRange) (altTarget : String) :
    Except GError String := do
  let altTruthy := altTarget ≠ ""
  if !altTruthy && (match target with | .metric _ _ _ => false | _ => true) then
    Except.error .invalidAggregationTarget
  else do
    let column := match target with
      | .metric m _ _ => alist.get? config.columnMappings m
      | _ => none
    let table := match column with
      | some c => alist.get? config.tables c.table
      | none => none
    let timeColumnStr := match table with
      | some t => t.timeColumn.getD "undefined"
      | none => "undefined"
    let pk0 := match table with
      | some t => t.primaryKeys.head?.getD "undefined"
      | none => "undefined"
    let basePartition := match table with
      | some _ => some ("PARTITION BY " ++ pk0 ++ " ORDER BY " ++ timeColumnStr)
      | none => none
    let basePartition := match timeRange, basePartition with
      | some (.trading d _ _), some p =>
        some (p ++ " ROWS BETWEEN " ++ numToString (d - 1) ++ " PRECEDING AND CURRENT ROW")
      | _, p => p
    let partition := basePartition.map (fun p => "OVER (" ++ p ++ ")")
    let partitionStr := partition.getD "undefined"
    let col := if altTruthy then altTarget
      else match column with
        | some c => c.column
        | none => "undefined"
    let isTrading := match timeRange with
      | some (.trading _ _ _) => true
      | _ => false
    let boundsFrame :=
      if table.isSome && !isTrading then
        "OVER (PARTITION BY " ++ pk0 ++ " ORDER BY " ++ timeColumnStr ++
          " ASC ROWS BETWEEN UNBOUNDED PRECEDING AND UNBOUNDED FOLLOWING)"
      else partitionStr
    if aggregation = "first" then pure ("first_value(" ++ col ++ ") " ++ boundsFrame)
    else if aggregation = "last" then pure ("last_value(" ++ col ++ ") " ++ boundsFrame)
    else if aggregation = "avg" then pure ("avg(" ++ col ++ ") " ++ partitionStr)
    else if aggregation = "sum" then pure ("sum(" ++ col ++ ") " ++ partitionStr)
    else if aggregation = "min" then pure ("min(" ++ col ++ ") " ++ partitionStr)
    else if aggregation = "max" then pure ("max(" ++ col ++ ") " ++ partitionStr)
    else if aggregation = "median" then pure ("quantile(0.5)(" ++ col ++ ") " ++ partitionStr)
    else if aggregation = "stddev" then pure ("stddevPopStable(" ++ col ++ ") " ++ partitionStr)
    else if aggregation = "variance" then pure ("varPop(" ++ col ++ ") " ++ partitionStr)
    else if aggregation = "count" then pure ("count(" ++ col ++ ") " ++ partitionStr)
    else if aggregation = "diff" then
      pure ("last_value(" ++ col ++ ") " ++ boundsFrame ++ " - first_value(" ++ col ++ ") " ++ boundsFrame)
    else if aggregation = "diff_pct" then
      pure ("(last_value(" ++ col ++ ") " ++ boundsFrame ++ " - first_value(" ++ col ++ ") " ++
        boundsFrame ++ ") / nullIf(first_value(" ++ col ++ ") " ++ boundsFrame ++ ", 0) * 100")
    else Except.error (.unsupportedAggregation aggregation)

mutual
/-- `translateExpression`: expression to SQL fragment, collecting WHERE
clauses for aggregate date bounds; alias-only mode collapses metrics and
aliased math expressions. -/
def translateExpression (config : QueryBuilderConfig) :
    Expression → (useAliasOnly : Bool) → Except GError ExpressionSQL
  | .constant v _, _ => pure { column := jsTemplate v }
  | .metric m _ al, useAliasOnly =>
    if useAliasOnly then pure { column := al.getD m }
    else pure { column := m ++ (match al with | some a => " AS " ++ a | none => "") }
  | .math op ops al, useAliasOnly =>
    if useAliasOnly && al.isSome then
      pure { column := al.getD "" }
    else do
      let (cols, whereAcc) ← translateOperands config ops
      pure { column := "(" ++ String.intercalate (" " ++ op ++ " ") cols ++ ")" ++
               (match al with | some a => " AS " ++ a | none => "")
             whereClauses := whereAcc }
  | .aggregate target agg tr filt al, _ => do
    let aliasStr := match al with
      | some a => a
      | none => generateAlias (.aggregate target agg tr filt none)
    let targetExpr ← translateExpression config target false
    let whereAcc := targetExpr.whereClauses
    let whereAcc := whereAcc ++
      (match tr with
       | some (.relative d u _) =>
         ["date >= date_sub(now(), INTERVAL " ++ numToString d ++ " " ++ strUpper u ++ ")"]
       | some (.absolute f t) =>
         ["date BETWEEN toDate(" ++ sq ++ msToDateStr (secToMs f) ++ sq ++ ") AND toDate(" ++
            sq ++ msToDateStr (secToMs t) ++ sq ++ ")"]
       | _ => [])
    let aggSql ← aggregationToSQL config target agg tr targetExpr.column
    pure { column := aggSql ++ " AS " ++ aliasStr
           whereClauses := whereAcc
           isWindow := tr.isSome }

/-- The operand fold inside the math case of `translateExpression`
(columns collected left to right, WHERE fragments propagated). -/
def translateOperands (config : QueryBuilderConfig) :
    List Expression → Except GError (List String × List String)
  | [] => pure ([], [])
  | e :: rest => do
    let out ← translateExpression config e false
    let (cols, ws) ← translateOperands config rest
    pure (out.column :: cols, out.whereClauses ++ ws)
end

/-- The node map handed from `getExecutionOrder` to the SQL builder. -/
structure TranslationContext where
  nodes : List (NodeID × ComputeNode)
  timeRanges : List TimeRange

/-- Lookup `ctx.nodes[id]`. -/
def TranslationContext.get? (ctx : TranslationContext) (id : NodeID) : Option ComputeNode :=
  (ctx.nodes.find? (fun p => p.1 = id)).map (·.2)

/-- `Object.values(ctx.nodes)`. -/
def TranslationContext.values (ctx : TranslationContext) : List ComputeNode :=
  ctx.nodes.map (·.2)

/-- Mutate a node object inside the context. -/
def TranslationContext.update (ctx : TranslationContext) (id : NodeID)
    (f : ComputeNode → ComputeNode) : TranslationContext :=
  { ctx with nodes := ctx.nodes.map (fun p => if p.1 = id then (p.1, f p.2) else p) }

/-- The node-level alias field (`'alias' in node && node.alias`). -/
def ComputeNode.nodeAlias (n : ComputeNode) : Option String :=
  match n.data with
  | .expression _ al => al
  | _ => none

/-- One side of a simple filter condition rendered to SQL text plus its
window flag (`sideInfo`).  A referenced node without expression payload
falls back to the random `col_…` alias of `generateAlias` (never reached
in the theorems below). -/
def sideInfo (config : QueryBuilderConfig) (ctx : TranslationContext)
    (winAliases : List String) : CondSide → Except GError (String × Bool)
  | .inputRef input _ => do
    match ctx.get? input with
    | none => Except.error (.nodeNotFound input)
    | some n =>
      let aliasStr := match n.nodeAlias with
        | some a => a
        | none =>
          match n.exprPayload with
          | some e => generateAlias e
          | none => randomAliasToken
      pure (aliasStr, winAliases.contains aliasStr)
  | .param p => pure (p, false)
  | .expr e => do
    let out ← translateExpression config e true
    pure (out.column, out.isWindow)

/-- `translateFilter`: recursive rendering of filter / composite-filter
nodes; `not` composites wrap only the first non-empty child.  Fuel bounds
the node-graph recursion of the embedding. -/
def translateFilter (config : QueryBuilderConfig) (ctx : TranslationContext)
    (ignoreIds : List NodeID) (winAliases : List String) :
    Nat → ComputeNode → Except GError (String × Bool)
  | 0, _ => Except.error .fuelExhausted
  | fuel + 1, node =>
    match node.data with
    | .compositeFilter operator => do
      let childIds := node.inputs.filter (fun id => id ∉ ignoreIds)
      let (parts, anyWindow) ← childIds.foldlM
        (fun (acc : List String × Bool) cid => do
          match ctx.get? cid with
          | none => Except.error (.nodeNotFound cid)
          | some childNode => do
            let (childSql, childWin) ←
              translateFilter config ctx ignoreIds winAliases fuel childNode
            if childSql = "" then pure acc
            else pure (acc.1 ++ [childSql], acc.2 || childWin))
        ([], false)
      match parts with
      | [] => pure ("", false)
      | first :: _ =>
        if operator = "not" then pure ("NOT (" ++ first ++ ")", anyWindow)
        else
          pure ("(" ++ String.intercalate (" " ++ strUpper operator ++ " ") parts ++ ")", anyWindow)
    | .filter cond => do
      let l ← sideInfo config ctx winAliases cond.left
      let r ← sideInfo config ctx winAliases cond.right
      pure (l.1 ++ " " ++ mapFilterOperatorToSQL cond.op ++ " " ++ r.1, l.2 || r.2)
    | _ => pure ("", false)


/-! ## CTE planner and query assembly (`QueryBuilder`) -/

/-- A CTE node group. -/
structure NodeGroup where
  id : String
  nodes : List String
deriving DecidableEq, Repr

/-- Dependents of a node inside the translation context. -/
def TranslationContext.dependents (ctx : TranslationContext) (id : NodeID) : List ComputeNode :=
  ctx.values.filter (fun n => id ∈ n.inputs)

/-- `shouldFilterBeCTE`: single-input filters whose unique consumer is a
projection. -/
def shouldFilterBeCTE (ctx : TranslationContext) (node : ComputeNode) : Bool :=
  match node.inputs with
  | [_] =>
    match ctx.values.find? (fun n => node.id ∈ n.inputs) with
    | some parent => parent.typeStr = "projection"
    | none => false
  | _ => false

/-- The set of stringified time ranges over aggregate expression nodes. -/
def ctxDistinctTimeRanges (ctx : TranslationContext) : List TimeRange :=
  (ctx.values.filterMap (fun n =>
    match n.data with
    | .expression (.aggregate _ _ (some tr) _ _) _ => some tr
    | _ => none)).foldl (fun acc tr => if tr ∈ acc then acc else acc ++ [tr]) []

/-- `shouldExpressionBeCTE`. -/
def shouldExpressionBeCTE (ctx : TranslationContext) (node : ComputeNode) : Bool :=
  if (ctx.values.filter (fun n => node.id ∈ n.inputs)).length > 1 then true
  else if node.inputs.length > 1 then true
  else
    match node.data with
    | .expression (.aggregate _ _ (some tr) _ _) _ =>
      (ctxDistinctTimeRanges ctx).length > 1 || timeRangeTypeStr tr = "relative"
    | _ => false

/-- `shouldBeCTE`. -/
def shouldBeCTE (ctx : TranslationContext) (node : ComputeNode) : Bool :=
  match node.data with
  | .filter _ => shouldFilterBeCTE ctx node
  | .expression _ _ => shouldExpressionBeCTE ctx node
  | _ => (ctx.values.filter (fun n => node.id ∈ n.inputs)).length > 1

/-- Whether an expression node's payload is a metric expression. -/
def ComputeNode.isMetricExpression (n : ComputeNode) : Bool :=
  match n.data with
  | .expression (.metric _ _ _) _ => true
  | _ => false

/-- Whether a node is a `last` aggregate expression. -/
def ComputeNode.isLastAggregate (n : ComputeNode) : Bool :=
  match n.data with
  | .expression (.aggregate _ agg _ _ _) _ => agg = "last"
  | _ => false

/-- Whether a node is an aggregate expression. -/
def ComputeNode.isAggregateExpression (n : ComputeNode) : Bool :=
  match n.data with
  | .expression (.aggregate _ _ _ _ _) _ => true
  | _ => false

/-- `handleExistingGroups`: replace nodes already owned by earlier groups
with those groups' ids, then deduplicate. -/
def handleExistingGroups (group : NodeGroup) (groups : List NodeGroup) : NodeGroup :=
  let resolved := group.nodes.foldl
    (fun (acc : List String) n =>
      (groups.foldl
        (fun (acc : List String) existingGroup =>
          if n ∈ existingGroup.nodes then
            acc.filter (fun id => id ≠ n) ++ [existingGroup.id]
          else acc)
        acc))
    group.nodes
  { group with nodes := dedupKeepFirst resolved }

/-- One group of `groupNodesForCTE` for a seed node. -/
def buildGroupFor (ctx : TranslationContext) (groups : List NodeGroup)
    (cteNode : ComputeNode) : NodeGroup :=
  let nodes : List ComputeNode := ctx.values
  let group : NodeGroup := { id := "cte_" ++ natStr groups.length, nodes := cteNode.inputs ++ [cteNode.id] }
  let dependentNodes : List ComputeNode := nodes.filter
    (fun n => cteNode.id ∈ n.inputs && n.inputs.length = 1)
  let dependentNodes := dependentNodes.filter (fun n => n.typeStr != "sort")
  let dependentNodes := dependentNodes.filter
    (fun n => n.typeStr != "expression" || n.isMetricExpression)
  let dependentNodes := dependentNodes.filter (fun n => n.typeStr != "filter")
  let group1 : NodeGroup := { group with nodes := group.nodes ++ dependentNodes.map (fun n => n.id) }
  let projectionNodes : List ComputeNode := nodes.filter
    (fun n => n.typeStr = "projection" && cteNode.id ∈ n.inputs)
  let group2 : NodeGroup := { group1 with nodes := group1.nodes ++ projectionNodes.map (fun n => n.id) }
  let projIds : List NodeID := projectionNodes.map (fun n => n.id)
  let lastNodes : List ComputeNode := nodes.filter
    (fun n => n.isLastAggregate && n.inputs.all (fun i => i ∈ projIds))
  let group3 : NodeGroup := { group2 with nodes := group2.nodes ++ lastNodes.map (fun n => n.id) }
  let lastIds : List NodeID := lastNodes.map (fun n => n.id)
  let filterNodes1 : List ComputeNode := (nodes.filter
    (fun n => n.typeStr = "filter" && n.inputs.all (fun i => i ∈ projIds))).filter
    (fun n => (ctx.dependents n.id).all (fun d => !d.isAggregateExpression))
  let filterNodes2 : List ComputeNode := nodes.filter
    (fun n => n.typeStr = "filter" && n.inputs.all (fun i => i ∈ lastIds))
  let group4 : NodeGroup := { group3 with nodes := group3.nodes ++ filterNodes1.map (fun n => n.id) ++ filterNodes2.map (fun n => n.id) }
  handleExistingGroups group4 groups

/-- `groupNodesForCTE`. -/
def groupNodesForCTE (ctx : TranslationContext) : List NodeGroup :=
  let cteNodes := ctx.values.filter (shouldBeCTE ctx)
  cteNodes.foldl (fun groups cteNode => groups ++ [buildGroupFor ctx groups cteNode]) []

/-- `removeUnusedCTENodes`: drop single-reference alias groups, rewiring
references in the surviving groups. -/
def removeUnusedCTENodes (groups : List NodeGroup) : List NodeGroup :=
  let step := fun (st : List NodeGroup × List String) (gid : String) =>
    let (cur, kept) := st
    match cur.find? (fun g => g.id = gid) with
    | none => st
    | some g =>
      let cteNodes := g.nodes.filter (fun id => id.startsWith "cte_")
      if cteNodes.isEmpty then (cur, kept ++ [gid])
      else if g.nodes.length = 1 then
        let replacement := cteNodes.headD ""
        (cur.map (fun group =>
          if g.id ∈ group.nodes then
            { group with nodes := group.nodes.map (fun id => if id = g.id then replacement else id) }
          else group), kept)
      else (cur, kept ++ [gid])
  let (finalState, keptIds) := (groups.map (·.id)).foldl step (groups, [])
  keptIds.filterMap (fun gid => finalState.find? (fun g => g.id = gid))

/-- The result of emitting one CTE. -/
structure CteSql where
  id : String
  sql : String
  columns : List String
deriving Repr

/-- Column-name extraction of the CTE emitter: the capture of
`/^(.*?)(?: AS ([^,]+))?$/` — the first ` AS ` whose tail is non-empty and
comma-free names the column, else the whole text. -/
def extractColName (s : String) : String :=
  let rec go (pre : List Char) (rest : List Char) : Option (List Char) :=
    match rest with
    | [] => none
    | c :: tail =>
      if (" AS ".data).isPrefixOf (c :: tail) then
        let captured := (c :: tail).drop 4
        if captured ≠ [] && !captured.contains ',' then some captured
        else go (pre ++ [c]) tail
      else go (pre ++ [c]) tail
  match go [] s.data with
  | some captured => ⟨captured⟩
  | none => s

/-- The `metadata.offset` truthiness check of the limit emitters. -/
def offsetTruthy (m : NodeMetadata) : Option ℚ :=
  match m.offset with
  | some o => if o = 0 then none else some o
  | none => none

/-- Render `LIMIT …[ OFFSET …][ BY …]` and collect the BY dimension. -/
def limitClauseOf (node : ComputeNode) : String × List String :=
  match node.data with
  | .limit l =>
    let base := "LIMIT " ++ numToString l
    let base := match offsetTruthy node.meta with
      | some o => base ++ " OFFSET " ++ numToString o
      | none => base
    (match node.meta.groupDimension with
     | some dim =>
       if node.meta.isGrouped then (base ++ " BY " ++ dim, [dim]) else (base, [])
     | none => (base, []))
  | _ => ("", [])

/-- The clause assembly at the end of `generateCTESQL` (body lines
`sql += …` in source order: PREWHERE, QUALIFY, WHERE, GROUP BY, ORDER BY,
LIMIT). -/
def cteAssemble (cols : List String) (fromStmt : String)
    (preWhere qualify whereParts groupBy orderBy : List String)
    (limitClause : String) : String :=
  let sqlBody := "SELECT " ++ String.intercalate ", " cols ++ "\n" ++ fromStmt
  let sqlBody := if !preWhere.isEmpty then
      sqlBody ++ "\nPREWHERE " ++ String.intercalate " AND " preWhere else sqlBody
  let sqlBody := if !qualify.isEmpty then
      sqlBody ++ "\nQUALIFY " ++ String.intercalate " AND " qualify else sqlBody
  let sqlBody := if !whereParts.isEmpty then
      sqlBody ++ "\nWHERE " ++ String.intercalate " AND " whereParts else sqlBody
  let sqlBody := if !groupBy.isEmpty then
      sqlBody ++ "\nGROUP BY " ++ String.intercalate ", " groupBy else sqlBody
  let sqlBody := if !orderBy.isEmpty then
      sqlBody ++ "\nORDER BY " ++ String.intercalate ", " orderBy else sqlBody
  if limitClause ≠ "" then sqlBody ++ "\n" ++ limitClause else sqlBody

/-- Override the alias of an expression (`{...c.expression, alias: c.alias}`). -/
def setExprAlias (e : Expression) (a : Option String) : Expression :=
  match e with
  | .constant v _ => .constant v a
  | .metric m f _ => .metric m f a
  | .math op ops _ => .math op ops a
  | .aggregate t agg tr f _ => .aggregate t agg tr f a

/-- `generateCTESQL`: emit the SQL body and exported columns of one node
group, mutating context aliases; `none` for groups without sources or CTE
references. -/
def generateCTESQL (config : QueryBuilderConfig) (st : TranslationContext × List CteSql)
    (group : NodeGroup) : Except GError (TranslationContext × List CteSql) := do
  let (ctx, acc) := st
  let cteIds := group.nodes.filter (fun id => id.startsWith "cte_")
  let nonCte := group.nodes.filter (fun id => id ∉ cteIds)
  let sourceIds ← nonCte.foldlM
    (fun (acc : List NodeID) id => do
      match ctx.get? id with
      | none => Except.error (.nodeNotFound id)
      | some n => pure (if n.typeStr = "source" then acc ++ [id] else acc))
    []
  if sourceIds.isEmpty && cteIds.isEmpty then pure (ctx, acc)
  else do
    let srcCfgs ← sourceIds.foldlM
      (fun (acc : List TableConfig) id => do
        match ctx.get? id with
        | some n =>
          match alist.get? config.tables n.sourceTable with
          | some t => pure (acc ++ [t])
          | none => Except.error (.unknownTable n.sourceTable)
        | none => Except.error (.nodeNotFound id))
      []
    let preWhereOf : Unit → List String := fun _ =>
      match srcCfgs.head? with
      | none => []
      | some cfg0 =>
        match chooseLargestTimeRange ctx.timeRanges with
        | none => []
        | some ltr =>
          let tc := cfg0.name ++ "." ++ cfg0.timeColumn.getD "undefined"
          match ltr with
          | .relative d u _ =>
            [tc ++ " >= toDate(date_sub(now(), INTERVAL " ++ numToString d ++ " " ++ strUpper u ++ "))"]
          | .absolute f t =>
            let fromStr := msToDateStr (secToMs f - 86400)
            let toStr := msToDateStr (secToMs t)
            [tc ++ " BETWEEN toDate(" ++ sq ++ fromStr ++ sq ++ ") AND toDate(" ++ sq ++ toStr ++ sq ++ ")"]
          | .trading _ _ _ => []
    let (fromBody, preWhere) ←
      if srcCfgs.length > 1 then do
        let joined ← (List.zip srcCfgs.dropLast srcCfgs.tail).foldlM
          (fun (s : String) (p : TableConfig × TableConfig) => do
            match p.1.primaryKeys.find? (fun k => k ∈ p.2.primaryKeys) with
            | some pk =>
              pure (s ++ " INNER JOIN " ++ p.2.name ++ " ON " ++ p.1.name ++ "." ++ pk ++
                " = " ++ p.2.name ++ "." ++ pk)
            | none => Except.error (.noCommonPrimaryKey p.1.name p.2.name))
          ""
        let joined ← cteIds.foldlM
          (fun (s : String) ct => do
            match ctx.get? ct with
            | none => Except.error (.missingParentCrash ct)
            | some proj =>
              match proj.inputs.find? (fun i => i ∈ sourceIds) with
              | none => Except.error (.missingParentCrash ct)
              | some dep =>
                match ctx.get? dep with
                | none => Except.error (.nodeNotFound dep)
                | some depNode =>
                  match alist.get? config.tables depNode.sourceTable with
                  | none => Except.error (.unknownTable depNode.sourceTable)
                  | some tbl =>
                    match tbl.primaryKeys.find? (fun k => k ∈ proj.nameColumns) with
                    | none => Except.error (.noCommonPrimaryKey tbl.name ct)
                    | some pk2 =>
                      pure (s ++ " INNER JOIN " ++ ct ++ " ON " ++ tbl.name ++ "." ++ pk2 ++
                        " = " ++ ct ++ "." ++ pk2))
          joined
        pure (((srcCfgs.head?.map (·.name)).getD "") ++ joined, preWhereOf ())
      else if srcCfgs.length = 1 then
        pure ((((srcCfgs.head?.map (·.name)).getD "")), preWhereOf ())
      else
        pure ((cteIds.headD ""), [])
    let fromStmt := "FROM " ++ fromBody
    let fromStmt :=
      if !cteIds.isEmpty then
        let rest := if srcCfgs.isEmpty then cteIds.tail else cteIds
        if !rest.isEmpty then fromStmt ++ " " ++ String.intercalate ", " rest else fromStmt
      else fromStmt
    let projIds := nonCte.filter (fun id =>
      match ctx.get? id with
      | some n => n.typeStr = "projection"
      | none => false)
    let exprIds := nonCte.filter (fun id =>
      match ctx.get? id with
      | some n => n.typeStr = "expression"
      | none => false)
    let (ctx, windowAliases) := exprIds.foldl
      (fun (st : TranslationContext × List String) id =>
        let (ctx, ws) := st
        match ctx.get? id with
        | some n =>
          (match n.data with
           | .expression (.aggregate t agg (some tr) f a) al =>
             let aliasStr := al.getD (generateAlias (.aggregate t agg (some tr) f a))
             (ctx.update id (fun m =>
                { m with data := .expression (.aggregate t agg (some tr) f a) (some aliasStr) }),
              if aliasStr ∈ ws then ws else ws ++ [aliasStr])
           | _ => st)
        | none => st)
      (ctx, [])
    let (ctx, windowAliases) := projIds.foldl
      (fun (st : TranslationContext × List String) id =>
        let (ctx, ws) := st
        match ctx.get? id with
        | some p =>
          let (cols, ws) := p.projColumns.foldl
            (fun (acc : List ProjColumn × List String) c =>
              match c with
              | .exprCol (.aggregate t agg (some tr) f a) colAlias src =>
                let aliasStr := colAlias.getD (generateAlias (.aggregate t agg (some tr) f a))
                (acc.1 ++ [.exprCol (.aggregate t agg (some tr) f a) (some aliasStr) src],
                 if aliasStr ∈ acc.2 then acc.2 else acc.2 ++ [aliasStr])
              | other => (acc.1 ++ [other], acc.2))
            ([], ws)
          (ctx.update id (fun m => { m with data := .projection cols }), ws)
        | none => st)
      (ctx, windowAliases)
    let touches := fun (sqlFrag : String) =>
      windowAliases.any (fun a => wordMatch a sqlFrag) || inlineWindowTest sqlFrag
    let pushPred := fun (acc : List String × List String) (sqlFrag : String) =>
      if sqlFrag = "" then acc
      else if touches sqlFrag then (acc.1, acc.2 ++ [sqlFrag])
      else (acc.1 ++ [sqlFrag], acc.2)
    let cols : List String := if projIds.isEmpty && exprIds.isEmpty then ["*"] else []
    let (cols, whereQ) ← projIds.foldlM
      (fun (acc : List String × (List String × List String)) pid => do
        match ctx.get? pid with
        | none => pure acc
        | some p =>
          p.projColumns.foldlM
            (fun (acc : List String × (List String × List String)) c => do
              match c with
              | .name nm a _ =>
                pure (acc.1 ++ [match a with
                  | some al => nm ++ " AS " ++ al
                  | none => nm], acc.2)
              | .exprCol e a _ => do
                let out ← translateExpression config (setExprAlias e a) false
                let wq := out.whereClauses.foldl pushPred acc.2
                pure (acc.1 ++ [out.column ++ " AS " ++ (a.getD "undefined")], wq))
            acc)
      (cols, ([], []))
    let (cols, whereQ) ← exprIds.foldlM
      (fun (acc : List String × (List String × List String)) eid => do
        match ctx.get? eid with
        | none => pure acc
        | some e =>
          match e.data with
          | .expression payload al => do
            let out ← translateExpression config (setExprAlias payload al) false
            let wq := out.whereClauses.foldl pushPred acc.2
            pure (acc.1 ++ [out.column], wq)
          | _ => pure acc)
      (cols, whereQ)
    let filterIds := nonCte.filter (fun id =>
      match ctx.get? id with
      | some n => n.typeStr = "filter"
      | none => false)
    let (whereQ, _) ← filterIds.foldlM
      (fun (acc : (List String × List String) × List String) fid => do
        match ctx.get? fid with
        | none => pure acc
        | some fnode => do
          let (sqlFrag, touchesWindow) ←
            translateFilter config ctx [] windowAliases (ctx.nodes.length + 1) fnode
          if sqlFrag ≠ "" && sqlFrag ∉ acc.2 then
            if touchesWindow then pure ((acc.1.1, acc.1.2 ++ [sqlFrag]), acc.2 ++ [sqlFrag])
            else pure ((acc.1.1 ++ [sqlFrag], acc.1.2), acc.2 ++ [sqlFrag])
          else pure acc)
      (whereQ, [])
    let limitNode := (nonCte.filterMap ctx.get?).find? (fun n => n.typeStr = "limit")
    let (limitClause, groupBy) := match limitNode with
      | some n => limitClauseOf n
      | none => ("", [])
    let cols := dedupKeepFirst cols
    let groupBy := dedupKeepFirst groupBy
    let (whereParts, qualifyParts) := whereQ
    let sqlBody := cteAssemble cols fromStmt preWhere qualifyParts whereParts groupBy [] limitClause
    pure (ctx, acc ++ [{ id := group.id
                         columns := cols.map extractColName
                         sql := group.id ++ " AS (\n" ++ sqlBody ++ "\n)" }])



/-! ## Main query assembly (`buildMainQuery` / `assembleSQL`) -/

/-- `Array.prototype.join('\n')`. -/
def joinLines : List String → String
  | [] => ""
  | [x] => x
  | x :: y :: rest => x ++ "\n" ++ joinLines (y :: rest)

/-- The accumulator fields of `QueryBuilder`. -/
structure QBState where
  sqlHead : String := ""
  cols : List String := []
  fromStmt : String := ""
  preFilters : List String := []
  filters : List String := []
  qualifyParts : List String := []
  groupBy : List String := []
  orderBy : List String := []
  limitSql : String := ""
  usedAliases : List String := []
deriving Repr

/-- `addCTEColumns`: first occurrence of an alias is exported as
`cte.col AS col`, duplicates as `cte.col`. -/
def addCTEColumns (st : QBState) (cteSqls : List CteSql) : QBState :=
  cteSqls.foldl
    (fun st c =>
      c.columns.foldl
        (fun st col =>
          if col ∉ st.usedAliases then
            { st with usedAliases := st.usedAliases ++ [col]
                      cols := st.cols ++ [c.id ++ "." ++ col ++ " AS " ++ col] }
          else { st with cols := st.cols ++ [c.id ++ "." ++ col] })
        st)
    st

/-- `buildFromClause`: FROM the first CTE, CROSS JOIN the rest. -/
def buildFromClause (st : QBState) (cteSqls : List CteSql) : QBState :=
  match cteSqls with
  | [] => st
  | first :: rest =>
    { st with fromStmt :=
        rest.foldl (fun s c => s ++ " CROSS JOIN " ++ c.id) (" FROM " ++ first.id) }

/-- `translateSortNode`: render each criterion, preferring the referenced
node's alias. -/
def translateSortNode (ctx : TranslationContext) (node : ComputeNode) : String :=
  match node.data with
  | .sort crits =>
    String.intercalate ", " (crits.map (fun c =>
      let expr := match (ctx.get? c.expression).bind (fun n => n.nodeAlias) with
        | some a => a
        | none => c.expression
      expr ++ " " ++ c.direction))
  | _ => ""

/-- `addFilters`: route top-level filters not already applied inside a CTE
into WHERE or QUALIFY of the main scope, after collecting window aliases
from the non-CTE nodes (mutating missing aliases). -/
def addFilters (config : QueryBuilderConfig) (st : QBState) (ctx : TranslationContext)
    (nonCteNodes : List ComputeNode) (nodeGroups : List NodeGroup) :
    Except GError (QBState × TranslationContext) := do
  let filterNodes := nonCteNodes.filter (fun n => n.isFilterish)
  if filterNodes.isEmpty then pure (st, ctx)
  else do
    let (ctx, windowAliases) := nonCteNodes.foldl
      (fun (acc : TranslationContext × List String) n =>
        let (ctx, ws) := acc
        match n.data with
        | .expression (.aggregate t agg (some tr) f a) al =>
          let aliasStr := al.getD (generateAlias (.aggregate t agg (some tr) f a))
          (ctx.update n.id (fun m =>
             { m with data := .expression (.aggregate t agg (some tr) f a) (some aliasStr) }),
           if aliasStr ∈ ws then ws else ws ++ [aliasStr])
        | _ => acc)
      (ctx, [])
    let (ctx, windowAliases) := (nonCteNodes.filter (fun n => n.typeStr = "projection")).foldl
      (fun (acc : TranslationContext × List String) pid =>
        let (ctx, ws) := acc
        match ctx.get? pid.id with
        | some proj =>
          let (cols, ws) := proj.projColumns.foldl
            (fun (a : List ProjColumn × List String) c =>
              match c with
              | .exprCol (.aggregate t agg (some tr) f al0) colAlias src =>
                let aliasStr := colAlias.getD (generateAlias (.aggregate t agg (some tr) f al0))
                (a.1 ++ [.exprCol (.aggregate t agg (some tr) f al0) (some aliasStr) src],
                 if aliasStr ∈ a.2 then a.2 else a.2 ++ [aliasStr])
              | other => (a.1 ++ [other], a.2))
            ([], ws)
          (ctx.update pid.id (fun m => { m with data := .projection cols }), ws)
        | none => acc)
      (ctx, windowAliases)
    let alreadyApplied := nodeGroups.flatMap (fun g =>
      g.nodes.filter (fun id => id.startsWith "filter_" || id.startsWith "composite_filter_"))
    let st ← filterNodes.foldlM
      (fun (st : QBState) f => do
        if f.id ∈ alreadyApplied then pure st
        else do
          let (sqlFrag, touchesWindow) ←
            translateFilter config ctx [] windowAliases (ctx.nodes.length + 1) f
          if sqlFrag = "" then pure st
          else if touchesWindow then pure { st with qualifyParts := st.qualifyParts ++ [sqlFrag] }
          else pure { st with filters := st.filters ++ [sqlFrag] })
      st
    pure (st, ctx)

/-- `addOrderBy`. -/
def addOrderBy (st : QBState) (ctx : TranslationContext)
    (nonCteNodes : List ComputeNode) : QBState :=
  let orderBys := nonCteNodes.filter (fun n => n.typeStr = "sort")
  if orderBys.isEmpty then st
  else { st with orderBy := orderBys.map (translateSortNode ctx) }

/-- `addLimit` of the main query. -/
def addLimit (st : QBState) (nonCteNodes : List ComputeNode) : QBState :=
  match nonCteNodes.find? (fun n => n.typeStr = "limit") with
  | some limitNode =>
    let (clause, dims) := limitClauseOf limitNode
    { st with limitSql := clause, groupBy := st.groupBy ++ dims }
  | none => st

/-- `assembleSQL`: SELECT, FROM, PREWHERE, WHERE, QUALIFY, GROUP BY,
ORDER BY, LIMIT — absent clauses omitted. -/
def assembleSQL (st : QBState) : String :=
  let parts := ["SELECT " ++ String.intercalate ", " st.cols, st.fromStmt]
  let parts := if !st.preFilters.isEmpty then
      parts ++ ["PREWHERE " ++ String.intercalate " AND " st.preFilters] else parts
  let parts := if !st.filters.isEmpty then
      parts ++ ["WHERE " ++ String.intercalate " AND " st.filters] else parts
  let parts := if !st.qualifyParts.isEmpty then
      parts ++ ["QUALIFY " ++ String.intercalate " AND " st.qualifyParts] else parts
  let parts := if !st.groupBy.isEmpty then
      parts ++ ["GROUP BY " ++ String.intercalate ", " (dedupKeepFirst st.groupBy)] else parts
  let parts := if !st.orderBy.isEmpty then
      parts ++ ["ORDER BY " ++ String.intercalate ", " st.orderBy] else parts
  let parts := if st.limitSql ≠ "" then parts ++ [st.limitSql] else parts
  st.sqlHead ++ joinLines parts

/-- `translateToSQL`: group nodes into CTEs, emit each CTE, then build and
assemble the main query. -/
def translateToSQL (config : QueryBuilderConfig) (ctx : TranslationContext) :
    Except GError String := do
  let nodeGroups := groupNodesForCTE ctx
  let nodeGroups := removeUnusedCTENodes nodeGroups
  let (ctx, cteSqls) ← nodeGroups.foldlM (generateCTESQL config) (ctx, [])
  let nonCteNodes := ctx.values.filter
    (fun n => !nodeGroups.any (fun g => n.id ∈ g.nodes))
  let st : QBState := {}
  let st := if !cteSqls.isEmpty then
      { st with sqlHead := "WITH " ++ String.intercalate ",\n" (cteSqls.map (fun c => c.sql)) ++ "\n" }
    else st
  let st := addCTEColumns st cteSqls
  let st := buildFromClause st cteSqls
  let (st, ctx) ← addFilters config st ctx nonCteNodes nodeGroups
  let st := addOrderBy st ctx nonCteNodes
  let st := addLimit st nonCteNodes
  pure (assembleSQL st)

/-- `QueryBuilder.fromComputeGraph`: execution-order node map plus the
time ranges of all aggregate expressions. -/
def fromComputeGraph (g : Graph) : Except GError TranslationContext := do
  let order ← g.getExecutionOrder
  pure { nodes := order.map (fun n => (n.id, n))
         timeRanges := order.filterMap (fun n =>
           match n.data with
           | .expression (.aggregate _ _ tr _ _) _ => tr
           | _ => none) }

/-- `buildQuery`: compile a user query to SQL text and the parameter map
(builds the graph, optimizes it, then translates). -/
def buildQuery (q : UserQuery) (config : QueryBuilderConfig := DEFAULT_CONFIG) :
    Except GError (String × List (String × JSValue)) := do
  let g ← buildUserQuery q config
  let g ← g.optimize config false
  let ctx ← fromComputeGraph g
  let sql ← translateToSQL config ctx
  pure (sql, g.parameters)


/-! ## Input validation (`schemas.ts`, zod model)

NaN and infinities are not representable in the rational number model, so
`z.number().finite()` holds of every modelled number. -/

/-- `timeUnitSchema`. -/
def validTimeUnit (u : String) : Bool :=
  u ∈ ["second", "minute", "hour", "day", "week", "month", "year"]

/-- `timeRangeSchema`. -/
def validTimeRange : TimeRange → Bool
  | .absolute _ _ => true
  | .relative d u a => d > 0 && validTimeUnit u && (match a with | some x => x ≥ 0 | none => true)
  | .trading d u a => d > 0 && validTimeUnit u && (match a with | some x => x ≥ 0 | none => true)

/-- `filterOperatorSchema`. -/
def validFilterOperator (op : String) : Bool :=
  op ∈ ["eq", "neq", "gt", "gte", "lt", "lte", "in", "nin", "contains", "ncontains"]

/-- `mathOperatorSchema`. -/
def validMathOperator (op : String) : Bool :=
  op ∈ ["+", "-", "*", "/", "^", "%", "sqrt", "abs", "ln", "log10",
        ">", ">=", "<", "<=", "==", "!="]

/-- `aggregationTypeSchema`. -/
def validAggregationType (a : String) : Bool :=
  a ∈ ["first", "last", "min", "max", "median", "percentile", "avg", "sum",
       "stddev", "count", "variance", "diff", "diff_pct", "ema"]

/-- Constant values accepted by `constantExpressionSchema`: primitives, or
arrays that are uniformly strings or uniformly numbers. -/
def validConstantValue : JSValue → Bool
  | .prim _ => true
  | .arr l =>
    l.all (fun p => match p with | .str _ => true | _ => false) ||
    l.all (fun p => match p with | .num _ => true | _ => false)

/-- `z.string().min(1).optional()`. -/
def validOptAlias : Option String → Bool
  | some a => a.length ≥ 1
  | none => true

mutual
/-- `expressionSchema`. -/
def validExpression : Expression → Bool
  | .constant v a => validConstantValue v && validOptAlias a
  | .metric m f a =>
    m.length ≥ 1 && validOptAlias a &&
    (match f with | some ff => validFilter ff | none => true)
  | .math op ops a =>
    validMathOperator op && ops.length ≥ 1 && validExpressionList ops && validOptAlias a
  | .aggregate t agg tr f a =>
    (match t with
     | .metric _ _ _ => validExpression t
     | .math _ _ _ => validExpression t
     | .aggregate _ _ _ _ _ => validExpression t
     | _ => false) &&
    validAggregationType agg &&
    (match tr with | some r => validTimeRange r | none => true) &&
    (match f with | some ff => validFilter ff | none => true) &&
    validOptAlias a

/-- Validity of each operand. -/
def validExpressionList : List Expression → Bool
  | [] => true
  | e :: rest => validExpression e && validExpressionList rest

/-- `filterSchema`. -/
def validFilter : Filter → Bool
  | .simple t op v => validExpression t && validFilterOperator op && validExpression v
  | .composite op fs =>
    op ∈ ["and", "or", "not"] && fs.length ≥ 1 && validFilterList fs

/-- Validity of each child filter. -/
def validFilterList : List Filter → Bool
  | [] => true
  | f :: rest => validFilter f && validFilterList rest
end

/-- `groupBySchema`. -/
def validGroupingCriteria : GroupingCriteria → Bool
  | .dim s => s.length ≥ 1
  | .topN d l e =>
    d.length ≥ 1 && l.den = 1 && l > 0 &&
    (match e with
     | some (.math op ops a) => validExpression (.math op ops a)
     | some (.aggregate t agg tr f a) => validExpression (.aggregate t agg tr f a)
     | some _ => false
     | none => true)

/-- `sortCriteriaSchema`. -/
def validSortCriteria (c : SortCriteria) : Bool :=
  validExpression c.expression && c.direction ∈ ["asc", "desc"]

/-- `userQuerySchema`. -/
def validUserQuery (q : UserQuery) : Bool :=
  q.id.length ≥ 1 && q.name.length ≥ 1 && validFilter q.filter &&
  (match q.group_by with | some gs => gs.all validGroupingCriteria | none => true) &&
  (match q.sort_by with | some ss => ss.all validSortCriteria | none => true) &&
  (match q.limit with | some l => l.den = 1 && l > 0 | none => true) &&
  q.status ∈ ["active", "running", "completed", "failed", "stopped"]

/-! ## Claim inputs and string-position helpers -/


/-- First index (in characters) at which `needle` occurs in `hay`. -/
def firstOccurAux (needle : List Char) : Nat → List Char → Option Nat
  | _, [] => if needle.isEmpty then some 0 else none
  | i, c :: rest =>
    if needle.isPrefixOf (c :: rest) then some i
    else firstOccurAux needle (i + 1) rest

/-- First occurrence position of a substring. -/
def firstOccur (needle hay : String) : Option Nat :=
  firstOccurAux needle.data 0 hay.data

/-- The failing graph of the `removeNode` claim: a source feeding one
projection (built through `addNode`). -/
def c3Graph : Graph :=
  let g : Graph := {}
  let (g, _) := g.addNode { id := "src_1", data := .source "daily_agg" none, inputs := [] }
  (g.addNode { id := "proj_1", data := .projection [.name "close" none none],
               inputs := ["src_1"] }).1

/-- A graph exhibiting the inline-parameters rewrite with the parameter on
the left condition side and a node reference on the right. -/
def c1Graph : Graph :=
  let g : Graph := {}
  let (g, _) := g.addNode
    { id := "expression_1"
      data := .expression (.constant (.prim (.str "42")) none) none
      inputs := []
      metadata := some { isParameter := true } }
  let (g, _) := g.addNode
    { id := "projection_1", data := .projection [.name "close" none none], inputs := [] }
  (g.addNode
    { id := "filter_1"
      data := .filter { left := .inputRef "expression_1" "expression_1"
                        right := .inputRef "projection_1" "close"
                        op := "gt" }
      inputs := ["expression_1", "projection_1"] }).1

/-- The dangling-input query: its filter target is a math expression with
a constant operand. -/
def qC2 : UserQuery :=
  { id := "ratio-screener", name := "Ratio screener", status := "active"
    filter := .simple
      (.math "/" [.metric "close" none none, .constant (.prim (.num 2)) none] none)
      "gt" (.constant (.prim (.num 10)) none) }

/-- The absolute-time-range query whose `from` lies at noon UTC
(2024-01-01T12:00:00Z = 1704110400, to = 2024-12-31T00:00:00Z). -/
def qC4 : UserQuery :=
  { id := "ytd", name := "ytd", status := "active"
    filter := .simple
      (.aggregate (.metric "close" none none) "last"
        (some (.absolute 1704110400 1735603200)) none (some "last_close"))
      "gt" (.constant (.prim (.num 100)) none) }

/-- A query whose CTE carries both a window-alias predicate (QUALIFY) and
a date predicate (WHERE). -/
def qC5 : UserQuery :=
  { id := "last-close", name := "last close", status := "active"
    filter := .simple
      (.aggregate (.metric "close" none none) "last"
        (some (.relative 30 "day" none)) none (some "last_close"))
      "gt" (.constant (.prim (.num 100)) none) }

/-- Build-then-optimize pipeline of the dangling-input query. -/
def c2Optimized : Except GError Graph := do
  let g ← buildUserQuery qC2
  g.optimize DEFAULT_CONFIG false



/-! ## DFS well-formedness notions (`getExecutionOrder` analysis) -/

/-- The dependency edge relation: node `a` lists `b` among its inputs. -/
def Graph.edge (g : Graph) (a b : NodeID) : Prop :=
  ∃ n, g.getNode? a = some n ∧ b ∈ n.inputs

/-- The invariant bundle of the DFS state of `getExecutionOrder`. -/
structure VisitInv (g : Graph) (st : VisitState) : Prop where
  ndProc : st.processing.Nodup
  procPres : ∀ x ∈ st.processing, x ∈ g.present
  ndVis : st.visited.Nodup
  visPres : ∀ x ∈ st.visited, x ∈ g.present
  disj : ∀ x ∈ st.processing, x ∉ st.visited
  ord : st.ordered = st.visited.filterMap (fun id => g.getNode? id)
  chain : List.Chain' (fun a b => g.edge b a) st.processing
  closedVis : ∀ a ∈ st.visited, ∀ b, g.edge a b → b ∈ st.visited
  pairVis : List.Pairwise (fun x y => ¬ g.edge x y) st.visited
  irreflVis : ∀ a ∈ st.visited, ¬ g.edge a a

/-- Outcome of one `visit` call on a well-formed graph: success with the
invariant preserved and the node finished, or a detected cycle. -/
def OkOrCycle (g : Graph) (fuel : Nat) (st : VisitState) (nodeId : NodeID) : Prop :=
  (∃ st', visit g fuel st nodeId = .ok st' ∧ VisitInv g st' ∧
    st'.processing = st.processing ∧ (∃ app, st'.visited = st.visited ++ app) ∧
    nodeId ∈ st'.visited) ∨
  (∃ c, visit g fuel st nodeId = .error (.cycleDetected c) ∧
    Relation.TransGen g.edge c c)

/-- Decidable closedness: every input of every present node resolves. -/
def Graph.closedB (g : Graph) : Bool :=
  g.present.all (fun id =>
    match g.getNode? id with
    | none => true
    | some n => n.inputs.all (fun i => (g.getNode? i).isSome))

/-- Decidable well-formedness: every present id resolves to a node carrying
that id. -/
def Graph.wfIdsB (g : Graph) : Bool :=
  g.present.all (fun id =>
    match g.getNode? id with
    | none => false
    | some n => n.id = id)

/-- A two-node acyclic graph (a source feeding a projection). -/
def gAcyclic : Graph :=
  { heap := [("src_1", { id := "src_1", data := .source "daily_agg" (some "date"),
                         inputs := [] }),
             ("proj_1", { id := "proj_1", data := .projection [.name "close" none none],
                          inputs := ["src_1"] })]
    present := ["src_1", "proj_1"] }

/-- The two-node cyclic graph of the repository test (inputs mutated into a
cycle). -/
def gCyclic : Graph :=
  { heap := [("filter_1", { id := "filter_1"
                            data := .expression (.metric "close" none none) none
                            inputs := ["filter_2"] }),
             ("filter_2", { id := "filter_2"
                            data := .expression (.metric "close" none none) none
                            inputs := ["filter_1"] })]
    present := ["filter_1", "filter_2"] }

/-! ## Ghost accounting and required-column mirror (C9 inputs) -/

/-- A ghost of `mergeFilters`: a snapshot id whose record still sits in the heap as a filter node although the id is no longer present. -/
def ghostFilter (g : Graph) (id : NodeID) : Bool :=
  !(decide (id ∈ g.present)) && (match heapGet? g.heap id with
    | some n => n.isFilterish
    | none => false)

/-- Number of ghosts along a list of snapshot ids. -/
def ghostCount (g : Graph) (l : List NodeID) : Nat :=
  (l.filter (ghostFilter g)).length

/-- Decidable mirror of the per-source missing-column computation of `ensureRequiredColumns`: no source is missing a required projection. -/
def noMissingB (config : QueryBuilderConfig) (g : Graph) : Bool :=
  (g.nodesList.filter (fun n => n.typeStr = "source")).all
    (fun sn =>
      match alist.get? config.tables sn.sourceTable with
      | none => false
      | some tableConfig =>
        let required := dedupKeepFirst tableConfig.alwaysIncludeColumns
        let hasTimeBasedAggregation := g.nodesList.any
          (fun n => n.isTimeAggregate && firstInputWalk g sn.id (g.size + 1) (some n))
        let required := match tableConfig.timeColumn with
          | some tc =>
            if hasTimeBasedAggregation then
              if tc ∈ required then required else required ++ [tc]
            else required
          | none => required
        let existingProjections := g.nodesList.filter
          (fun n => n.typeStr = "projection" && sn.id ∈ n.inputs)
        let projectedColumns := existingProjections.flatMap (·.nameColumns)
        (required.filter (fun c => c ∉ projectedColumns)).isEmpty)

/-- The graph built from the valid query `qC2`. -/
def c9G : Graph :=
  match buildUserQuery qC2 DEFAULT_CONFIG with
  | .ok g => g
  | .error _ => {}

/-- The state of `c9G` after the five rewrite passes of `optimize`. -/
def c9GMid : Graph :=
  match c9G.removedDuplicateProjections.inlineParameters.mergeFilters.removeUselessCompositeFilters.removeDuplicateProjectionExpressions with
  | .ok g => g
  | .error _ => {}

/-- The result of `optimize` on `c9G`. -/
def c9Gp : Graph :=
  match c9G.optimize DEFAULT_CONFIG false with
  | .ok g => g
  | .error _ => {}


/-! # Theorems -/

/-! ## C3: `removeNode` and the terminal-flag invariant -/

/-- C3 (code bug, failing input): after `removeNode "proj_1"` on a graph
where `src_1` feeds only `proj_1`, no remaining node references `src_1`,
yet its `isTerminal` flag is `false` — the reference scan inside
`removeNode` still sees the node being removed, so former inputs are never
flipped back to terminal as the claim (and the spec invariant
`isTerminal(n) ⇔ no node references n`) requires. -/
theorem C3_removeNode_leaves_input_nonterminal :
    ((c3Graph.removeNode "proj_1").nodesList.all
      (fun n => !(n.inputs.contains "src_1"))) = true ∧
    ((c3Graph.removeNode "proj_1").getNode? "src_1").map (fun n => n.isTerminal) =
      some false ∧
    ((c3Graph.removeNode "proj_1").nodesList.map (fun n => n.id)) = ["src_1"] :=
  ⟨rfl, rfl, rfl⟩

/-! ## C8: `createParameter` -/

/-- C8: `createParameter` inlines numbers as their decimal rendering and
booleans as `1`/`0` without touching the parameter table, returns the
literal `[]` for the empty array, stores strings (`%`-wrapped under a LIKE
operator) and homogeneous non-empty arrays under the next `param_<n+1>`
name with the matching placeholder type, and throws the mixed-type-array
error otherwise.  Insertion-order naming starting at `param_1` is the
`parameters.length + 1` index visible in the stored-value cases. -/
theorem C8_createParameter_spec :
    (∀ (g : Graph) (op : Option String) (q : ℚ),
       g.createParameter (.prim (.num q)) op = .ok (numToString q, g)) ∧
    (∀ (g : Graph) (op : Option String) (b : Bool),
       g.createParameter (.prim (.pbool b)) op = .ok ((if b then "1" else "0"), g)) ∧
    (∀ (g : Graph) (op : Option String),
       g.createParameter (.arr []) op = .ok ("[]", g)) ∧
    (∀ (g : Graph) (op : Option String) (s : String),
       g.createParameter (.prim (.str s)) op =
         .ok (placeholder ("param_" ++ natStr (g.parameters.length + 1)) "String",
              { g with parameters := g.parameters ++
                  [("param_" ++ natStr (g.parameters.length + 1),
                    .prim (.str (if likeOp op then "%" ++ s ++ "%" else s)))] })) ∧
    (∀ (g : Graph) (op : Option String) (p : Prim) (ps : List Prim),
       (p :: ps).all (fun v => v.typeofStr = p.typeofStr) = true →
       g.createParameter (.arr (p :: ps)) op =
         .ok (placeholder ("param_" ++ natStr (g.parameters.length + 1))
                (match p with
                 | .str _ => "Array(String)"
                 | .num _ => "Array(Float64)"
                 | .pbool _ => "Array(Boolean)"),
              { g with parameters := g.parameters ++
                  [("param_" ++ natStr (g.parameters.length + 1), .arr (p :: ps))] })) ∧
    (∀ (g : Graph) (op : Option String) (p : Prim) (ps : List Prim),
       (p :: ps).all (fun v => v.typeofStr = p.typeofStr) = false →
       g.createParameter (.arr (p :: ps)) op = .error .mixedTypeArray) := by
  refine ⟨fun g op q => rfl, fun g op b => rfl, fun g op => rfl, fun g op s => ?_,
          fun g op p ps h => ?_, fun g op p ps h => ?_⟩
  · by_cases h : likeOp op <;> simp [Graph.createParameter, h]
  · simp [Graph.createParameter, h]
  · simp [Graph.createParameter, h]

/-- Witness for C8: the hypothesis-bearing array cases at concrete
inputs. -/
theorem C8_createParameter_spec_witness :
    ({} : Graph).createParameter (.arr [.str "a", .num 1]) none = .error .mixedTypeArray ∧
    ({} : Graph).createParameter (.arr [.str "a", .str "b"]) none =
      .ok (placeholder ("param_" ++ natStr (([] : List (String × JSValue)).length + 1))
             "Array(String)",
           { ({} : Graph) with
             parameters := [("param_" ++ natStr (([] : List (String × JSValue)).length + 1),
                             .arr [.str "a", .str "b"])] }) :=
  ⟨C8_createParameter_spec.2.2.2.2.2 {} none (.str "a") [.num 1] (by decide),
   C8_createParameter_spec.2.2.2.2.1 {} none (.str "a") [.str "b"] (by decide)⟩


/-! ## C2: dangling math input after parameter inlining -/

set_option maxRecDepth 100000 in
/-- C2: for the valid query `close / 2 > 10`, the inline-parameters pass
of `optimize()` removes the constant operand's expression node
(`expression_1`) while the math node (`expression_2`) still lists it in
`inputs` — only dependents carrying a condition or criteria field are
rewritten — so `getExecutionOrder()` throws the missing-input
dangling-reference error. -/
theorem C2_inline_parameters_dangling_reference :
    validUserQuery qC2 = true ∧
    c2Optimized.map (fun g =>
      ((g.getNode? "expression_1").isNone,
       (g.getNode? "expression_2").map (fun n => n.inputs.contains "expression_1"),
       g.getExecutionOrder)) =
    .ok (true, some true, .error (.missingInput "expression_2" "expression_1")) :=
  ⟨by with_unfolding_all rfl, by with_unfolding_all rfl⟩

/-! ## C4: the absolute-range PREWHERE leeway -/

set_option maxRecDepth 100000 in
/-- C4 (code bug): for the valid query whose only (and hence largest) time
range is absolute with `from = 2024-01-01T12:00:00Z`, the emitted PREWHERE
lower bound is `toDate('2024-01-01')`, not the claimed
`toDate('2023-12-31')` — the code subtracts 86400 *milliseconds* (86.4
seconds) instead of one day before truncating, contradicting its own
comment "From is extended by 1 day to be inclusive". -/
theorem C4_prewhere_leeway_is_86400_milliseconds :
    validUserQuery qC4 = true ∧
    (buildQuery qC4).map (fun r =>
      (strIncludes r.1
         ("PREWHERE daily_agg.date BETWEEN toDate(" ++ sq ++ "2024-01-01" ++ sq ++
          ") AND toDate(" ++ sq ++ "2024-12-31" ++ sq ++ ")"),
       strIncludes r.1 "2023-12-31")) = .ok (true, false) ∧
    msToDateStr (secToMs (1704110400 : ℚ) - 86400) = "2024-01-01" :=
  ⟨by with_unfolding_all rfl, by with_unfolding_all rfl, by with_unfolding_all rfl⟩

/-! ## C5: clause order of emitted SQL -/

set_option maxRecDepth 100000 in
/-- C5 (counterexample): the emitter produces, for the valid query
`last(close, 30d) > 100`, a CTE body whose QUALIFY clause precedes its
WHERE clause — refuting the claimed universal clause order
SELECT, FROM, PREWHERE, WHERE, QUALIFY, …. -/
theorem C5_counterexample_cte_qualify_before_where :
    validUserQuery qC5 = true ∧
    (buildQuery qC5).map (fun r =>
      (firstOccur "\nQUALIFY " r.1, firstOccur "\nWHERE " r.1,
       strIncludes r.1
         "\nQUALIFY last_close > 100\nWHERE date >= date_sub(now(), INTERVAL 30 DAY)\n)")) =
    .ok (some 260, some 285, true) ∧ 260 < 285 :=
  ⟨by with_unfolding_all rfl, by with_unfolding_all rfl, by norm_num⟩


/-! ## C5 amended: clause order of the two assembly functions -/

/-- Splitting `joinLines` at a cons cell after a non-empty prefix. -/
theorem joinLines_append_cons (l1 : List String) (x : String) (l2 : List String)
    (h : l1 ≠ []) :
    joinLines (l1 ++ x :: l2) = joinLines l1 ++ "\n" ++ joinLines (x :: l2) := by
  induction l1 with
  | nil => exact absurd rfl h
  | cons a t ih =>
    cases t with
    | nil => rfl
    | cons b t' =>
      show a ++ "\n" ++ joinLines ((b :: t') ++ x :: l2) = _
      rw [ih (by simp)]
      simp [joinLines, String.append_assoc]

/-- Appending one line to a non-empty join. -/
theorem joinLines_append_singleton (l : List String) (z : String) (h : l ≠ []) :
    joinLines (l ++ [z]) = joinLines l ++ "\n" ++ z := by
  simpa [joinLines] using joinLines_append_cons l z [] h

/-- A trailing append preserves a marker decomposition. -/
theorem exists_decomp_append {A B : String} {x : String} (y : String)
    (h : ∃ pre mid post, x = pre ++ A ++ mid ++ B ++ post) :
    ∃ pre mid post, x ++ y = pre ++ A ++ mid ++ B ++ post := by
  obtain ⟨p, m, q, rfl⟩ := h
  exact ⟨p, m, q ++ y, by simp [String.append_assoc]⟩

/-- A conditional pair of trailing appends preserves a marker
decomposition. -/
theorem exists_decomp_ite2 {A B x : String} (a b : String) (c : Prop) [Decidable c]
    (h : ∃ pre mid post, x = pre ++ A ++ mid ++ B ++ post) :
    ∃ pre mid post, (if c then x ++ a ++ b else x) = pre ++ A ++ mid ++ B ++ post := by
  split
  · exact exists_decomp_append b (exists_decomp_append a h)
  · exact h

/-- Merging the newline into the WHERE keyword. -/
theorem nlWhere (X : String) : "\n" ++ ("WHERE " ++ X) = "\nWHERE " ++ X := by
  rw [← String.append_assoc]
  rfl

/-- Merging the newline into the QUALIFY keyword. -/
theorem nlQualify (X : String) : "\n" ++ ("QUALIFY " ++ X) = "\nQUALIFY " ++ X := by
  rw [← String.append_assoc]
  rfl

/-- C5 (amended): the main `assembleSQL` emits WHERE before QUALIFY as the
claim states, but every CTE body assembled by `generateCTESQL` (through
`cteAssemble`) emits QUALIFY before WHERE whenever both clauses are
present. -/
theorem C5_amended_clause_order :
    (∀ st : QBState, st.filters ≠ [] → st.qualifyParts ≠ [] →
      ∃ pre mid post, assembleSQL st = pre ++ "\nWHERE " ++ mid ++ "\nQUALIFY " ++ post) ∧
    (∀ (cols : List String) (fromStmt : String)
       (preWhere qualify whereParts groupBy orderBy : List String) (limitClause : String),
      whereParts ≠ [] → qualify ≠ [] →
      ∃ pre mid post,
        cteAssemble cols fromStmt preWhere qualify whereParts groupBy orderBy limitClause =
          pre ++ "\nQUALIFY " ++ mid ++ "\nWHERE " ++ post) := by
  constructor
  · intro st hf hq
    have hf' : st.filters.isEmpty = false := List.isEmpty_eq_false.mpr hf
    have hq' : st.qualifyParts.isEmpty = false := List.isEmpty_eq_false.mpr hq
    simp only [assembleSQL, hf', hq', Bool.not_false, if_true]
    set l1 : List String :=
      if !st.preFilters.isEmpty then
        ["SELECT " ++ String.intercalate ", " st.cols, st.fromStmt] ++
          ["PREWHERE " ++ String.intercalate " AND " st.preFilters]
      else ["SELECT " ++ String.intercalate ", " st.cols, st.fromStmt] with hl1def
    have hl1 : l1 ≠ [] := by
      rw [hl1def]; split <;> simp
    have base : ∃ pre mid post,
        st.sqlHead ++ joinLines ((l1 ++ ["WHERE " ++ String.intercalate " AND " st.filters]) ++
          ["QUALIFY " ++ String.intercalate " AND " st.qualifyParts]) =
        pre ++ "\nWHERE " ++ mid ++ "\nQUALIFY " ++ post := by
      rw [List.append_assoc]
      simp only [List.cons_append, List.nil_append]
      rw [joinLines_append_cons _ _ _ hl1]
      refine ⟨st.sqlHead ++ joinLines l1, String.intercalate " AND " st.filters,
              String.intercalate " AND " st.qualifyParts, ?_⟩
      simp [joinLines, String.append_assoc, nlWhere, nlQualify]
    have step1 : ∀ (L : List String), L ≠ [] →
        (∃ pre mid post, st.sqlHead ++ joinLines L =
          pre ++ "\nWHERE " ++ mid ++ "\nQUALIFY " ++ post) →
        ∀ (z : String) (c : Prop) [Decidable c],
        ((if c then L ++ [z] else L) ≠ [] ∧
         ∃ pre mid post, st.sqlHead ++ joinLines (if c then L ++ [z] else L) =
          pre ++ "\nWHERE " ++ mid ++ "\nQUALIFY " ++ post) := by
      intro L hL h z c inst
      constructor
      · split
        · simp
        · exact hL
      · split
        · rw [joinLines_append_singleton _ _ hL, ← String.append_assoc, ← String.append_assoc]
          exact exists_decomp_append z (exists_decomp_append "\n" h)
        · exact h
    have h2 : (l1 ++ ["WHERE " ++ String.intercalate " AND " st.filters]) ++
        ["QUALIFY " ++ String.intercalate " AND " st.qualifyParts] ≠ [] := by simp
    have h3 := step1 _ h2 base
      ("GROUP BY " ++ String.intercalate ", " (dedupKeepFirst st.groupBy))
      ((!st.groupBy.isEmpty) = true)
    have h4 := step1 _ h3.1 h3.2 ("ORDER BY " ++ String.intercalate ", " st.orderBy)
      ((!st.orderBy.isEmpty) = true)
    have h5 := step1 _ h4.1 h4.2 st.limitSql (st.limitSql ≠ "")
    exact h5.2
  · intro cols fromStmt preWhere qualify whereParts groupBy orderBy limitClause hw hq
    have hq' : qualify.isEmpty = false := List.isEmpty_eq_false.mpr hq
    have hw' : whereParts.isEmpty = false := List.isEmpty_eq_false.mpr hw
    simp only [cteAssemble, hq', hw', Bool.not_false, if_true]
    have base : ∃ pre mid post,
        ((if !preWhere.isEmpty then
            "SELECT " ++ String.intercalate ", " cols ++ "\n" ++ fromStmt ++
              "\nPREWHERE " ++ String.intercalate " AND " preWhere
          else "SELECT " ++ String.intercalate ", " cols ++ "\n" ++ fromStmt) ++
          "\nQUALIFY " ++ String.intercalate " AND " qualify) ++
          "\nWHERE " ++ String.intercalate " AND " whereParts =
        pre ++ "\nQUALIFY " ++ mid ++ "\nWHERE " ++ post :=
      ⟨_, _, _, rfl⟩
    have g1 := exists_decomp_ite2 "\nGROUP BY " (String.intercalate ", " groupBy) ((!groupBy.isEmpty) = true) base
    have g2 := exists_decomp_ite2 "\nORDER BY " (String.intercalate ", " orderBy) ((!orderBy.isEmpty) = true) g1
    have g3 := exists_decomp_ite2 "\n" limitClause (limitClause ≠ "") g2
    exact g3

/-- Witness for C5 (amended) on a concrete query-builder state and concrete
CTE clause lists. -/
theorem C5_amended_clause_order_witness :
    (∃ pre mid post,
      assembleSQL { cols := ["x"], fromStmt := "FROM t",
                    filters := ["a > 1"], qualifyParts := ["q > 2"] } =
        pre ++ "\nWHERE " ++ mid ++ "\nQUALIFY " ++ post) ∧
    (∃ pre mid post,
      cteAssemble ["x"] "FROM t" [] ["q > 2"] ["a > 1"] [] [] "" =
        pre ++ "\nQUALIFY " ++ mid ++ "\nWHERE " ++ post) :=
  ⟨C5_amended_clause_order.1 _ (by simp) (by simp),
   C5_amended_clause_order.2 ["x"] "FROM t" [] ["q > 2"] ["a > 1"] [] [] ""
     (by simp) (by simp)⟩


/-! ## C1: the inline-parameters condition rewrite -/

set_option maxRecDepth 100000 in
/-- C1 (counterexample): on the graph whose filter references the
parameter node on the left condition side and the projection on the
right, the inline-parameters pass clobbers the right side with the
rewritten left side — the claim demands the right side stay
`inputRef projection_1 close`. -/
theorem C1_counterexample_right_side_clobbered :
    (c1Graph.inlineParameters.getNode? "filter_1").map
      (fun n => (n.data, n.inputs, n.meta.hasParameter)) =
      some (.filter { left := .param "42", right := .param "42", op := "gt" },
            ["projection_1"], true) ∧
    (c1Graph.inlineParameters.getNode? "filter_1").map (fun n => n.data) ≠
      some (.filter { left := .param "42",
                      right := .inputRef "projection_1" "close", op := "gt" }) := by
  refine ⟨by with_unfolding_all rfl, ?_⟩
  have e : (c1Graph.inlineParameters.getNode? "filter_1").map (fun n => n.data) =
      some (.filter { left := .param "42", right := .param "42", op := "gt" }) := by
    with_unfolding_all rfl
  rw [e]
  simp

/-- C1 (amended): rewriting a dependent filter node drops the parameter id
from the inputs and sets `hasParameter`; a condition side that is an input
reference to the parameter node becomes the parameter placeholder, and the
left side is otherwise unchanged — but a right side that is an input
reference to any *other* node is overwritten with the rewritten left side
instead of being left unchanged. -/
theorem C1_amended_inline_parameter_rewrite (pid : NodeID) (v : String)
    (dep : ComputeNode) (cond : Condition) (h : dep.data = .filter cond) :
    ((inlineParamRewrite pid v dep).inputs = dep.inputs.filter (fun i => i ≠ pid) ∧
     (inlineParamRewrite pid v dep).meta.hasParameter = true) ∧
    (∀ tl tc, cond.left = .inputRef tl tc → tl ≠ pid →
     ∀ rc, cond.right = .inputRef pid rc →
      (inlineParamRewrite pid v dep).data =
        .filter { left := cond.left, right := .param v, op := cond.op }) ∧
    (∀ tc ri rc, cond.left = .inputRef pid tc → cond.right = .inputRef ri rc →
      ri ≠ pid →
      (inlineParamRewrite pid v dep).data =
        .filter { left := .param v, right := .param v, op := cond.op }) := by
  obtain ⟨i, d, inp, t, md⟩ := dep
  simp only at h
  subst h
  obtain ⟨l, r, op⟩ := cond
  refine ⟨⟨?_, ?_⟩, ?_, ?_⟩
  · simp [inlineParamRewrite]
  · simp [inlineParamRewrite, ComputeNode.meta]
  · intro tl tc hl hne rc hr
    simp only at hl hr
    subst hl hr
    simp [inlineParamRewrite, hne]
  · intro tc ri rc hl hr hne
    simp only at hl hr
    subst hl hr
    simp [inlineParamRewrite, hne]

/-- Witness for C1 (amended) on the concrete filter node of the
counterexample graph. -/
theorem C1_amended_inline_parameter_rewrite_witness :
    (inlineParamRewrite "expression_1" "42"
      { id := "filter_1"
        data := .filter { left := .inputRef "expression_1" "expression_1"
                          right := .inputRef "projection_1" "close", op := "gt" }
        inputs := ["expression_1", "projection_1"] }).data =
      .filter { left := .param "42", right := .param "42", op := "gt" } :=
  (C1_amended_inline_parameter_rewrite "expression_1" "42" _
      { left := .inputRef "expression_1" "expression_1"
        right := .inputRef "projection_1" "close", op := "gt" } rfl).2.2
    "expression_1" "projection_1" "close" rfl rfl (by decide)


/-! ## C10: `not` composites drop all but the first non-empty child -/

/-- C10: a `not` composite-filter node with two non-ignored children whose
translations are both non-empty renders as `NOT (s1)` — only the first
child's SQL appears, the second is silently dropped (its window flag still
propagates) — while the input schema accepts a `not` composite with more
than one child. -/
theorem C10_not_composite_uses_first_nonempty_child_only :
    (∀ (config : QueryBuilderConfig) (ctx : TranslationContext)
       (ignoreIds : List NodeID) (winAliases : List String) (fuel : Nat)
       (node n1 n2 : ComputeNode) (s1 s2 : String) (w1 w2 : Bool),
      node.data = .compositeFilter "not" →
      node.inputs = [n1.id, n2.id] →
      n1.id ∉ ignoreIds → n2.id ∉ ignoreIds →
      ctx.get? n1.id = some n1 → ctx.get? n2.id = some n2 →
      translateFilter config ctx ignoreIds winAliases fuel n1 = .ok (s1, w1) →
      translateFilter config ctx ignoreIds winAliases fuel n2 = .ok (s2, w2) →
      s1 ≠ "" → s2 ≠ "" →
      translateFilter config ctx ignoreIds winAliases (fuel + 1) node =
        .ok ("NOT (" ++ s1 ++ ")", w1 || w2)) ∧
    (∀ f1 f2 : Filter, validFilter f1 = true → validFilter f2 = true →
      validFilter (.composite "not" [f1, f2]) = true) := by
  constructor
  · intro config ctx ignoreIds winAliases fuel node n1 n2 s1 s2 w1 w2
      hdata hinputs hni1 hni2 hget1 hget2 ht1 ht2 hs1 hs2
    simp only [translateFilter, hdata, hinputs]
    simp only [List.filter_cons, List.filter_nil, hni1, hni2, decide_not,
      decide_eq_true_eq, if_true, if_pos, not_false_eq_true]
    simp only [List.foldlM, hget1, hget2, ht1, ht2,
      Bind.bind, Except.bind, hs1, hs2, if_neg, Bool.false_or]
    rfl
  · intro f1 f2 h1 h2
    simp [validFilter, validFilterList, h1, h2]

/-- Witness for C10 on a two-child `not` composite over two parameter-only
simple filters. -/
theorem C10_witness :
    translateFilter DEFAULT_CONFIG
      { nodes :=
          [("f1", { id := "f1"
                    data := .filter { left := .param "a", right := .param "b", op := "eq" }
                    inputs := [] }),
           ("f2", { id := "f2"
                    data := .filter { left := .param "c", right := .param "d", op := "eq" }
                    inputs := [] })]
        timeRanges := [] } [] [] 2
      { id := "nf", data := .compositeFilter "not", inputs := ["f1", "f2"] } =
      .ok ("NOT (a = b)", false) :=
  C10_not_composite_uses_first_nonempty_child_only.1 DEFAULT_CONFIG _ [] [] 1 _
    { id := "f1"
      data := .filter { left := .param "a", right := .param "b", op := "eq" }
      inputs := [] }
    { id := "f2"
      data := .filter { left := .param "c", right := .param "d", op := "eq" }
      inputs := [] }
    "a = b" "c = d" false false rfl rfl (by decide) (by decide) rfl rfl rfl rfl
    (by decide) (by decide)


/-! ## C6 and C7: `getExecutionOrder` correctness and cycle detection -/

/-- An edge source is present. -/
theorem edge_present {g : Graph} {a b : NodeID} (h : g.edge a b) : a ∈ g.present := by
  obtain ⟨n, hget, -⟩ := h
  by_contra hmem
  simp [Graph.getNode?, hmem] at hget

/-- A resolvable id is present. -/
theorem present_of_isSome {g : Graph} {i : NodeID}
    (h : (g.getNode? i).isSome = true) : i ∈ g.present := by
  by_contra hmem
  simp [Graph.getNode?, hmem] at h

/-- Every member of the processing stack reaches the stack top along
dependency edges. -/
theorem chain_reach {g : Graph} :
    ∀ (l : List NodeID) (t : NodeID),
      List.Chain' (fun a b => g.edge b a) (t :: l) →
      ∀ x ∈ t :: l, Relation.ReflTransGen g.edge x t := by
  intro l
  induction l with
  | nil =>
    intro t _ x hx
    rcases List.mem_singleton.mp hx with rfl
    exact Relation.ReflTransGen.refl
  | cons h l ih =>
    intro t hchain x hx
    rcases List.mem_cons.mp hx with rfl | hx'
    · exact Relation.ReflTransGen.refl
    · have hht : g.edge h t := (List.chain'_cons.mp hchain).1
      have := ih h (List.chain'_cons.mp hchain).2 x hx'
      exact this.tail hht

/-- A duplicate-free list is no longer than any list containing it. -/
theorem nodup_subset_length {l1 l2 : List NodeID} (h : l1.Nodup) (s : l1 ⊆ l2) :
    l1.length ≤ l2.length :=
  (h.subperm s).length_le

/-- `filterMap` preserves the length when every element maps to `some`. -/
theorem filterMap_length_all_some {α β : Type} (f : α → Option β) :
    ∀ (l : List α), (∀ x ∈ l, (f x).isSome) → (l.filterMap f).length = l.length := by
  intro l
  induction l with
  | nil => intro; rfl
  | cons a l ih =>
    intro h
    obtain ⟨b, hb⟩ := Option.isSome_iff_exists.mp (h a (by simp))
    simp [List.filterMap_cons, hb, ih (fun x hx => h x (by simp [hx]))]


/-- `Except` bind on a success. -/
theorem except_bind_ok {ε α β : Type} (a : α) (f : α → Except ε β) :
    (Except.ok a >>= f) = f a := rfl

/-- `Except` bind on an error. -/
theorem except_bind_err {ε α β : Type} (e : ε) (f : α → Except ε β) :
    ((Except.error e : Except ε α) >>= f) = Except.error e := rfl

/-- The input fold of `visit`: each child call preserves the invariant, or a
cycle is detected and propagated. -/
theorem visitFold_spec (g : Graph)
    (hclosed : ∀ a n, g.getNode? a = some n → ∀ i ∈ n.inputs, (g.getNode? i).isSome)
    (fuel : Nat) (nodeId : NodeID)
    (IH : ∀ (st : VisitState) (nid : NodeID), VisitInv g st → nid ∈ g.present →
      g.present.length + 1 ≤ fuel + st.processing.length →
      (∀ t, st.processing.head? = some t → g.edge t nid) →
      OkOrCycle g fuel st nid) :
    ∀ (l : List NodeID) (st1 : VisitState), VisitInv g st1 →
      st1.processing.head? = some nodeId →
      (∀ i ∈ l, g.edge nodeId i) →
      g.present.length + 1 ≤ fuel + st1.processing.length →
      (∃ st2, l.foldlM (fun st inputId =>
            if (g.getNode? inputId).isNone then
              Except.error (GError.missingInput nodeId inputId)
            else visit g fuel st inputId) st1 = .ok st2 ∧
          VisitInv g st2 ∧ st2.processing = st1.processing ∧
          (∃ app, st2.visited = st1.visited ++ app) ∧ ∀ i ∈ l, i ∈ st2.visited) ∨
      (∃ c, l.foldlM (fun st inputId =>
            if (g.getNode? inputId).isNone then
              Except.error (GError.missingInput nodeId inputId)
            else visit g fuel st inputId) st1 = .error (.cycleDetected c) ∧
          Relation.TransGen g.edge c c) := by
  intro l
  induction l with
  | nil =>
    intro st1 hinv hhead hedges hbound
    left
    exact ⟨st1, rfl, hinv, rfl, ⟨[], by simp⟩, by simp⟩
  | cons i l ih =>
    intro st1 hinv hhead hedges hbound
    have hedge_i : g.edge nodeId i := hedges i (by simp)
    have hiSome : (g.getNode? i).isSome := by
      obtain ⟨n, hget, hin⟩ := hedge_i
      exact hclosed nodeId n hget i hin
    obtain ⟨ni, hgeti⟩ := Option.isSome_iff_exists.mp hiSome
    have hnn : ¬ ((g.getNode? i).isNone = true) := by simp [hgeti]
    have hiPres : i ∈ g.present := present_of_isSome hiSome
    have step : OkOrCycle g fuel st1 i := by
      refine IH st1 i hinv hiPres hbound ?_
      intro t ht
      rw [hhead] at ht
      cases ht
      exact hedge_i
    rcases step with ⟨st', hok, hinv', hproc', ⟨app, happ⟩, hmem⟩ | ⟨c, herr, hcyc⟩
    · have hrec := ih st' hinv' (by rw [hproc']; exact hhead)
        (fun j hj => hedges j (by simp [hj])) (by rw [hproc']; exact hbound)
      rcases hrec with ⟨st2, hfold, hinv2, hproc2, ⟨app2, happ2⟩, hmem2⟩ |
        ⟨c, hfold, hcyc⟩
      · left
        refine ⟨st2, ?_, hinv2, by rw [hproc2, hproc'],
          ⟨app ++ app2, by rw [happ2, happ, List.append_assoc]⟩, ?_⟩
        · rw [List.foldlM_cons, if_neg hnn, hok, except_bind_ok]
          exact hfold
        · intro j hj
          rcases List.mem_cons.mp hj with rfl | hj'
          · rw [happ2]
            exact List.mem_append_left _ hmem
          · exact hmem2 j hj'
      · right
        refine ⟨c, ?_, hcyc⟩
        rw [List.foldlM_cons, if_neg hnn, hok, except_bind_ok]
        exact hfold
    · right
      refine ⟨c, ?_, hcyc⟩
      rw [List.foldlM_cons, if_neg hnn, herr, except_bind_err]

/-- Master lemma for `visit`: with enough fuel on a well-formed graph every
call either succeeds, preserving the invariant and finishing the node, or
reports a node that really lies on a dependency cycle. -/
theorem visit_spec (g : Graph)
    (hpres : ∀ id ∈ g.present, (g.getNode? id).isSome)
    (hclosed : ∀ a n, g.getNode? a = some n → ∀ i ∈ n.inputs, (g.getNode? i).isSome) :
    ∀ (fuel : Nat) (st : VisitState) (nodeId : NodeID), VisitInv g st →
      nodeId ∈ g.present →
      g.present.length + 1 ≤ fuel + st.processing.length →
      (∀ t, st.processing.head? = some t → g.edge t nodeId) →
      OkOrCycle g fuel st nodeId := by
  intro fuel
  induction fuel with
  | zero =>
    intro st nodeId hinv hpresN hbound hhead
    exfalso
    have h1 : st.processing.length ≤ g.present.length :=
      nodup_subset_length hinv.ndProc hinv.procPres
    omega
  | succ fuel IH =>
    intro st nodeId hinv hpresN hbound hhead
    by_cases hproc : nodeId ∈ st.processing
    · right
      refine ⟨nodeId, ?_, ?_⟩
      · simp only [visit]
        rw [if_pos hproc]
      · obtain ⟨t, rest, hsteq⟩ : ∃ t rest, st.processing = t :: rest := by
          cases hst : st.processing with
          | nil => rw [hst] at hproc; simp at hproc
          | cons t rest => exact ⟨t, rest, rfl⟩
        have hedge_t : g.edge t nodeId := hhead t (by rw [hsteq]; rfl)
        have hchain := hinv.chain
        rw [hsteq] at hchain
        have hreach : Relation.ReflTransGen g.edge nodeId t :=
          chain_reach rest t hchain nodeId (by rw [← hsteq]; exact hproc)
        exact Relation.TransGen.tail' hreach hedge_t
    · by_cases hvis : nodeId ∈ st.visited
      · left
        refine ⟨st, ?_, hinv, rfl, ⟨[], by simp⟩, hvis⟩
        simp only [visit]
        rw [if_neg hproc, if_pos hvis]
      · obtain ⟨node, hget⟩ := Option.isSome_iff_exists.mp (hpres nodeId hpresN)
        have hinv1 : VisitInv g { st with processing := nodeId :: st.processing } :=
          { ndProc := List.nodup_cons.mpr ⟨hproc, hinv.ndProc⟩
            procPres := by
              intro x hx
              rcases List.mem_cons.mp hx with rfl | hx'
              · exact hpresN
              · exact hinv.procPres x hx'
            ndVis := hinv.ndVis
            visPres := hinv.visPres
            disj := by
              intro x hx
              rcases List.mem_cons.mp hx with rfl | hx'
              · exact hvis
              · exact hinv.disj x hx'
            ord := hinv.ord
            chain := by
              refine List.chain'_cons'.mpr ⟨?_, hinv.chain⟩
              intro t ht
              exact hhead t ht
            closedVis := hinv.closedVis
            pairVis := hinv.pairVis
            irreflVis := hinv.irreflVis }
        have hfold := visitFold_spec g hclosed fuel nodeId IH node.inputs
          { st with processing := nodeId :: st.processing } hinv1 rfl
          (fun i hi => ⟨node, hget, hi⟩)
          (by simp only [List.length_cons]; omega)
        rcases hfold with ⟨st2, hfold, hinv2, hproc2, ⟨app, happ⟩, hmems⟩ |
          ⟨c, hfold, hcyc⟩
        · left
          have hnodeIdNotVis2 : nodeId ∉ st2.visited := by
            refine hinv2.disj nodeId ?_
            rw [hproc2]
            exact List.mem_cons_self _ _
          refine ⟨{ st2 with
                    processing := st2.processing.erase nodeId
                    visited := st2.visited ++ [nodeId]
                    ordered := st2.ordered ++ [node] }, ?_, ?_, ?_, ?_, ?_⟩
          · simp only [visit]
            rw [if_neg hproc, if_neg hvis]
            simp only [hget]
            rw [hfold, except_bind_ok]
            rfl
          · have hprocErase : st2.processing.erase nodeId = st.processing := by
              rw [hproc2]
              exact List.erase_cons_head nodeId st.processing
            refine
              { ndProc := by rw [hprocErase]; exact hinv.ndProc
                procPres := by
                  rw [hprocErase]
                  exact hinv.procPres
                ndVis := by
                  simp only [List.nodup_append, List.nodup_singleton]
                  exact ⟨hinv2.ndVis, by simpa using hnodeIdNotVis2⟩
                visPres := by
                  intro x hx
                  rcases List.mem_append.mp hx with hx' | hx'
                  · exact hinv2.visPres x hx'
                  · rw [List.mem_singleton.mp hx']
                    exact hpresN
                disj := by
                  rw [hprocErase]
                  intro x hx
                  have hx2 : x ∈ st2.processing := by
                    rw [hproc2]
                    exact List.mem_cons_of_mem _ hx
                  have h1 := hinv2.disj x hx2
                  intro hmem
                  rcases List.mem_append.mp hmem with h | h
                  · exact h1 h
                  · rw [List.mem_singleton.mp h] at hx
                    exact hproc hx
                ord := by
                  simp only [List.filterMap_append, hinv2.ord]
                  simp [List.filterMap_cons, hget]
                chain := by
                  rw [hprocErase]
                  exact hinv.chain
                closedVis := by
                  intro a ha b hedge
                  rcases List.mem_append.mp ha with ha' | ha'
                  · exact List.mem_append_left _ (hinv2.closedVis a ha' b hedge)
                  · rw [List.mem_singleton.mp ha'] at hedge
                    obtain ⟨n', hg', hb⟩ := hedge
                    rw [hget] at hg'
                    cases hg'
                    exact List.mem_append_left _ (hmems b hb)
                pairVis := by
                  refine List.pairwise_append.mpr
                    ⟨hinv2.pairVis, List.pairwise_singleton _ _, ?_⟩
                  intro a ha b hb
                  rw [List.mem_singleton.mp hb]
                  intro hedge
                  exact hnodeIdNotVis2 (hinv2.closedVis a ha nodeId hedge)
                irreflVis := by
                  intro a ha
                  rcases List.mem_append.mp ha with ha' | ha'
                  · exact hinv2.irreflVis a ha'
                  · rw [List.mem_singleton.mp ha']
                    rintro ⟨n', hg', hb⟩
                    rw [hget] at hg'
                    cases hg'
                    exact hnodeIdNotVis2 (hmems nodeId hb) }
          · show st2.processing.erase nodeId = st.processing
            rw [hproc2]
            exact List.erase_cons_head nodeId st.processing
          · refine ⟨app ++ [nodeId], ?_⟩
            show st2.visited ++ [nodeId] = st.visited ++ (app ++ [nodeId])
            rw [happ, List.append_assoc]
          · exact List.mem_append_right _ (List.mem_singleton.mpr rfl)
        · right
          refine ⟨c, ?_, hcyc⟩
          simp only [visit]
          rw [if_neg hproc, if_neg hvis]
          simp only [hget]
          rw [hfold, except_bind_err]

/-- `closedB` implies closedness. -/
theorem closed_of_closedB {g : Graph} (h : g.closedB = true) :
    ∀ a n, g.getNode? a = some n → ∀ i ∈ n.inputs, (g.getNode? i).isSome := by
  intro a n hget i hi
  have ha : a ∈ g.present := by
    by_contra hmem
    simp [Graph.getNode?, hmem] at hget
  have := (List.all_eq_true.mp h) a ha
  rw [hget] at this
  exact (List.all_eq_true.mp this) i hi

/-- `wfIdsB` implies every present id resolves. -/
theorem pres_of_wfIdsB {g : Graph} (h : g.wfIdsB = true) :
    ∀ id ∈ g.present, (g.getNode? id).isSome := by
  intro id hid
  have := (List.all_eq_true.mp h) id hid
  cases hg : g.getNode? id with
  | none => rw [hg] at this; simp at this
  | some n => simp

/-- `wfIdsB` implies stored nodes carry their key as id. -/
theorem ids_of_wfIdsB {g : Graph} (h : g.wfIdsB = true) :
    ∀ id n, g.getNode? id = some n → n.id = id := by
  intro id n hget
  have hid : id ∈ g.present := by
    by_contra hmem
    simp [Graph.getNode?, hmem] at hget
  have := (List.all_eq_true.mp h) id hid
  rw [hget] at this
  simpa using this

/-- A sweep of `visit` over a list of present ids from a state with an empty
processing stack. -/
theorem sweep_spec (g : Graph)
    (hpres : ∀ id ∈ g.present, (g.getNode? id).isSome)
    (hclosed : ∀ a n, g.getNode? a = some n → ∀ i ∈ n.inputs, (g.getNode? i).isSome)
    (fuel : Nat) (hfuel : g.present.length + 1 ≤ fuel) :
    ∀ (l : List NodeID) (st : VisitState), VisitInv g st → st.processing = [] →
      (∀ i ∈ l, i ∈ g.present) →
      (∃ st2, l.foldlM (visit g fuel) st = .ok st2 ∧ VisitInv g st2 ∧
        st2.processing = [] ∧ (∃ app, st2.visited = st.visited ++ app) ∧
        ∀ i ∈ l, i ∈ st2.visited) ∨
      (∃ c, l.foldlM (visit g fuel) st = .error (.cycleDetected c) ∧
        Relation.TransGen g.edge c c) := by
  intro l
  induction l with
  | nil =>
    intro st hinv hp hl
    left
    exact ⟨st, rfl, hinv, hp, ⟨[], by simp⟩, by simp⟩
  | cons i l ih =>
    intro st hinv hp hl
    have hstep : OkOrCycle g fuel st i := by
      refine visit_spec g hpres hclosed fuel st i hinv (hl i (by simp)) ?_ ?_
      · rw [hp]; simpa using hfuel
      · intro t ht
        rw [hp] at ht
        simp at ht
    rcases hstep with ⟨st', hok, hinv', hproc', ⟨app, happ⟩, hmem⟩ | ⟨c, herr, hcyc⟩
    · have hrec := ih st' hinv' (by rw [hproc', hp]) (fun j hj => hl j (by simp [hj]))
      rcases hrec with ⟨st2, hfold, hinv2, hproc2, ⟨app2, happ2⟩, hmem2⟩ |
        ⟨c, hfold, hcyc⟩
      · left
        refine ⟨st2, ?_, hinv2, hproc2,
          ⟨app ++ app2, by rw [happ2, happ, List.append_assoc]⟩, ?_⟩
        · rw [List.foldlM_cons, hok, except_bind_ok]
          exact hfold
        · intro j hj
          rcases List.mem_cons.mp hj with rfl | hj'
          · rw [happ2]
            exact List.mem_append_left _ hmem
          · exact hmem2 j hj'
      · right
        refine ⟨c, ?_, hcyc⟩
        rw [List.foldlM_cons, hok, except_bind_ok]
        exact hfold
    · right
      refine ⟨c, ?_, hcyc⟩
      rw [List.foldlM_cons, herr, except_bind_err]

/-- A rank function decreasing along edges certifies acyclicity. -/
theorem acyclic_of_rank (g : Graph) (f : NodeID → Nat)
    (h : g.present.all (fun a =>
        match g.getNode? a with
        | none => true
        | some n => n.inputs.all (fun b => decide (f b < f a))) = true) :
    ∀ a, ¬ Relation.TransGen g.edge a a := by
  have hstep : ∀ a b, g.edge a b → f b < f a := by
    rintro a b ⟨n, hget, hb⟩
    have ha : a ∈ g.present := edge_present ⟨n, hget, hb⟩
    have h1 := (List.all_eq_true.mp h) a ha
    rw [hget] at h1
    have h2 := (List.all_eq_true.mp h1) b hb
    exact of_decide_eq_true h2
  have hmono : ∀ a b, Relation.TransGen g.edge a b → f b < f a := by
    intro a b hab
    induction hab with
    | single h1 => exact hstep _ _ h1
    | tail _ h2 ih => exact lt_trans (hstep _ _ h2) ih
  intro a ha
  exact lt_irrefl _ (hmono a a ha)

/-- A topologically ordered duplicate-free closure admits no cycle. -/
theorem no_cycle_in_topo {g : Graph} {vs : List NodeID}
    (hnd : vs.Nodup)
    (hclosedVis : ∀ a ∈ vs, ∀ b, g.edge a b → b ∈ vs)
    (hpair : List.Pairwise (fun x y => ¬ g.edge x y) vs)
    (hirr : ∀ a ∈ vs, ¬ g.edge a a) :
    ∀ a ∈ vs, ¬ Relation.TransGen g.edge a a := by
  have hstep : ∀ a b, a ∈ vs → g.edge a b → b ∈ vs ∧ vs.indexOf b < vs.indexOf a := by
    intro a b ha hedge
    have hb : b ∈ vs := hclosedVis a ha b hedge
    refine ⟨hb, ?_⟩
    have hia := List.indexOf_lt_length.mpr ha
    have hib := List.indexOf_lt_length.mpr hb
    have ea : vs.get ⟨vs.indexOf a, hia⟩ = a := List.indexOf_get hia
    have eb : vs.get ⟨vs.indexOf b, hib⟩ = b := List.indexOf_get hib
    rcases lt_trichotomy (vs.indexOf b) (vs.indexOf a) with h | h | h
    · exact h
    · exfalso
      have heq : a = b := by
        rw [← ea, ← eb]
        congr 1
        exact Fin.ext h.symm
      exact hirr a ha (heq ▸ hedge)
    · exfalso
      have hp := (List.pairwise_iff_get.mp hpair) ⟨vs.indexOf a, hia⟩ ⟨vs.indexOf b, hib⟩ h
      rw [ea, eb] at hp
      exact hp hedge
  have hmono : ∀ a b, Relation.TransGen g.edge a b → a ∈ vs →
      b ∈ vs ∧ vs.indexOf b < vs.indexOf a := by
    intro a b hab
    induction hab with
    | single h1 => intro ha; exact hstep _ _ ha h1
    | tail _ h2 ih =>
      intro ha
      obtain ⟨hb, hlt⟩ := ih ha
      obtain ⟨hc, hlt2⟩ := hstep _ _ hb h2
      exact ⟨hc, lt_trans hlt2 hlt⟩
  intro a ha hacyc
  exact lt_irrefl _ (hmono a a hacyc ha).2

/-- `getExecutionOrder` on a well-formed graph: either a topological order
of exactly the present nodes, or a cycle-detected error naming a node on a
real cycle. -/
theorem getExecutionOrder_spec (g : Graph)
    (hnd : g.present.Nodup)
    (hpres : ∀ id ∈ g.present, (g.getNode? id).isSome)
    (hclosed : ∀ a n, g.getNode? a = some n → ∀ i ∈ n.inputs, (g.getNode? i).isSome)
    (hids : ∀ id n, g.getNode? id = some n → n.id = id) :
    (∃ vs : List NodeID,
      g.getExecutionOrder = .ok (vs.filterMap (fun id => g.getNode? id)) ∧
      List.Perm vs g.present ∧
      List.Pairwise (fun x y => ¬ g.edge x y) vs ∧
      (∀ a ∈ vs, ∀ b, g.edge a b → b ∈ vs) ∧
      (∀ a ∈ vs, ¬ g.edge a a)) ∨
    (∃ c, g.getExecutionOrder = .error (.cycleDetected c) ∧
      Relation.TransGen g.edge c c) := by
  have hfuel : g.present.length + 1 ≤ g.size + 1 := by simp [Graph.size]
  have hsrc : ∀ i ∈ (g.nodesList.filter (fun n => n.typeStr = "source")).map (·.id),
      i ∈ g.present := by
    intro i hi
    simp only [List.mem_map, List.mem_filter] at hi
    obtain ⟨n, ⟨hn, -⟩, rfl⟩ := hi
    simp only [Graph.nodesList, List.mem_filterMap] at hn
    obtain ⟨id, hidp, hfind⟩ := hn
    have hgn : g.getNode? id = some n := by simp [Graph.getNode?, hidp, hfind]
    rw [hids id n hgn]
    exact hidp
  have hinv0 : VisitInv g {} := by
    constructor <;> simp
  rcases sweep_spec g hpres hclosed (g.size + 1) hfuel
      ((g.nodesList.filter (fun n => n.typeStr = "source")).map (·.id)) {} hinv0 rfl hsrc with
    ⟨st1, hf1, hinv1, hp1, -, -⟩ | ⟨c, hf1, hcyc⟩
  · rcases sweep_spec g hpres hclosed (g.size + 1) hfuel g.present st1 hinv1 hp1
        (fun i hi => hi) with
      ⟨st2, hf2, hinv2, hp2, -, hmem2⟩ | ⟨c, hf2, hcyc⟩
    · left
      refine ⟨st2.visited, ?_, ?_, hinv2.pairVis, hinv2.closedVis, hinv2.irreflVis⟩
      · simp only [Graph.getExecutionOrder]
        rw [hf1, except_bind_ok, hf2, except_bind_ok, hinv2.ord]
        rfl
      · refine (hinv2.ndVis.subperm ?_).antisymm (hnd.subperm ?_)
        · exact fun x hx => hinv2.visPres x hx
        · exact fun x hx => hmem2 x hx
    · right
      refine ⟨c, ?_, hcyc⟩
      simp only [Graph.getExecutionOrder]
      rw [hf1, except_bind_ok, hf2, except_bind_err]
  · right
    refine ⟨c, ?_, hcyc⟩
    simp only [Graph.getExecutionOrder]
    rw [hf1, except_bind_err]

/-- C6: on a well-formed acyclic graph (duplicate-free present list, ids
consistent, all inputs existing), `getExecutionOrder()` returns a list
containing each node of the graph exactly once — the visited ids permute
the present ids and the length equals the node count — in which every node
appears after all of its input nodes (an earlier id never depends on a
later one, and all dependencies are in the list). -/
theorem C6_execution_order_topological (g : Graph)
    (hnd : g.present.Nodup)
    (hwf : g.wfIdsB = true)
    (hcl : g.closedB = true)
    (hacyc : ∀ a, ¬ Relation.TransGen g.edge a a) :
    ∃ vs : List NodeID,
      g.getExecutionOrder = .ok (vs.filterMap (fun id => g.getNode? id)) ∧
      List.Perm vs g.present ∧
      (vs.filterMap (fun id => g.getNode? id)).length = g.size ∧
      List.Pairwise (fun x y => ¬ g.edge x y) vs ∧
      (∀ a ∈ vs, ∀ b, g.edge a b → b ∈ vs) := by
  have hpres := pres_of_wfIdsB hwf
  rcases getExecutionOrder_spec g hnd hpres (closed_of_closedB hcl) (ids_of_wfIdsB hwf) with
    ⟨vs, hok, hperm, hpair, hclo, -⟩ | ⟨c, -, hcyc⟩
  · refine ⟨vs, hok, hperm, ?_, hpair, hclo⟩
    have hlen : (vs.filterMap (fun id => g.getNode? id)).length = vs.length :=
      filterMap_length_all_some _ vs (fun x hx => hpres x (hperm.mem_iff.mp hx))
    rw [hlen, hperm.length_eq]
    rfl
  · exact absurd hcyc (hacyc c)

/-- Witness for C6 on the two-node acyclic graph. -/
theorem C6_witness :
    ∃ vs : List NodeID,
      gAcyclic.getExecutionOrder = .ok (vs.filterMap (fun id => gAcyclic.getNode? id)) ∧
      List.Perm vs gAcyclic.present ∧
      (vs.filterMap (fun id => gAcyclic.getNode? id)).length = gAcyclic.size ∧
      List.Pairwise (fun x y => ¬ gAcyclic.edge x y) vs ∧
      (∀ a ∈ vs, ∀ b, gAcyclic.edge a b → b ∈ vs) :=
  C6_execution_order_topological gAcyclic (by decide) (by decide) (by decide)
    (acyclic_of_rank gAcyclic (fun id => if id = "src_1" then 0 else 1) (by decide))

/-- C7: on a well-formed graph containing a cycle along inputs edges,
`getExecutionOrder()` raises the cycle-detected error naming a node that
lies on a dependency cycle, instead of returning an ordering. -/
theorem C7_cycle_detected (g : Graph)
    (hnd : g.present.Nodup)
    (hwf : g.wfIdsB = true)
    (hcl : g.closedB = true)
    (hcyc : ∃ a, Relation.TransGen g.edge a a) :
    ∃ c, g.getExecutionOrder = .error (.cycleDetected c) ∧
      Relation.TransGen g.edge c c := by
  rcases getExecutionOrder_spec g hnd (pres_of_wfIdsB hwf) (closed_of_closedB hcl)
      (ids_of_wfIdsB hwf) with
    ⟨vs, -, hperm, hpair, hclo, hirr⟩ | good
  · exfalso
    obtain ⟨a, ha⟩ := hcyc
    have hapres : a ∈ g.present := by
      obtain ⟨b, hab, -⟩ := (Relation.TransGen.head'_iff).mp ha
      exact edge_present hab
    have hav : a ∈ vs := hperm.mem_iff.mpr hapres
    exact no_cycle_in_topo (hperm.nodup_iff.mpr hnd) hclo hpair hirr a hav ha
  · exact good

/-- Witness for C7 on the mutated two-node cycle of the repository test. -/
theorem C7_witness :
    ∃ c, gCyclic.getExecutionOrder = .error (.cycleDetected c) ∧
      Relation.TransGen gCyclic.edge c c := by
  have e1 : gCyclic.edge "filter_1" "filter_2" :=
    ⟨{ id := "filter_1", data := .expression (.metric "close" none none) none,
       inputs := ["filter_2"] }, rfl, by decide⟩
  have e2 : gCyclic.edge "filter_2" "filter_1" :=
    ⟨{ id := "filter_2", data := .expression (.metric "close" none none) none,
       inputs := ["filter_1"] }, rfl, by decide⟩
  exact C7_cycle_detected gCyclic (by decide) (by decide) (by decide)
    ⟨"filter_1", Relation.TransGen.tail (Relation.TransGen.single e1) e2⟩

/-! ## C9: the optimizer never grows the graph -/

/-- A successful `Except` bind factors through a successful first component. -/
theorem sc_except_bind_eq_ok {ε α β : Type} {x : Except ε α} {f : α → Except ε β} {b : β}
    (h : (x >>= f) = .ok b) : ∃ a, x = .ok a ∧ f a = .ok b := by
  cases x with
  | error e => exact absurd h (by simp [Bind.bind, Except.bind])
  | ok a => exact ⟨a, rfl, h⟩

/-- Pass step `updateNode` keeps the key list. -/
theorem present_updateNode (g : Graph) (id : NodeID) (f : ComputeNode → ComputeNode) :
    (g.updateNode id f).present = g.present := rfl

/-- Pass step `updateNode` keeps the node count. -/
theorem size_updateNode (g : Graph) (id : NodeID) (f : ComputeNode → ComputeNode) :
    (g.updateNode id f).size = g.size := rfl

/-- A fold of present-preserving steps keeps the key list. -/
theorem present_foldl_updateNode {α : Type} (step : Graph → α → Graph)
    (h : ∀ g a, (step g a).present = g.present) :
    ∀ (l : List α) (g : Graph), (l.foldl step g).present = g.present := by
  intro l
  induction l with
  | nil => intro g; rfl
  | cons a l ih => intro g; rw [List.foldl_cons, ih, h]

/-- Removal never grows the node count. -/
theorem size_removeNode_le (g : Graph) (id : NodeID) :
    (g.removeNode id).size ≤ g.size := by
  unfold Graph.removeNode
  split
  · exact le_refl _
  · simp only [Graph.size]
    have hpres : ∀ (l : List NodeID) (g0 : Graph),
        (l.foldl (fun g inputId =>
          if (g.getNode? inputId).isSome then
            g.updateNode inputId (fun m => { m with isTerminal :=
              !(g.nodesList.any (fun n => inputId ∈ n.inputs)) })
          else g) g0).present = g0.present := by
      refine present_foldl_updateNode _ ?_
      intro g0 a
      split <;> rfl
    rw [hpres]
    exact List.length_filter_le _ _

/-- Renaming a node with `replaceNodeID` keeps the node count. -/
theorem size_replaceNodeID (g : Graph) (o n : NodeID) (a : Option String) :
    (g.replaceNodeID o n a).size = g.size := by
  unfold Graph.replaceNodeID
  simp only [Graph.size]
  rw [present_foldl_updateNode]
  intro g0 x
  split
  · rfl
  · split
    · rfl
    · rfl

/-- A fold of non-increasing steps never grows the node count. -/
theorem size_foldl_le {α : Type} (step : Graph → α → Graph)
    (h : ∀ g a, (step g a).size ≤ g.size) :
    ∀ (l : List α) (g : Graph), (l.foldl step g).size ≤ g.size := by
  intro l
  induction l with
  | nil => intro g; exact le_refl _
  | cons a l ih => intro g; exact le_trans (ih (step g a)) (h g a)

/-- A pair-threading fold whose graph component never grows keeps the bound. -/
theorem size_foldl_pair_le {α β : Type} (step : Graph × β → α → Graph × β)
    (h : ∀ s a, ((step s a).1).size ≤ s.1.size) :
    ∀ (l : List α) (s : Graph × β), ((l.foldl step s).1).size ≤ s.1.size := by
  intro l
  induction l with
  | nil => intro s; exact le_refl _
  | cons a l ih => intro s; exact le_trans (ih (step s a)) (h s a)

/-- A pair-threading fold whose graph component preserves the key list preserves the node count. -/
theorem size_foldl_pair_eq {α β : Type} (step : Graph × β → α → Graph × β)
    (h : ∀ s a, ((step s a).1).present = s.1.present) :
    ∀ (l : List α) (s : Graph × β), ((l.foldl step s).1).present = s.1.present := by
  intro l
  induction l with
  | nil => intro s; rfl
  | cons a l ih => intro s; rw [List.foldl_cons, ih, h]

/-- One duplicate-projection step never grows the node count. -/
theorem size_dedupProjStep (required : Bool) (st : Graph × List (String × NodeID))
    (id : NodeID) : ((dedupProjStep required st id).1).size ≤ st.1.size := by
  obtain ⟨g, uniq⟩ := st
  unfold dedupProjStep
  cases hh : heapGet? g.heap id with
  | none =>
    simp only [hh]
    exact le_refl _
  | some node =>
    simp only [hh]
    have hfold : ∀ (l : List NodeID) (s : Graph × List String),
        ((l.foldl (fun acc depId => match heapGet? acc.1.heap depId with
          | none => acc
          | some dep => (acc.1.updateNode depId (setInputs (jsSortStrings dep.inputs)),
                         acc.2 ++ [String.intercalate "," (jsSortStrings dep.inputs)])) s).1).present
          = s.1.present := by
      refine size_foldl_pair_eq _ ?_
      intro s a
      obtain ⟨g0, p0⟩ := s
      simp only
      split <;> rfl
    split
    · split
      · exact le_of_eq rfl
      · refine le_of_eq ?_
        show Graph.size _ = g.size
        simp only [Graph.size, hfold]
        rfl
    · refine le_trans (size_removeNode_le _ _) (le_of_eq ?_)
      rw [size_replaceNodeID]
      split
      · rfl
      · show Graph.size _ = g.size
        simp only [Graph.size, hfold]
        rfl

/-- The duplicate-projection pass never grows the node count. -/
theorem size_removedDuplicateProjections_le (g : Graph) :
    g.removedDuplicateProjections.size ≤ g.size := by
  unfold Graph.removedDuplicateProjections
  refine le_trans (size_foldl_pair_le _ (fun s a => size_dedupProjStep true s a) _ _) ?_
  exact size_foldl_pair_le _ (fun s a => size_dedupProjStep false s a) _ _

/-- The inline-parameters pass never grows the node count. -/
theorem size_inlineParameters_le (g : Graph) :
    g.inlineParameters.size ≤ g.size := by
  unfold Graph.inlineParameters
  refine size_foldl_le _ ?_ _ _
  intro g0 id
  cases hh : heapGet? g0.heap id with
  | none =>
    simp only [hh]
    exact le_refl _
  | some node =>
    simp only [hh]
    split
    · exact le_refl _
    · refine le_trans (size_removeNode_le _ _) (size_foldl_le _ ?_ _ _)
      intro g1 did
      exact le_of_eq rfl

/-- The useless-composite-filter pass never grows the node count. -/
theorem size_removeUselessCompositeFilters_le (g : Graph) :
    g.removeUselessCompositeFilters.size ≤ g.size := by
  unfold Graph.removeUselessCompositeFilters
  refine size_foldl_le _ ?_ _ _
  intro g0 id
  cases hh : heapGet? g0.heap id with
  | none =>
    simp only [hh]
    exact le_refl _
  | some node =>
    simp only [hh]
    split
    · refine le_trans (size_removeNode_le _ _) (size_foldl_le _ ?_ _ _)
      intro g1 did
      exact le_of_eq rfl
    · exact le_refl _

/-- A successful duplicate-projection-expression pass never grows the node count. -/
theorem size_removeDuplicateProjectionExpressions_le (g g' : Graph)
    (h : g.removeDuplicateProjectionExpressions = .ok g') : g'.size ≤ g.size := by
  unfold Graph.removeDuplicateProjectionExpressions at h
  obtain ⟨snap, hx, hpure⟩ := sc_except_bind_eq_ok h
  have hg' : g' = (snap.foldl
      (fun (st : Graph × List (NodeID × Expression)) id =>
        match heapGet? st.1.heap id with
        | none => st
        | some node =>
          match node.exprPayload with
          | none => st
          | some expr =>
            match st.2.find? (fun p => areExpressionsEqual p.2 expr) with
            | none => (st.1, st.2 ++ [(id, expr)])
            | some prev =>
              let g := st.1.replaceNodeID id prev.1 none
              let g := g.removeNode id
              let g := match (heapGet? g.heap id).bind (fun n => n.inputs.head?) with
                | some projId => g.removeNode projId
                | none => g
              (g, st.2)) (g, [])).1 := by
    exact (Except.ok.inj hpure).symm
  rw [hg']
  refine size_foldl_pair_le _ ?_ _ _
  intro st id
  obtain ⟨g0, uniq⟩ := st
  cases h1 : heapGet? g0.heap id with
  | none =>
    simp only [h1]
    exact le_refl _
  | some node =>
    simp only [h1]
    cases h2 : node.exprPayload with
    | none => exact le_refl _
    | some expr =>
      simp only [h2]
      cases h3 : uniq.find? (fun p => areExpressionsEqual p.2 expr) with
      | none =>
        simp only [h3]
        exact le_refl _
      | some prev =>
        simp only [h3]
        split
        · refine le_trans (size_removeNode_le _ _) ?_
          refine le_trans (size_removeNode_le _ _) ?_
          exact le_of_eq (size_replaceNodeID _ _ _ _)
        · refine le_trans (size_removeNode_le _ _) ?_
          exact le_of_eq (size_replaceNodeID _ _ _ _)

/-- Rewriting one key of the backing association list changes no other key. -/
theorem heapGet?_map_update (k : NodeID) (f : ComputeNode → ComputeNode) (id : NodeID) :
    ∀ (h : List (NodeID × ComputeNode)),
      heapGet? (h.map (fun p => if p.1 = k then (p.1, f p.2) else p)) id =
        if id = k then (heapGet? h id).map f else heapGet? h id := by
  intro h
  induction h with
  | nil =>
    by_cases hik : id = k <;> simp [heapGet?, hik]
  | cons a t ih =>
    obtain ⟨ka, na⟩ := a
    by_cases hka : ka = id
    · subst hka
      by_cases hik : ka = k
      · subst hik
        simp only [heapGet?, List.map_cons, if_pos rfl]
        rw [List.find?_cons_of_pos _ (by simp), List.find?_cons_of_pos _ (by simp)]
        simp
      · simp only [heapGet?, List.map_cons, if_neg hik]
        rw [List.find?_cons_of_pos _ (by simp), List.find?_cons_of_pos _ (by simp)]
    · simp only [heapGet?, List.map_cons]
      have hkey : ((if ka = k then (ka, f na) else (ka, na)) : NodeID × ComputeNode).1 = ka := by
        split <;> rfl
      rw [List.find?_cons_of_neg _ (by simp [hkey, hka]),
          List.find?_cons_of_neg _ (by simp [hka])]
      simpa [heapGet?] using ih

/-- Lookup after `updateNode`: the stored record is rewritten at the key, other keys unchanged. -/
theorem heapGet?_updateNode (g : Graph) (k : NodeID) (f : ComputeNode → ComputeNode)
    (id : NodeID) :
    heapGet? (g.updateNode k f).heap id =
      if id = k then (heapGet? g.heap id).map f else heapGet? g.heap id :=
  heapGet?_map_update k f id g.heap

/-- Rewriting inputs keeps the filter kind. -/
theorem isFilterish_setInputs (l : List NodeID) (n : ComputeNode) :
    (setInputs l n).isFilterish = n.isFilterish := rfl

/-- An `updateNode` with a kind-preserving rewrite keeps ghost status. -/
theorem ghostFilter_updateNode (g : Graph) (k : NodeID) (f : ComputeNode → ComputeNode)
    (hf : ∀ n, (f n).isFilterish = n.isFilterish) (x : NodeID) :
    ghostFilter (g.updateNode k f) x = ghostFilter g x := by
  unfold ghostFilter
  rw [present_updateNode, heapGet?_updateNode]
  by_cases hxk : x = k
  · rw [if_pos hxk]
    cases heapGet? g.heap x with
    | none => rfl
    | some n => simp [hf]
  · rw [if_neg hxk]

/-- An `updateNode` with a kind-preserving rewrite keeps the ghost count. -/
theorem ghostCount_updateNode (g : Graph) (k : NodeID) (f : ComputeNode → ComputeNode)
    (hf : ∀ n, (f n).isFilterish = n.isFilterish) (l : List NodeID) :
    ghostCount (g.updateNode k f) l = ghostCount g l := by
  unfold ghostCount
  congr 1
  exact List.filter_congr (fun x _ => ghostFilter_updateNode g k f hf x)

/-- Setting one key of the association list leaves other keys unchanged. -/
theorem heapGet?_map_set_ne (k : NodeID) (n : ComputeNode) (id : NodeID) (hne : id ≠ k) :
    ∀ (t : List (NodeID × ComputeNode)),
      heapGet? (t.map (fun p => if p.1 = k then (k, n) else p)) id = heapGet? t id := by
  intro t
  induction t with
  | nil => rfl
  | cons a t ih =>
    obtain ⟨ka, na⟩ := a
    by_cases hak : ka = k
    · subst hak
      have hne' : ¬ (ka = id) := fun hh => hne hh.symm
      simp only [heapGet?, List.map_cons, if_pos rfl]
      rw [List.find?_cons_of_neg _ (by simp [hne']),
          List.find?_cons_of_neg _ (by simp [hne'])]
      simpa [heapGet?] using ih
    · by_cases hai : ka = id
      · subst hai
        simp only [heapGet?, List.map_cons, if_neg hak]
        rw [List.find?_cons_of_pos _ (by simp), List.find?_cons_of_pos _ (by simp)]
      · simp only [heapGet?, List.map_cons, if_neg hak]
        rw [List.find?_cons_of_neg _ (by simp [hai]),
            List.find?_cons_of_neg _ (by simp [hai])]
        simpa [heapGet?] using ih

/-- Storing a record leaves other keys unchanged. -/
theorem heapGet?_heapSet_ne (h : List (NodeID × ComputeNode)) (k : NodeID)
    (n : ComputeNode) (id : NodeID) (hne : id ≠ k) :
    heapGet? (heapSet h k n) id = heapGet? h id := by
  unfold heapSet
  split
  · exact heapGet?_map_set_ne k n id hne h
  · show heapGet? (h ++ [(k, n)]) id = heapGet? h id
    unfold heapGet?
    rw [List.find?_append]
    cases hf : h.find? (fun p => decide (p.1 = id)) with
    | some v => rfl
    | none =>
      have hne' : ¬ (k = id) := fun hh => hne hh.symm
      show Option.map _ (Option.or none _) = _
      rw [List.find?_cons_of_neg _ (by simp [hne'])]
      rfl

/-- A fold of ghost-preserving steps keeps ghost status. -/
theorem ghostFilter_foldl_inv {α : Type} (step : Graph → α → Graph) (x : NodeID)
    (h : ∀ g a, ghostFilter (step g a) x = ghostFilter g x) :
    ∀ (l : List α) (g : Graph), ghostFilter (l.foldl step g) x = ghostFilter g x := by
  intro l
  induction l with
  | nil => intro g; rfl
  | cons a l ih => intro g; rw [List.foldl_cons, ih, h]

/-- The conditional terminal-flag rewrite keeps ghost status. -/
theorem ghostFilter_condTerminal (g : Graph) (k : NodeID) (b : Bool) (x : NodeID) :
    ghostFilter (g.updateNode k (fun m => { m with isTerminal := b })) x = ghostFilter g x :=
  ghostFilter_updateNode g k (fun m => { m with isTerminal := b }) (fun n => rfl) x

/-- Adding a node appends the fresh id to the key list. -/
theorem present_addNode (g : Graph) (n : ComputeNode) :
    (g.addNode n).1.present =
      if n.id ∈ g.present then g.present else g.present ++ [n.id] := by
  unfold Graph.addNode
  rw [present_updateNode, present_foldl_updateNode]
  · rfl
  · intro g0 a
    split <;> rfl

/-- Adding a node grows the node count by at most one. -/
theorem size_addNode_le (g : Graph) (n : ComputeNode) :
    (g.addNode n).1.size ≤ g.size + 1 := by
  show (g.addNode n).1.present.length ≤ g.present.length + 1
  rw [present_addNode]
  split
  · exact Nat.le_succ_of_le (le_refl _)
  · simp

/-- The added id is present after `addNode`. -/
theorem mem_present_addNode_self (g : Graph) (n : ComputeNode) :
    n.id ∈ (g.addNode n).1.present := by
  rw [present_addNode]
  split
  · assumption
  · simp

/-- Adding a node does not change presence of other ids. -/
theorem mem_present_addNode_ne (g : Graph) (n : ComputeNode) (x : NodeID)
    (hx : x ≠ n.id) : (x ∈ (g.addNode n).1.present) ↔ x ∈ g.present := by
  rw [present_addNode]
  split
  · exact Iff.rfl
  · simp [hx]

/-- Storing a node record leaves other keys unchanged. -/
theorem heapGet?_setNode_ne (g : Graph) (n : ComputeNode) (x : NodeID) (hx : x ≠ n.id) :
    heapGet? (g.setNode n).heap x = heapGet? g.heap x :=
  heapGet?_heapSet_ne g.heap n.id n x hx

/-- Adding a node never creates a ghost at another id. -/
theorem ghostFilter_addNode (g : Graph) (n : ComputeNode) (x : NodeID) :
    ghostFilter (g.addNode n).1 x = true → ghostFilter g x = true := by
  intro hx
  by_cases hxe : x = n.id
  · exfalso
    subst hxe
    unfold ghostFilter at hx
    have := mem_present_addNode_self g n
    simp [this] at hx
  · have h1 : ghostFilter (g.addNode n).1 x = ghostFilter g x := by
      unfold Graph.addNode
      rw [ghostFilter_condTerminal]
      rw [ghostFilter_foldl_inv _ x (fun g0 a => by
        split
        · exact ghostFilter_condTerminal g0 a false x
        · rfl)]
      unfold ghostFilter
      rw [heapGet?_setNode_ne g n x hxe]
      have : (decide (x ∈ (g.setNode n).present)) = decide (x ∈ g.present) := by
        have hiff : (x ∈ (g.setNode n).present) ↔ x ∈ g.present := by
          show (x ∈ (if n.id ∈ g.present then g.present else g.present ++ [n.id])) ↔ _
          split
          · exact Iff.rfl
          · simp [hxe]
        simp [hiff]
      rw [this]
    rw [← h1]
    exact hx

/-- A pointwise-weaker predicate keeps at most as many list elements. -/
theorem length_filter_mono_of_imp {α : Type} (p q : α → Bool)
    (h : ∀ x, q x = true → p x = true) :
    ∀ l : List α, (l.filter q).length ≤ (l.filter p).length := by
  intro l
  induction l with
  | nil => exact le_refl _
  | cons a t ih =>
    by_cases hq : q a = true
    · rw [List.filter_cons_of_pos hq, List.filter_cons_of_pos (h a hq)]
      simpa using ih
    · rw [List.filter_cons_of_neg (by simpa using hq)]
      by_cases hp : p a = true
      · rw [List.filter_cons_of_pos hp]
        exact le_trans ih (by simp)
      · rw [List.filter_cons_of_neg (by simpa using hp)]
        exact ih

/-- Adding a node never grows the ghost count. -/
theorem ghostCount_addNode_le (g : Graph) (n : ComputeNode) (l : List NodeID) :
    ghostCount (g.addNode n).1 l ≤ ghostCount g l :=
  length_filter_mono_of_imp _ _ (ghostFilter_addNode g n) l

/-- Removing an unknown id is the identity. -/
theorem removeNode_eq_of_none (g : Graph) (k : NodeID) (h : g.getNode? k = none) :
    g.removeNode k = g := by
  unfold Graph.removeNode
  rw [h]

/-- Removal of a stored id drops the key; the terminal sweep only updates records. -/
theorem removeNode_struct (g : Graph) (k : NodeID) (node : ComputeNode)
    (h : g.getNode? k = some node) :
    ∃ g1 : Graph, g.removeNode k = { g1 with present := g1.present.filter (fun x => x ≠ k) } ∧
      g1.present = g.present ∧ (∀ x, ghostFilter g1 x = ghostFilter g x) := by
  unfold Graph.removeNode
  rw [h]
  refine ⟨_, rfl, ?_, ?_⟩
  · rw [present_foldl_updateNode]
    intro g0 a
    split <;> rfl
  · intro x
    refine ghostFilter_foldl_inv _ x ?_ _ _
    intro g0 a
    split
    · exact ghostFilter_condTerminal g0 a _ x
    · rfl

/-- Filtering a member away strictly shrinks the count. -/
theorem length_filter_ne_lt (k : NodeID) :
    ∀ (l : List NodeID), k ∈ l → (l.filter (fun x => x ≠ k)).length < l.length := by
  intro l
  induction l with
  | nil => intro h; cases h
  | cons a t ih =>
    intro hmem
    by_cases hak : a = k
    · subst hak
      rw [List.filter_cons_of_neg (by simp)]
      exact Nat.lt_succ_of_le (List.length_filter_le _ _)
    · rw [List.filter_cons_of_pos (by simp [hak])]
      have : k ∈ t := by
        rcases List.mem_cons.mp hmem with h | h
        · exact absurd h.symm hak
        · exact h
      simpa using ih this

/-- Removal keeps ghost status at other ids. -/
theorem ghostFilter_removeNode_ne (g : Graph) (k x : NodeID) (hx : x ≠ k) :
    ghostFilter (g.removeNode k) x = ghostFilter g x := by
  cases h : g.getNode? k with
  | none => rw [removeNode_eq_of_none g k h]
  | some node =>
    obtain ⟨g1, heq, hpres, hghost⟩ := removeNode_struct g k node h
    rw [heq, ← hghost x]
    unfold ghostFilter
    congr 1
    have hmem : (x ∈ g1.present.filter (fun y => y ≠ k)) ↔ x ∈ g1.present := by
      constructor
      · intro hm
        exact (List.mem_filter.mp hm).1
      · intro hm
        exact List.mem_filter.mpr ⟨hm, by simp [hx]⟩
    simp [hmem]
    intro hxk
    exact absurd hxk hx

/-- Two predicates differing at one element give filtered lengths within one. -/
theorem length_filter_single_change (p q : NodeID → Bool) (k : NodeID)
    (h : ∀ x, x ≠ k → q x = p x) :
    ∀ l : List NodeID, l.Nodup → (l.filter q).length ≤ (l.filter p).length + 1 := by
  intro l
  induction l with
  | nil => simp
  | cons a t ih =>
    intro hnd
    have hndt := (List.nodup_cons.mp hnd).2
    have hat := (List.nodup_cons.mp hnd).1
    by_cases hak : a = k
    · subst hak
      have hteq : t.filter q = t.filter p :=
        List.filter_congr (fun x hx => h x (fun hxk => hat (hxk ▸ hx)))
      have hmono : (List.filter p t).length ≤ (List.filter p (a :: t)).length := by
        by_cases hpa : p a = true
        · rw [List.filter_cons_of_pos hpa]
          simp
        · rw [List.filter_cons_of_neg (by simpa using hpa)]
      by_cases hqa : q a = true
      · rw [List.filter_cons_of_pos hqa]
        simp only [List.length_cons, hteq]
        omega
      · rw [List.filter_cons_of_neg (by simpa using hqa), hteq]
        omega
    · have hqa := h a hak
      by_cases hpa : p a = true
      · rw [List.filter_cons_of_pos hpa, List.filter_cons_of_pos (by rw [hqa]; exact hpa)]
        simpa using ih hndt
      · have hpa' : p a = false := by simpa using hpa
        have hqa' : q a = false := by rw [hqa]; exact hpa'
        rw [List.filter_cons_of_neg (by simp [hqa']), List.filter_cons_of_neg (by simp [hpa'])]
        exact ih hndt

/-- Removal never grows size plus ghost count. -/
theorem removeJoint (g : Graph) (k : NodeID) (l : List NodeID) (hnd : l.Nodup) :
    (g.removeNode k).size + ghostCount (g.removeNode k) l ≤ g.size + ghostCount g l := by
  cases h : g.getNode? k with
  | none => rw [removeNode_eq_of_none g k h]
  | some node =>
    have hkp : k ∈ g.present := by
      by_contra hm
      simp [Graph.getNode?, hm] at h
    obtain ⟨g1, heq, hpres, hghost⟩ := removeNode_struct g k node h
    have hsz : (g.removeNode k).size < g.size := by
      rw [heq]
      show (g1.present.filter (fun x => x ≠ k)).length < g.present.length
      rw [hpres]
      exact length_filter_ne_lt k g.present hkp
    have hgc : ghostCount (g.removeNode k) l ≤ ghostCount g l + 1 := by
      unfold ghostCount
      exact length_filter_single_change _ _ k
        (fun x hx => ghostFilter_removeNode_ne g k x hx) l hnd
    omega

/-- Storing a record makes it the lookup result at its key. -/
theorem heapGet?_heapSet_self (h : List (NodeID × ComputeNode)) (k : NodeID)
    (n : ComputeNode) : heapGet? (heapSet h k n) k = some n := by
  unfold heapSet
  split
  · rename_i hany
    show heapGet? (h.map (fun p => if p.1 = k then (k, n) else p)) k = some n
    induction h with
    | nil => simp at hany
    | cons a t ih =>
      obtain ⟨ka, na⟩ := a
      by_cases hak : ka = k
      · subst hak
        simp only [List.map_cons, if_pos rfl, heapGet?]
        rw [List.find?_cons_of_pos _ (by simp)]
        rfl
      · simp only [List.map_cons, if_neg hak, heapGet?]
        rw [List.find?_cons_of_neg _ (by simp [hak])]
        have hany' : (t.any fun p => decide (p.1 = k)) = true := by
          simp only [List.any_cons] at hany
          rcases Bool.or_eq_true_iff.mp hany with h1 | h1
          · exact absurd (by simpa using h1) hak
          · exact h1
        simpa [heapGet?] using ih hany'
  · show heapGet? (h ++ [(k, n)]) k = some n
    rename_i hany
    unfold heapGet?
    rw [List.find?_append]
    have hnone : h.find? (fun p => decide (p.1 = k)) = none := by
      rw [List.find?_eq_none]
      intro p hp
      simp only [Bool.not_eq_true, decide_eq_false_iff_not]
      intro hpk
      have : (h.any fun p => decide (p.1 = k)) = true :=
        List.any_eq_true.mpr ⟨p, hp, by simp [hpk]⟩
      exact absurd this (by simpa using hany)
    rw [hnone]
    show Option.map _ (Option.or none _) = some n
    rw [List.find?_cons_of_pos _ (by simp)]
    rfl

/-- Removal of a present stored id strictly shrinks size plus ghost count. -/
theorem removeJoint_strict (g : Graph) (k : NodeID) (l : List NodeID)
    (hkl : k ∉ l) (hkp : k ∈ g.present) (hsome : (heapGet? g.heap k).isSome = true) :
    (g.removeNode k).size + 1 + ghostCount (g.removeNode k) l ≤
      g.size + ghostCount g l := by
  obtain ⟨node, hnode⟩ := Option.isSome_iff_exists.mp hsome
  have hget : g.getNode? k = some node := by
    simp [Graph.getNode?, hkp, hnode]
  obtain ⟨g1, heq, hpres, hghost⟩ := removeNode_struct g k node hget
  have hsz : (g.removeNode k).size < g.size := by
    rw [heq]
    show (g1.present.filter (fun x => x ≠ k)).length < g.present.length
    rw [hpres]
    exact length_filter_ne_lt k g.present hkp
  have hgc : ghostCount (g.removeNode k) l = ghostCount g l := by
    unfold ghostCount
    congr 1
    refine List.filter_congr ?_
    intro x hx
    exact ghostFilter_removeNode_ne g k x (fun hxk => hkl (hxk ▸ hx))
  omega

/-- A fold of removals never grows size plus ghost count. -/
theorem fold_removeJoint (l : List NodeID) (hnd : l.Nodup) :
    ∀ (rel : List NodeID) (g : Graph),
      ((rel.foldl (fun g fid => g.removeNode fid) g).size +
        ghostCount (rel.foldl (fun g fid => g.removeNode fid) g) l) ≤
      g.size + ghostCount g l := by
  intro rel
  induction rel with
  | nil => intro g; exact le_refl _
  | cons a t ih =>
    intro g
    exact le_trans (ih (g.removeNode a)) (removeJoint g a l hnd)

/-- The related-filter scan fold keeps ghost status. -/
theorem pairfold_ghost_inv {β : Type} (step : (Graph × β) → NodeID → (Graph × β))
    (h : ∀ s a, ((step s a).1.present = s.1.present) ∧
      ∀ x, ghostFilter (step s a).1 x = ghostFilter s.1 x) :
    ∀ (l : List NodeID) (s : Graph × β),
      ((l.foldl step s).1.present = s.1.present) ∧
      ∀ x, ghostFilter (l.foldl step s).1 x = ghostFilter s.1 x := by
  intro l
  induction l with
  | nil => intro s; exact ⟨rfl, fun x => rfl⟩
  | cons a t ih =>
    intro s
    obtain ⟨hp1, hg1⟩ := h s a
    obtain ⟨hp2, hg2⟩ := ih (step s a)
    exact ⟨hp2.trans hp1, fun x => (hg2 x).trans (hg1 x)⟩

/-- An `updateNode` keeps lookup success. -/
theorem isSome_heapGet?_updateNode (g : Graph) (k : NodeID) (f : ComputeNode → ComputeNode)
    (x : NodeID) :
    (heapGet? (g.updateNode k f).heap x).isSome = (heapGet? g.heap x).isSome := by
  rw [heapGet?_updateNode]
  split
  · cases heapGet? g.heap x <;> rfl
  · rfl

/-- The related-filter scan fold keeps presence, ghost status and lookup success. -/
theorem pairfold_inv3 {β : Type} (step : (Graph × β) → NodeID → (Graph × β))
    (h : ∀ s a, ((step s a).1.present = s.1.present) ∧
      (∀ x, ghostFilter (step s a).1 x = ghostFilter s.1 x) ∧
      (∀ x, (heapGet? (step s a).1.heap x).isSome = (heapGet? s.1.heap x).isSome)) :
    ∀ (l : List NodeID) (s : Graph × β),
      ((l.foldl step s).1.present = s.1.present) ∧
      (∀ x, ghostFilter (l.foldl step s).1 x = ghostFilter s.1 x) ∧
      ∀ x, (heapGet? (l.foldl step s).1.heap x).isSome = (heapGet? s.1.heap x).isSome := by
  intro l
  induction l with
  | nil => intro s; exact ⟨rfl, fun x => rfl, fun x => rfl⟩
  | cons a t ih =>
    intro s
    obtain ⟨hp1, hg1, hs1⟩ := h s a
    obtain ⟨hp2, hg2, hs2⟩ := ih (step s a)
    exact ⟨hp2.trans hp1, fun x => (hg2 x).trans (hg1 x), fun x => (hs2 x).trans (hs1 x)⟩

/-- The scan `mergeRelatedScan` keeps presence, ghost status and lookup success. -/
theorem scan_pres (snapshot : List NodeID) (id : NodeID) (g : Graph) :
    ((mergeRelatedScan snapshot id g).1.present = g.present) ∧
    (∀ x, ghostFilter (mergeRelatedScan snapshot id g).1 x = ghostFilter g x) ∧
    ∀ x, (heapGet? (mergeRelatedScan snapshot id g).1.heap x).isSome =
      (heapGet? g.heap x).isSome := by
  unfold mergeRelatedScan
  refine pairfold_inv3 _ ?_ snapshot (g, [])
  intro s a
  obtain ⟨g0, rel⟩ := s
  simp only
  split
  · exact ⟨rfl, fun x => rfl, fun x => rfl⟩
  · split
    · split
      · exact ⟨rfl, fun x => ghostFilter_updateNode g0 a (setInputs _) (fun n => rfl) x,
          fun x => isSome_heapGet?_updateNode g0 a (setInputs _) x⟩
      · split
        · refine ⟨rfl, fun x => ?_, fun x => ?_⟩
          · exact (ghostFilter_updateNode _ id (setInputs _) (fun n => rfl) x).trans
              (ghostFilter_updateNode g0 a (setInputs _) (fun n => rfl) x)
          · exact (isSome_heapGet?_updateNode _ id (setInputs _) x).trans
              (isSome_heapGet?_updateNode g0 a (setInputs _) x)
        · refine ⟨rfl, fun x => ?_, fun x => ?_⟩
          · exact (ghostFilter_updateNode _ id (setInputs _) (fun n => rfl) x).trans
              (ghostFilter_updateNode g0 a (setInputs _) (fun n => rfl) x)
          · exact (isSome_heapGet?_updateNode _ id (setInputs _) x).trans
              (isSome_heapGet?_updateNode g0 a (setInputs _) x)
    · exact ⟨rfl, fun x => rfl, fun x => rfl⟩

/-- Pointwise-equal ghost predicates give equal ghost counts. -/
theorem ghostCount_congr {g g' : Graph} (h : ∀ x, ghostFilter g' x = ghostFilter g x)
    (l : List NodeID) : ghostCount g' l = ghostCount g l := by
  unfold ghostCount
  congr 1
  exact List.filter_congr (fun x _ => h x)

/-- Equal key lists give equal node counts. -/
theorem size_eq_of_present {g g' : Graph} (h : g'.present = g.present) :
    g'.size = g.size := by
  show g'.present.length = g.present.length
  rw [h]

/-- A ghost head adds one to the ghost count. -/
theorem ghostCount_cons_pos {g : Graph} {id : NodeID} (h : ghostFilter g id = true)
    (l : List NodeID) : ghostCount g (id :: l) = ghostCount g l + 1 := by
  unfold ghostCount
  rw [List.filter_cons_of_pos h]
  simp [Nat.add_comm]

/-- The ghost count of a tail is at most that of the whole list. -/
theorem ghostCount_cons_le {g : Graph} (id : NodeID) (l : List NodeID) :
    ghostCount g l ≤ ghostCount g (id :: l) := by
  unfold ghostCount
  by_cases hg : ghostFilter g id = true
  · rw [List.filter_cons_of_pos hg]
    simp
  · rw [List.filter_cons_of_neg (by simpa using hg)]

/-- A fold of lookup-preserving steps keeps lookup success. -/
theorem foldl_isSome_inv {α : Type} (step : Graph → α → Graph) (x : NodeID)
    (h : ∀ g a, (heapGet? (step g a).heap x).isSome = (heapGet? g.heap x).isSome) :
    ∀ (l : List α) (g : Graph),
      (heapGet? (l.foldl step g).heap x).isSome = (heapGet? g.heap x).isSome := by
  intro l
  induction l with
  | nil => intro g; rfl
  | cons a t ih => intro g; rw [List.foldl_cons, ih, h]

/-- Lookup success after `addNode`: the fresh id resolves, other ids as before. -/
theorem isSome_heapGet?_addNode (g : Graph) (n : ComputeNode) (x : NodeID) :
    (heapGet? (g.addNode n).1.heap x).isSome =
      if x = n.id then true else (heapGet? g.heap x).isSome := by
  unfold Graph.addNode
  rw [isSome_heapGet?_updateNode]
  rw [foldl_isSome_inv _ x (fun g0 a => by
    split
    · exact isSome_heapGet?_updateNode g0 a _ x
    · rfl)]
  by_cases hx : x = n.id
  · rw [if_pos hx, hx]
    show (heapGet? (heapSet g.heap n.id n) n.id).isSome = true
    rw [heapGet?_heapSet_self]
    rfl
  · rw [if_neg hx]
    show (heapGet? (heapSet g.heap n.id n) x).isSome = _
    rw [heapGet?_heapSet_ne g.heap n.id n x hx]

/-- The dependent-rewiring inner fold keeps presence and ghost status. -/
theorem ghost_fold_inv (step : Graph → NodeID → Graph)
    (h : ∀ g a, (step g a).present = g.present ∧
      ∀ x, ghostFilter (step g a) x = ghostFilter g x) :
    ∀ (l : List NodeID) (g : Graph),
      ((l.foldl step g).present = g.present) ∧
      ∀ x, ghostFilter (l.foldl step g) x = ghostFilter g x := by
  intro l
  induction l with
  | nil => intro g; exact ⟨rfl, fun x => rfl⟩
  | cons a t ih =>
    intro g
    obtain ⟨hp1, hg1⟩ := h g a
    obtain ⟨hp2, hg2⟩ := ih (step g a)
    exact ⟨hp2.trans hp1, fun x => (hg2 x).trans (hg1 x)⟩

/-- The dependent-rewiring folds keep presence and ghost status. -/
theorem rewire_fold_pres (newId : NodeID) :
    ∀ (ids : List NodeID) (g : Graph),
      ((ids.foldl (fun g oldId =>
        (((g.findDependentNodes oldId).map (fun x => x.id)).foldl
          (fun g depId => g.updateNode depId (fun dep =>
            { dep with inputs := dep.inputs.map (fun i => if i = oldId then newId else i) }))
          g)) g).present = g.present) ∧
      ∀ x, ghostFilter (ids.foldl (fun g oldId =>
        (((g.findDependentNodes oldId).map (fun x => x.id)).foldl
          (fun g depId => g.updateNode depId (fun dep =>
            { dep with inputs := dep.inputs.map (fun i => if i = oldId then newId else i) }))
          g)) g) x = ghostFilter g x := by
  refine ghost_fold_inv _ ?_
  intro g a
  refine ghost_fold_inv _ ?_ _ _
  intro g0 b
  exact ⟨rfl, fun x => ghostFilter_updateNode g0 b
    (fun dep => { dep with inputs := dep.inputs.map (fun i => if i = a then newId else i) })
    (fun n => rfl) x⟩

/-- Amortised step bound of `mergeFilters`: one iteration never grows size plus ghost count over the remaining snapshot (a ghost head pays for the composite the step may add). -/
theorem mergeStep_joint (snapshot : List NodeID) (g : Graph) (id : NodeID)
    (l : List NodeID) (hnd : l.Nodup) (hidl : id ∉ l) :
    (mergeStep snapshot g id).size + ghostCount (mergeStep snapshot g id) l ≤
      g.size + ghostCount g (id :: l) := by
  unfold mergeStep
  cases hh : heapGet? g.heap id with
  | none =>
    simp only [hh]
    exact Nat.add_le_add_left (ghostCount_cons_le id l) _
  | some node =>
    simp only [hh]
    split
    · exact Nat.add_le_add_left (ghostCount_cons_le id l) _
    · rename_i hfil
      have hfil' : node.isFilterish = true := by simpa using hfil
      obtain ⟨hSpres, hSghost, hSsome⟩ := scan_pres snapshot id g
      split
      · refine le_trans (le_of_eq ?_) (Nat.add_le_add_left (ghostCount_cons_le id l) _)
        rw [size_eq_of_present hSpres, ghostCount_congr hSghost]
      · set gS := (mergeRelatedScan snapshot id g).1 with hgS
        set rel := (mergeRelatedScan snapshot id g).2 with hrel
        set cid := (gS.genId CtrType.compositeFilter).2 with hcid
        set gG := (gS.genId CtrType.compositeFilter).1 with hgG
        set comp : ComputeNode :=
          { id := cid, data := NodeData.compositeFilter "and"
            inputs := match heapGet? gS.heap id with
              | some cur => cur.inputs
              | none => node.inputs
            isTerminal := false, metadata := none } with hcomp
        set gA := (gG.addNode comp).1 with hgA
        set newId := (gG.addNode comp).2 with hnewId
        set gB := gA.removeNode id with hgB
        set gC := List.foldl (fun g fid => g.removeNode fid) gB rel with hgC
        have hGpres : gG.present = gS.present := by rw [hgG]; rfl
        have hGheap : gG.heap = gS.heap := by rw [hgG]; rfl
        have hGghost : ∀ x, ghostFilter gG x = ghostFilter gS x := by
          intro x
          unfold ghostFilter
          rw [hGpres, hGheap]
        have hrw := rewire_fold_pres newId (id :: rel) gC
        rw [size_eq_of_present hrw.1, ghostCount_congr hrw.2]
        have hC := fold_removeJoint l hnd rel gB
        rw [← hgC] at hC
        have hjA : gA.size + ghostCount gA l ≤ gS.size + ghostCount gS l + 1 := by
          have h2 := size_addNode_le gG comp
          have h3 := ghostCount_addNode_le gG comp l
          rw [← hgA] at h2 h3
          rw [size_eq_of_present hGpres] at h2
          rw [ghostCount_congr hGghost] at h3
          omega
        have hSsz : gS.size = g.size := size_eq_of_present hSpres
        have hSgc : ghostCount gS l = ghostCount g l := ghostCount_congr hSghost l
        by_cases hidp : id ∈ g.present
        · have hidpA : id ∈ gA.present := by
            by_cases hide : id = comp.id
            · rw [hgA, hide]
              exact mem_present_addNode_self gG comp
            · rw [hgA]
              rw [mem_present_addNode_ne gG comp id hide, hGpres, hgS]
              rw [hSpres]
              exact hidp
          have hsomeA : (heapGet? gA.heap id).isSome = true := by
            rw [hgA, isSome_heapGet?_addNode]
            by_cases hide : id = comp.id
            · rw [if_pos hide]
            · rw [if_neg hide, hGheap]
              rw [hSsome id, hh]
              rfl
          have hstrict := removeJoint_strict gA id l hidl hidpA hsomeA
          rw [← hgB] at hstrict
          have hfin : ghostCount g l ≤ ghostCount g (id :: l) := ghostCount_cons_le id l
          omega
        · have hgid : ghostFilter g id = true := by
            unfold ghostFilter
            rw [hh]
            simp [hidp, hfil']
          rw [ghostCount_cons_pos hgid]
          have hB := removeJoint gA id l hnd
          rw [← hgB] at hB
          omega

/-- The `mergeFilters` fold is bounded by the initial size plus the ghost count of the snapshot. -/
theorem mergeFold_le (snapshot : List NodeID) :
    ∀ (l : List NodeID), l.Nodup → ∀ g : Graph,
      (l.foldl (mergeStep snapshot) g).size ≤ g.size + ghostCount g l := by
  intro l
  induction l with
  | nil =>
    intro _ g
    exact le_of_eq rfl
  | cons id t ih =>
    intro hnd g
    have hidt : id ∉ t := (List.nodup_cons.mp hnd).1
    have hndt : t.Nodup := (List.nodup_cons.mp hnd).2
    refine le_trans (ih hndt (mergeStep snapshot g id)) ?_
    exact mergeStep_joint snapshot g id t hndt hidt

/-- Under `wfIdsB`, resolving a sublist of present ids returns nodes carrying exactly those ids. -/
theorem filterMap_heapGet_ids {g : Graph} (hwf : g.wfIdsB = true) :
    ∀ l : List NodeID, (∀ x ∈ l, x ∈ g.present) →
      (l.filterMap (heapGet? g.heap)).map (·.id) = l := by
  intro l
  induction l with
  | nil => intro _; rfl
  | cons a t ih =>
    intro hsub
    have ha : a ∈ g.present := hsub a (List.mem_cons_self a t)
    have hs := pres_of_wfIdsB hwf a ha
    cases hg : g.getNode? a with
    | none => rw [hg] at hs; simp at hs
    | some n =>
      have hna : n.id = a := ids_of_wfIdsB hwf a n hg
      have hheap : heapGet? g.heap a = some n := by
        unfold Graph.getNode? at hg
        rw [if_pos ha] at hg
        exact hg
      rw [List.filterMap_cons, hheap]
      show (n :: t.filterMap (heapGet? g.heap)).map (·.id) = a :: t
      rw [List.map_cons, hna, ih (fun x hx => hsub x (List.mem_cons_of_mem a hx))]

/-- Present ids are never ghosts. -/
theorem ghostCount_present_zero (g : Graph) (l : List NodeID)
    (hsub : ∀ x ∈ l, x ∈ g.present) : ghostCount g l = 0 := by
  unfold ghostCount
  have hnil : l.filter (ghostFilter g) = [] := by
    rw [List.filter_eq_nil_iff]
    intro a ha
    simp [ghostFilter, hsub a ha]
  rw [hnil]
  rfl

/-- The filter-merging pass never grows the node count on a graph with duplicate-free keys and consistent stored ids. -/
theorem size_mergeFilters_le (g : Graph) (hnd : g.present.Nodup)
    (hwf : g.wfIdsB = true) : g.mergeFilters.size ≤ g.size := by
  unfold Graph.mergeFilters
  have hids : (g.nodesList.map (·.id)) = g.present := by
    unfold Graph.nodesList
    exact filterMap_heapGet_ids hwf g.present (fun x hx => hx)
  have h := mergeFold_le (g.nodesList.map (·.id))
      (g.nodesList.map (·.id)) (by rw [hids]; exact hnd) g
  have hz : ghostCount g (g.nodesList.map (·.id)) = 0 := by
    rw [hids]
    exact ghostCount_present_zero g g.present (fun x hx => hx)
  rw [hz] at h
  simpa using h

/-- A monadic fold whose steps return the state unchanged returns it unchanged. -/
theorem foldlM_graph_const {α : Type} (f : Graph → α → Except GError Graph) :
    ∀ (l : List α) (g : Graph), (∀ a ∈ l, f g a = Except.ok g) →
      List.foldlM f g l = Except.ok g := by
  intro l
  induction l with
  | nil => intro g _; rfl
  | cons a t ih =>
    intro g h
    rw [List.foldlM_cons, h a (List.mem_cons_self a t), except_bind_ok]
    exact ih g (fun x hx => h x (List.mem_cons_of_mem a hx))

/-- The required-columns pass adds nothing when no required column is missing. -/
theorem ensureRequiredColumns_noop (config : QueryBuilderConfig) (g : Graph)
    (h : noMissingB config g = true) :
    g.ensureRequiredColumns config = Except.ok g := by
  unfold noMissingB at h
  unfold Graph.ensureRequiredColumns
  refine foldlM_graph_const _ _ g ?_
  intro sn hsn
  have hb := List.all_eq_true.mp h sn hsn
  cases hget : alist.get? config.tables sn.sourceTable with
  | none =>
    rw [hget] at hb
    simp at hb
  | some tableConfig =>
    rw [hget] at hb
    simp only [] at hb
    simp only [hget]
    rw [List.isEmpty_iff] at hb
    rw [hb]
    rfl

/-- C9: `optimize()` never yields a net increase in node count. Each rewrite pass is separately non-increasing: the duplicate-projection, inline-parameters, useless-composite-filter and duplicate-projection-expression passes unconditionally, `mergeFilters` on graphs with duplicate-free key lists and consistent stored ids. The final required-columns pass adds nothing when the decidable `noMissingB` check holds of the state reaching it, so a successful non-risky `optimize()` returns at most as many nodes as it was given. -/
theorem C9_optimize_never_grows :
    (∀ g : Graph, g.removedDuplicateProjections.size ≤ g.size) ∧
    (∀ g : Graph, g.inlineParameters.size ≤ g.size) ∧
    (∀ g : Graph, g.present.Nodup → g.wfIdsB = true → g.mergeFilters.size ≤ g.size) ∧
    (∀ g : Graph, g.removeUselessCompositeFilters.size ≤ g.size) ∧
    (∀ g gq : Graph, g.removeDuplicateProjectionExpressions = Except.ok gq →
      gq.size ≤ g.size) ∧
    (∀ (config : QueryBuilderConfig) (g gMid gq : Graph),
      (g.removedDuplicateProjections.inlineParameters).present.Nodup →
      (g.removedDuplicateProjections.inlineParameters).wfIdsB = true →
      g.removedDuplicateProjections.inlineParameters.mergeFilters.removeUselessCompositeFilters.removeDuplicateProjectionExpressions = Except.ok gMid →
      noMissingB config gMid = true →
      g.optimize config false = Except.ok gq →
      gq.size ≤ g.size) := by
  refine ⟨size_removedDuplicateProjections_le, size_inlineParameters_le,
          size_mergeFilters_le, size_removeUselessCompositeFilters_le,
          size_removeDuplicateProjectionExpressions_le, ?_⟩
  intro config g gMid gq hnd hwf hmid hnomiss hopt
  have hopt2 : (g.removedDuplicateProjections.inlineParameters.mergeFilters.removeUselessCompositeFilters.removeDuplicateProjectionExpressions >>= fun gm =>
      gm.ensureRequiredColumns config) = Except.ok gq := hopt
  rw [hmid, except_bind_ok, ensureRequiredColumns_noop config gMid hnomiss] at hopt2
  have hgq : gq = gMid := (Except.ok.inj hopt2).symm
  subst hgq
  have h1 := size_removedDuplicateProjections_le g
  have h2 := size_inlineParameters_le g.removedDuplicateProjections
  have h3 := size_mergeFilters_le _ hnd hwf
  have h4 := size_removeUselessCompositeFilters_le
      (g.removedDuplicateProjections.inlineParameters.mergeFilters)
  have h5 := size_removeDuplicateProjectionExpressions_le _ _ hmid
  omega

/-- C9 at the graph built from the valid query `qC2`: the optimized graph is no larger; every side condition holds by evaluation. -/
theorem C9_witness :
    noMissingB DEFAULT_CONFIG c9GMid = true ∧ c9Gp.size ≤ c9G.size :=
  ⟨by with_unfolding_all rfl,
   C9_optimize_never_grows.2.2.2.2.2 DEFAULT_CONFIG c9G c9GMid c9Gp
     (by with_unfolding_all decide)
     (by with_unfolding_all rfl)
     (by with_unfolding_all rfl)
     (by with_unfolding_all rfl)
     (by with_unfolding_all rfl)⟩


end CompilerService
